import Mathlib

/-!
Verification development for the JABuff circular-buffer library.

The definitions below are a shallow embedding of the three buffer classes
(`FramingRingBuffer2D`, `FramingRingBuffer3D`, `OLARingBuffer2D`) from
`src/include/JABuff/`.  C++ `std::vector` storage is modelled by Lean
lists, `size_t` by `Nat`; where a `size_t` subtraction is not guarded by a
preceding comparison (and can therefore wrap around), it is modelled
explicitly modulo `2 ^ 64` via `sub64`.  Exceptions are modelled by an
explicit `Except ShapeError` result channel.
-/

namespace JABuff

/-- The modulus of the C++ `size_t` type. -/
def U64 : Nat := 2 ^ 64

/-- Unsigned 64-bit subtraction `a - b` with wraparound, matching C++
`size_t` semantics for operands below `2 ^ 64`. -/
def sub64 (a b : Nat) : Nat := (a % U64 + (U64 - b % U64)) % U64

/-- The two exception classes thrown by the buffers:
`std::invalid_argument` (dimension mismatch) and `std::out_of_range`
(offset/count out of bounds). -/
inductive ShapeError where
  | invalidArgument
  | outOfRange
deriving DecidableEq, Repr

instance {ε α : Type} [DecidableEq ε] [DecidableEq α] : DecidableEq (Except ε α) :=
  fun a b =>
    match a, b with
    | .ok x, .ok y =>
        if h : x = y then .isTrue (congrArg Except.ok h)
        else .isFalse fun he => h (Except.ok.inj he)
    | .ok _, .error _ => .isFalse fun he => Except.noConfusion he
    | .error _, .ok _ => .isFalse fun he => Except.noConfusion he
    | .error x, .error y =>
        if h : x = y then .isTrue (congrArg Except.error h)
        else .isFalse fun he => h (Except.error.inj he)

/-- `std::memcpy(buf + pos, src, src.length)`: overwrite `buf` at linear
positions `pos, pos+1, ...` with the elements of `src`. -/
def overwriteAt (buf : List α) (pos : Nat) (src : List α) : List α :=
  buf.take pos ++ src ++ buf.drop (pos + src.length)

/-- The wraparound-safe block copy used by `FramingRingBuffer2D::write`:
copy `src` into the circular buffer starting at index `pos`, splitting
into two `memcpy` calls when the span crosses the physical end. -/
def copyInWrap (cap : Nat) (buf : List α) (pos : Nat) (src : List α) : List α :=
  let spaceToEnd := cap - pos
  if src.length > spaceToEnd then
    overwriteAt (overwriteAt buf pos (src.take spaceToEnd)) 0 (src.drop spaceToEnd)
  else
    overwriteAt buf pos src

/-- The wraparound-safe block copy used by `FramingRingBuffer2D::read`:
copy `len` elements out of the circular buffer starting at index `pos`,
splitting into two `memcpy` calls when the span crosses the physical end. -/
def copyOutWrap (cap : Nat) (buf : List α) (pos len : Nat) : List α :=
  let spaceToEnd := cap - pos
  if len > spaceToEnd then
    (buf.drop pos).take spaceToEnd ++ buf.take (len - spaceToEnd)
  else
    (buf.drop pos).take len

/-- State of `JABuff::FramingRingBuffer2D<T>` (storage plus bookkeeping). -/
structure FramingRingBuffer2D (α : Type) where
  numChannels : Nat
  capacityFeatures : Nat
  frameSizeFeatures : Nat
  hopSizeFeatures : Nat
  minFrames : Nat
  keepFrames : Nat
  buffer : List (List α)
  writeIndexFeatures : Nat
  readIndexFeatures : Nat
  availableFeatures : Nat
deriving DecidableEq, Repr

namespace FramingRingBuffer2D

variable {α : Type}

/-- The constructor: throws (`none`) on invalid parameters, otherwise
zeroed cursors and per-channel storage of `capacity` default elements. -/
def mk2D (α : Type) [Inhabited α] (numChannels capacityFeatures frameSizeFeatures
    hopSizeFeatures minFrames keepFrames : Nat) : Option (FramingRingBuffer2D α) :=
  if numChannels = 0 ∨ capacityFeatures = 0 then none
  else if frameSizeFeatures > capacityFeatures then none
  else if hopSizeFeatures = 0 then none
  else some
    { numChannels := numChannels
      capacityFeatures := capacityFeatures
      frameSizeFeatures := frameSizeFeatures
      hopSizeFeatures := hopSizeFeatures
      minFrames := minFrames
      keepFrames := keepFrames
      buffer := List.replicate numChannels (List.replicate capacityFeatures default)
      writeIndexFeatures := 0
      readIndexFeatures := 0
      availableFeatures := 0 }

def getAvailableFramesRead (s : FramingRingBuffer2D α) : Nat :=
  if s.availableFeatures < s.frameSizeFeatures then 0
  else 1 + (s.availableFeatures - s.frameSizeFeatures) / s.hopSizeFeatures

def getAvailableFeaturesRead (s : FramingRingBuffer2D α) : Nat := s.availableFeatures

def getAvailableWrite (s : FramingRingBuffer2D α) : Nat :=
  sub64 s.capacityFeatures s.availableFeatures

def getCapacity (s : FramingRingBuffer2D α) : Nat := s.capacityFeatures

def isFull (s : FramingRingBuffer2D α) : Bool := s.getAvailableWrite = 0

def isEmpty (s : FramingRingBuffer2D α) : Bool := s.getAvailableFeaturesRead = 0

/-- `FramingRingBuffer2D::validateWriteInput`: shape validation, returning
the calculated write size on success. -/
def validateWriteInput (s : FramingRingBuffer2D α) (dataIn : List (List α))
    (offset numToWrite : Nat) : Except ShapeError Nat :=
  if dataIn.length ≠ s.numChannels then .error .invalidArgument
  else if dataIn.isEmpty then .ok 0
  else
    let inputSize := (dataIn.getD 0 []).length
    if (dataIn.drop 1).any (fun ch => ch.length ≠ inputSize) then .error .invalidArgument
    else if offset ≥ inputSize ∧ inputSize > 0 then .error .outOfRange
    else
      let calculated := if numToWrite = 0 then sub64 inputSize offset else numToWrite
      if (offset + calculated) % U64 > inputSize then .error .outOfRange
      else .ok calculated

/-- `FramingRingBuffer2D::write`.  The result pairs the C++ outcome
(`Except` models the exception vs `bool` return) with the post state. -/
def write (s : FramingRingBuffer2D α) (dataIn : List (List α))
    (offset numToWrite : Nat) : Except ShapeError Bool × FramingRingBuffer2D α :=
  if dataIn.isEmpty then (.ok true, s)
  else
    match s.validateWriteInput dataIn offset numToWrite with
    | .error e => (.error e, s)
    | .ok actual =>
      if actual = 0 then (.ok true, s)
      else if actual > s.getAvailableWrite then (.ok false, s)
      else
        (.ok true,
          { s with
            buffer := List.zipWith
              (fun ch data =>
                copyInWrap s.capacityFeatures ch s.writeIndexFeatures
                  ((data.drop offset).take actual))
              s.buffer dataIn
            writeIndexFeatures :=
              (s.writeIndexFeatures + actual) % s.capacityFeatures
            availableFeatures := s.availableFeatures + actual })

/-- `FramingRingBuffer2D::read`.  `bufferOut` models the caller-supplied
output container; the result is (return value, output container, post state). -/
def read (s : FramingRingBuffer2D α) (bufferOut : List (List α)) (numFrames : Nat) :
    Bool × List (List α) × FramingRingBuffer2D α :=
  let available := s.getAvailableFramesRead
  if available < s.minFrames then (false, bufferOut, s)
  else if numFrames ≠ 0 ∧ available < numFrames then (false, bufferOut, s)
  else
    let countToRead := if numFrames = 0 then available else numFrames
    if countToRead = 0 then (false, [], s)
    else
      let totalSamples := (countToRead - 1) * s.hopSizeFeatures + s.frameSizeFeatures
      let out := s.buffer.map
        (fun ch => copyOutWrap s.capacityFeatures ch s.readIndexFeatures totalSamples)
      let framesConsumed := if countToRead > s.keepFrames then countToRead - s.keepFrames else 0
      let featuresConsumed := framesConsumed * s.hopSizeFeatures
      (true, out,
        { s with
          readIndexFeatures :=
            (s.readIndexFeatures + featuresConsumed) % s.capacityFeatures
          availableFeatures := sub64 s.availableFeatures featuresConsumed })

/-- `FramingRingBuffer2D::clear`. -/
def clear (s : FramingRingBuffer2D α) : FramingRingBuffer2D α :=
  { s with writeIndexFeatures := 0, readIndexFeatures := 0, availableFeatures := 0 }

/-- Structural well-formedness maintained by construction and all
operations (parameter validity and storage geometry). -/
def WF (s : FramingRingBuffer2D α) : Prop :=
  0 < s.numChannels ∧ 0 < s.capacityFeatures ∧
  s.frameSizeFeatures ≤ s.capacityFeatures ∧ 0 < s.hopSizeFeatures ∧
  s.capacityFeatures < U64 ∧
  s.writeIndexFeatures < s.capacityFeatures ∧
  s.readIndexFeatures < s.capacityFeatures ∧
  s.buffer.length = s.numChannels ∧
  ∀ ch ∈ s.buffer, ch.length = s.capacityFeatures

instance (s : FramingRingBuffer2D α) : Decidable s.WF := by
  unfold WF; infer_instance

end FramingRingBuffer2D

/-! ### The 3D (channels × time × features) framing ring buffer -/

/-- `std::memcpy(dest, src, feature_dim * sizeof(T))` into a time-slot:
the first `fd` elements come from `src`, anything beyond stays. -/
def setSlot (fd : Nat) (slot src : List α) : List α := src.take fd ++ slot.drop fd

structure FramingRingBuffer3D (α : Type) where
  numChannels : Nat
  featureDim : Nat
  capacityTime : Nat
  frameSizeTime : Nat
  hopSizeTime : Nat
  minFrames : Nat
  keepFrames : Nat
  buffers : List (List (List α))
  writeIndexTime : Nat
  readIndexTime : Nat
  availableTime : Nat
deriving DecidableEq, Repr

namespace FramingRingBuffer3D

variable {α : Type}

/-- The constructor: `none` models the thrown `std::invalid_argument`. -/
def mk3D (α : Type) [Inhabited α] (numChannels featureDim capacityTime frameSizeTime
    hopSizeTime minFrames keepFrames : Nat) : Option (FramingRingBuffer3D α) :=
  if numChannels = 0 ∨ featureDim = 0 ∨ capacityTime = 0 then none
  else if frameSizeTime > capacityTime then none
  else if hopSizeTime = 0 then none
  else some
    { numChannels := numChannels
      featureDim := featureDim
      capacityTime := capacityTime
      frameSizeTime := frameSizeTime
      hopSizeTime := hopSizeTime
      minFrames := minFrames
      keepFrames := keepFrames
      buffers := List.replicate numChannels
        (List.replicate capacityTime (List.replicate featureDim default))
      writeIndexTime := 0
      readIndexTime := 0
      availableTime := 0 }

def getAvailableFramesRead (s : FramingRingBuffer3D α) : Nat :=
  if s.availableTime < s.frameSizeTime then 0
  else 1 + (s.availableTime - s.frameSizeTime) / s.hopSizeTime

def getAvailableTimeRead (s : FramingRingBuffer3D α) : Nat := s.availableTime

def getAvailableWrite (s : FramingRingBuffer3D α) : Nat :=
  sub64 s.capacityTime s.availableTime

def ready (s : FramingRingBuffer3D α) : Bool :=
  s.getAvailableFramesRead ≥ s.minFrames

/-- `FramingRingBuffer3D::validateWriteInput`: shape validation including
the per-slice feature-dimension check, strictly before any mutation. -/
def validateWriteInput (s : FramingRingBuffer3D α) (dataIn : List (List (List α)))
    (offsetTime numTimeSteps : Nat) : Except ShapeError Nat :=
  if dataIn.length ≠ s.numChannels then .error .invalidArgument
  else if dataIn.isEmpty then .ok 0
  else
    let inputTimeSize := (dataIn.getD 0 []).length
    if (dataIn.drop 1).any (fun c => c.length ≠ inputTimeSize) then .error .invalidArgument
    else if offsetTime ≥ inputTimeSize ∧ inputTimeSize > 0 then .error .outOfRange
    else
      let calculated := if numTimeSteps = 0 then sub64 inputTimeSize offsetTime else numTimeSteps
      if (offsetTime + calculated) % U64 > inputTimeSize then .error .outOfRange
      else if dataIn.any (fun c => ((c.drop offsetTime).take calculated).any
          (fun v => v.length ≠ s.featureDim)) then .error .invalidArgument
      else .ok calculated

/-- `FramingRingBuffer3D::write`: elementwise wraparound copy of whole
time-slots (each slot copied by a `feature_dim`-sized `memcpy`). -/
def write (s : FramingRingBuffer3D α) (dataIn : List (List (List α)))
    (offsetTime numTimeSteps : Nat) : Except ShapeError Bool × FramingRingBuffer3D α :=
  if dataIn.isEmpty then (.ok true, s)
  else
    match s.validateWriteInput dataIn offsetTime numTimeSteps with
    | .error e => (.error e, s)
    | .ok actual =>
      if actual = 0 then (.ok true, s)
      else if actual > s.getAvailableWrite then (.ok false, s)
      else
        (.ok true,
          { s with
            buffers := List.zipWith
              (fun chBuf chData =>
                (List.range actual).foldl
                  (fun b t =>
                    b.set ((s.writeIndexTime + t) % s.capacityTime)
                      (setSlot s.featureDim
                        (b.getD ((s.writeIndexTime + t) % s.capacityTime) [])
                        (chData.getD (offsetTime + t) [])))
                  chBuf)
              s.buffers dataIn
            writeIndexTime := (s.writeIndexTime + actual) % s.capacityTime
            availableTime := s.availableTime + actual })

/-- The per-channel loop of `FramingRingBuffer3D::push`: the feature
dimension of each channel is validated immediately before that channel's
slot is written, so an exception leaves earlier channels already mutated. -/
def pushChannels (fd wI : Nat) :
    List (List (List α) × List α) → Option ShapeError × List (List (List α))
  | [] => (none, [])
  | (chBuf, data) :: rest =>
    if data.length ≠ fd then (some .invalidArgument, chBuf :: rest.map Prod.fst)
    else
      let newCh := chBuf.set wI (setSlot fd (chBuf.getD wI []) data)
      let r := pushChannels fd wI rest
      (r.1, newCh :: r.2)

/-- `FramingRingBuffer3D::push`. -/
def push (s : FramingRingBuffer3D α) (timeStepData : List (List α)) :
    Except ShapeError Bool × FramingRingBuffer3D α :=
  if timeStepData.length ≠ s.numChannels then (.error .invalidArgument, s)
  else if s.getAvailableWrite < 1 then (.ok false, s)
  else
    let r := pushChannels s.featureDim s.writeIndexTime (s.buffers.zip timeStepData)
    match r.1 with
    | some e => (.error e, { s with buffers := r.2 })
    | none =>
      (.ok true,
        { s with
          buffers := r.2
          writeIndexTime := (s.writeIndexTime + 1) % s.capacityTime
          availableTime := s.availableTime + 1 })

/-- `FramingRingBuffer3D::prime`: fill-write so that one more hop-sized
write reaches `min_frames`.  The `bool` result of the internal `write`
call is discarded, exactly as in the source. -/
def prime [Inhabited α] (s : FramingRingBuffer3D α) (value : α) : FramingRingBuffer3D α :=
  let targetTime := sub64 s.minFrames 1 * s.hopSizeTime + s.frameSizeTime
  let timeToPrime := if targetTime > s.hopSizeTime then targetTime - s.hopSizeTime else 0
  if timeToPrime > 0 then
    (s.write (List.replicate s.numChannels
      (List.replicate timeToPrime (List.replicate s.featureDim value))) 0 0).2
  else s

/-- `FramingRingBuffer3D::read`. -/
def read [Inhabited α] (s : FramingRingBuffer3D α) (bufferOut : List (List (List α)))
    (numFrames : Nat) : Bool × List (List (List α)) × FramingRingBuffer3D α :=
  let available := s.getAvailableFramesRead
  if available < s.minFrames then (false, bufferOut, s)
  else if numFrames ≠ 0 ∧ available < numFrames then (false, bufferOut, s)
  else
    let countToRead := if numFrames = 0 then available else numFrames
    if countToRead = 0 then (false, [], s)
    else
      let totalTimeSteps := (countToRead - 1) * s.hopSizeTime + s.frameSizeTime
      let out := s.buffers.map
        (fun chBuf =>
          (List.range totalTimeSteps).map
            (fun t =>
              setSlot s.featureDim (List.replicate s.featureDim default)
                (chBuf.getD ((s.readIndexTime + t) % s.capacityTime) [])))
      let framesConsumed := if countToRead > s.keepFrames then countToRead - s.keepFrames else 0
      let timeConsumed := framesConsumed * s.hopSizeTime
      (true, out,
        { s with
          readIndexTime := (s.readIndexTime + timeConsumed) % s.capacityTime
          availableTime := sub64 s.availableTime timeConsumed })

/-- `FramingRingBuffer3D::clear`. -/
def clear (s : FramingRingBuffer3D α) : FramingRingBuffer3D α :=
  { s with writeIndexTime := 0, readIndexTime := 0, availableTime := 0 }

/-- Structural well-formedness for the 3D buffer. -/
def WF (s : FramingRingBuffer3D α) : Prop :=
  0 < s.numChannels ∧ 0 < s.featureDim ∧ 0 < s.capacityTime ∧
  s.frameSizeTime ≤ s.capacityTime ∧ 0 < s.hopSizeTime ∧
  s.capacityTime < U64 ∧
  s.writeIndexTime < s.capacityTime ∧
  s.readIndexTime < s.capacityTime ∧
  s.buffers.length = s.numChannels ∧
  ∀ chBuf ∈ s.buffers, chBuf.length = s.capacityTime ∧
    ∀ slot ∈ chBuf, slot.length = s.featureDim

instance (s : FramingRingBuffer3D α) : Decidable s.WF := by
  unfold WF; infer_instance

end FramingRingBuffer3D

/-! ### The overlap-add (OLA) crossfade ring buffer, over exact rationals -/

/-- `OLARingBuffer2D::crossfadeCurve`: the Signalsmith cheap
energy-preserving crossfade curve, embedded over ℚ. -/
def crossfadeCurve (x : ℚ) : ℚ :=
  if x ≤ 0 then 0
  else if x ≥ 1 then 1
  else
    let k : ℚ := 14186 / 10000
    let v := x * (1 - x)
    let term := v * (1 + k * v) + x
    term * term

/-- `OLARingBuffer2D::precomputeWindow`: the fade-in table
`window[i] = crossfadeCurve(i / overlap_size)`. -/
def precomputeWindow (overlapSize : Nat) : List ℚ :=
  (List.range overlapSize).map
    (fun i : Nat => crossfadeCurve ((i : ℚ) / (overlapSize : ℚ)))

/-- State of `JABuff::OLARingBuffer2D<T>`. -/
structure OLARingBuffer2D where
  numChannels : Nat
  capacitySamples : Nat
  frameSize : Nat
  overlapSize : Nat
  hopSize : Nat
  buffer : List (List ℚ)
  crossfadeWindow : List ℚ
  writeIndex : Nat
  readIndex : Nat
  availableSamples : Nat
deriving DecidableEq, Repr

namespace OLARingBuffer2D

/-- The constructor: `none` models the thrown `std::invalid_argument`;
the read hop size is fixed to the frame size, storage is zeroed and the
crossfade window precomputed. -/
def mkOLA (numChannels capacitySamples frameSize overlapSize : Nat) :
    Option OLARingBuffer2D :=
  if numChannels = 0 ∨ capacitySamples = 0 then none
  else if frameSize > capacitySamples then none
  else some
    { numChannels := numChannels
      capacitySamples := capacitySamples
      frameSize := frameSize
      overlapSize := overlapSize
      hopSize := frameSize
      buffer := List.replicate numChannels (List.replicate capacitySamples 0)
      crossfadeWindow := precomputeWindow overlapSize
      writeIndex := 0
      readIndex := 0
      availableSamples := 0 }

def getAvailableFramesRead (s : OLARingBuffer2D) : Nat :=
  if s.availableSamples < s.frameSize then 0
  else s.availableSamples / s.frameSize

def getAvailableSamplesRead (s : OLARingBuffer2D) : Nat := s.availableSamples

def getAvailableSpaceWrite (s : OLARingBuffer2D) : Nat :=
  sub64 s.capacitySamples s.availableSamples

/-- The per-channel crossfaded splice of `OLARingBuffer2D::write`:
Part A adds the faded-in head onto the stored tail, Part B overwrites the
body and writes the new faded-out tail. -/
def spliceChannel (s : OLARingBuffer2D) (chBuf chData : List ℚ) (inputLen : Nat) :
    List ℚ :=
  let bufA := (List.range s.overlapSize).foldl
    (fun b i => b.set ((s.writeIndex + i) % s.capacitySamples)
      (b.getD ((s.writeIndex + i) % s.capacitySamples) 0
        + chData.getD i 0 * s.crossfadeWindow.getD i 0)) chBuf
  let remainingLen := inputLen - s.overlapSize
  let bodyStartIdx := (s.writeIndex + s.overlapSize) % s.capacitySamples
  (List.range remainingLen).foldl
    (fun b i => b.set ((bodyStartIdx + i) % s.capacitySamples)
      (if inputLen - 1 - (s.overlapSize + i) < s.overlapSize then
        chData.getD (s.overlapSize + i) 0
          * s.crossfadeWindow.getD
            (if inputLen - 1 - (s.overlapSize + i) ≥ s.overlapSize then s.overlapSize - 1
             else inputLen - 1 - (s.overlapSize + i)) 0
       else chData.getD (s.overlapSize + i) 0)) bufA

/-- `OLARingBuffer2D::write`. -/
def write (s : OLARingBuffer2D) (dataIn : List (List ℚ)) :
    Except ShapeError Bool × OLARingBuffer2D :=
  if dataIn.isEmpty then (.ok true, s)
  else if dataIn.length ≠ s.numChannels then (.error .invalidArgument, s)
  else
    let inputLen := (dataIn.getD 0 []).length
    if inputLen ≤ 2 * s.overlapSize then (.ok false, s)
    else
      let netAdvance := inputLen - s.overlapSize
      if s.availableSamples + netAdvance > s.capacitySamples then (.ok false, s)
      else
        (.ok true,
          { s with
            buffer := List.zipWith (fun chBuf chData => s.spliceChannel chBuf chData inputLen)
              s.buffer dataIn
            writeIndex := (s.writeIndex + netAdvance) % s.capacitySamples
            availableSamples := s.availableSamples + netAdvance })

/-- `OLARingBuffer2D::read`. -/
def read (s : OLARingBuffer2D) (bufferOut : List (List ℚ)) (numFrames : Nat) :
    Bool × List (List ℚ) × OLARingBuffer2D :=
  let availableFrames := s.getAvailableFramesRead
  let countToRead := if numFrames = 0 then availableFrames else numFrames
  if countToRead = 0 ∨ availableFrames < countToRead then (false, bufferOut, s)
  else
    let totalSamples := countToRead * s.frameSize
    let out := s.buffer.map
      (fun ch => copyOutWrap s.capacitySamples ch s.readIndex totalSamples)
    let advance := countToRead * s.hopSize
    (true, out,
      { s with
        readIndex := (s.readIndex + advance) % s.capacitySamples
        availableSamples := sub64 s.availableSamples advance })

/-- `OLARingBuffer2D::primeWithSilence`: zero the `overlap_size` samples at
the current write index without touching cursors or the available count. -/
def primeWithSilence (s : OLARingBuffer2D) : OLARingBuffer2D :=
  { s with
    buffer := s.buffer.map (fun ch =>
      (List.range s.overlapSize).foldl
        (fun b i => b.set ((s.writeIndex + i) % s.capacitySamples) 0) ch) }

/-- `OLARingBuffer2D::clear`. -/
def clear (s : OLARingBuffer2D) : OLARingBuffer2D :=
  { s with
    writeIndex := 0
    readIndex := 0
    availableSamples := 0
    buffer := s.buffer.map (fun ch => ch.map (fun _ => 0)) }

/-- Structural well-formedness for the OLA buffer. -/
def WF (s : OLARingBuffer2D) : Prop :=
  0 < s.numChannels ∧ 0 < s.capacitySamples ∧
  s.frameSize ≤ s.capacitySamples ∧ s.hopSize = s.frameSize ∧
  s.capacitySamples < U64 ∧
  s.writeIndex < s.capacitySamples ∧
  s.readIndex < s.capacitySamples ∧
  s.buffer.length = s.numChannels ∧
  (∀ ch ∈ s.buffer, ch.length = s.capacitySamples) ∧
  s.crossfadeWindow = precomputeWindow s.overlapSize

instance (s : OLARingBuffer2D) : Decidable s.WF := by
  unfold WF; infer_instance

end OLARingBuffer2D

namespace FramingRingBuffer2D

variable {α : Type}

/-- Channel `c` of the storage. -/
def ch (s : FramingRingBuffer2D α) (c : Nat) : List α := s.buffer.getD c []

/-- A sequence of full-block writes; `some` exactly when every write in the
sequence returned `true` (and threw nothing). -/
def writeSeq (s : FramingRingBuffer2D α) :
    List (List (List α)) → Option (FramingRingBuffer2D α)
  | [] => some s
  | b :: bs =>
    match s.write b 0 0 with
    | (.ok true, s₁) => s₁.writeSeq bs
    | _ => none

end FramingRingBuffer2D

namespace FramingRingBuffer3D

variable {α : Type}

/-- Channel `c` of the storage. -/
def chB (s : FramingRingBuffer3D α) (c : Nat) : List (List α) := s.buffers.getD c []

/-- A sequence of full-block writes on the 3D buffer. -/
def writeSeq (s : FramingRingBuffer3D α) :
    List (List (List (List α))) → Option (FramingRingBuffer3D α)
  | [] => some s
  | b :: bs =>
    match s.write b 0 0 with
    | (.ok true, s₁) => s₁.writeSeq bs
    | _ => none

end FramingRingBuffer3D

/-! ### Concrete states used to instantiate the theorems -/

/-- Placeholder state used only as the `Option.getD` default. -/
def frbDflt : FramingRingBuffer2D Int :=
  FramingRingBuffer2D.mk 1 1 1 1 1 0 [[0]] 0 0 0

/-- Placeholder 3D state used only as the `Option.getD` default. -/
def frb3Dflt : FramingRingBuffer3D Int :=
  FramingRingBuffer3D.mk 1 1 1 1 1 1 0 [[[0]]] 0 0 0

/-- Placeholder OLA state used only as the `Option.getD` default. -/
def olaDflt : OLARingBuffer2D :=
  OLARingBuffer2D.mk 1 1 1 0 1 [[0]] [] 0 0 0

/-- 2 channels, capacity 8, frame 4, hop 2, minFrames 1, keepFrames 1, after
one write of 5 features per channel. -/
def frb2Dwit : FramingRingBuffer2D Int :=
  (((FramingRingBuffer2D.mk2D Int 2 8 4 2 1 1).getD frbDflt).write
    [[1, 2, 3, 4, 5], [6, 7, 8, 9, 10]] 0 0).2

/-- 1 channel, featureDim 2, capacity 8, frame 4, hop 2, minFrames 1,
keepFrames 1, after one write of 5 time steps. -/
def frb3Dwit : FramingRingBuffer3D Int :=
  (((FramingRingBuffer3D.mk3D Int 1 2 8 4 2 1 1).getD frb3Dflt).write
    [[[1, 2], [3, 4], [5, 6], [7, 8], [9, 10]]] 0 0).2

/-- The `size_t`-underflow scenario: capacity 10, frame 1, hop 5 (hop larger
than frame), minFrames 1, keepFrames 0, after a write of 6 features. -/
def underflow2D : FramingRingBuffer2D Int :=
  (((FramingRingBuffer2D.mk2D Int 1 10 1 5 1 0).getD frbDflt).write
    [[1, 1, 1, 1, 1, 1]] 0 0).2

/-- OLA buffer: 1 channel, capacity 8, frame 2, overlap 1, after one write
of a 3-sample block. -/
def olaWit : OLARingBuffer2D :=
  (((OLARingBuffer2D.mkOLA 1 8 2 1).getD olaDflt).write [[1, 1, 1]]).2

/-- Bounds-checked store, modelling the raw `buffer_ptr[idx] = v` with the
in-bounds obligation made explicit. -/
def setChecked (l : List ℚ) (i : Nat) (v : ℚ) : Option (List ℚ) :=
  if i < l.length then some (l.set i v) else none

namespace OLARingBuffer2D

/-- Bounds-checked total embedding of the per-channel splice loops of
`OLARingBuffer2D::write`: every raw pointer access of the source —
`input_ptr[i]`, `m_crossfade_window[i]`, `buffer_ptr[idx]` in Part A and
`input_ptr[input_idx]`, `m_crossfade_window[window_idx]`, `buffer_ptr[idx]`
in Part B — is an `Option`-guarded lookup; `none` marks an out-of-range
access that the source performs without any check. -/
def spliceChannelChecked (s : OLARingBuffer2D) (chBuf chData : List ℚ)
    (inputLen : Nat) : Option (List ℚ) :=
  ((List.range s.overlapSize).foldlM
    (fun b i =>
      (b[(s.writeIndex + i) % s.capacitySamples]?).bind (fun cur =>
      (chData[i]?).bind (fun x =>
      (s.crossfadeWindow[i]?).bind (fun w =>
      setChecked b ((s.writeIndex + i) % s.capacitySamples) (cur + x * w)))))
    chBuf).bind (fun bufA =>
  (List.range (inputLen - s.overlapSize)).foldlM
    (fun b i =>
      (chData[s.overlapSize + i]?).bind (fun x =>
      (if inputLen - 1 - (s.overlapSize + i) < s.overlapSize then
        (s.crossfadeWindow[
          if inputLen - 1 - (s.overlapSize + i) ≥ s.overlapSize then s.overlapSize - 1
          else inputLen - 1 - (s.overlapSize + i)]?).bind (fun w => some (x * w))
       else some x).bind (fun sample =>
      setChecked b
        (((s.writeIndex + s.overlapSize) % s.capacitySamples + i) % s.capacitySamples)
        sample)))
    bufA)

/-- `OLARingBuffer2D::write` with every splice access bounds-checked. -/
def writeChecked (s : OLARingBuffer2D) (dataIn : List (List ℚ)) :
    Option (Except ShapeError Bool × OLARingBuffer2D) :=
  if dataIn.isEmpty then some (.ok true, s)
  else if dataIn.length ≠ s.numChannels then some (.error .invalidArgument, s)
  else
    let inputLen := (dataIn.getD 0 []).length
    if inputLen ≤ 2 * s.overlapSize then some (.ok false, s)
    else
      let netAdvance := inputLen - s.overlapSize
      if s.availableSamples + netAdvance > s.capacitySamples then some (.ok false, s)
      else
        ((s.buffer.zip dataIn).mapM
          (fun p => s.spliceChannelChecked p.1 p.2 inputLen)).bind (fun newBuf =>
        some (.ok true,
          { s with
            buffer := newBuf
            writeIndex := (s.writeIndex + netAdvance) % s.capacitySamples
            availableSamples := s.availableSamples + netAdvance }))

end OLARingBuffer2D

/-- Two-channel OLA buffer for the C10 instances:
capacity 8, frame 2, overlap 1. -/
def olaC10 : OLARingBuffer2D := (OLARingBuffer2D.mkOLA 2 8 2 1).getD olaDflt

/-- The spec's state invariant for the 2D buffer: `0 ≤ available ≤ capacity`
and the write cursor sits `available` positions ahead of the read cursor
modulo capacity. -/
def FramingRingBuffer2D.Inv {α : Type} (s : FramingRingBuffer2D α) : Prop :=
  s.availableFeatures ≤ s.capacityFeatures ∧
  s.writeIndexFeatures
    = (s.readIndexFeatures + s.availableFeatures) % s.capacityFeatures

instance {α : Type} (s : FramingRingBuffer2D α) : Decidable s.Inv := by
  unfold FramingRingBuffer2D.Inv; infer_instance

/-- The same invariant for the 3D buffer. -/
def FramingRingBuffer3D.Inv {α : Type} (s : FramingRingBuffer3D α) : Prop :=
  s.availableTime ≤ s.capacityTime ∧
  s.writeIndexTime = (s.readIndexTime + s.availableTime) % s.capacityTime

instance {α : Type} (s : FramingRingBuffer3D α) : Decidable s.Inv := by
  unfold FramingRingBuffer3D.Inv; infer_instance

/-- The same invariant for the OLA buffer. -/
def OLARingBuffer2D.Inv (s : OLARingBuffer2D) : Prop :=
  s.availableSamples ≤ s.capacitySamples ∧
  s.writeIndex = (s.readIndex + s.availableSamples) % s.capacitySamples

instance (s : OLARingBuffer2D) : Decidable s.Inv := by
  unfold OLARingBuffer2D.Inv; infer_instance

/-- The crossfade gain exactly as the spec words it: `g(x) = 0` for
`x ≤ 0`, `1` for `x ≥ 1`, otherwise `(v(1 + k·v) + x)²` with
`v = x(1-x)` and `k = 1.4186`. -/
def gSpec (x : ℚ) : ℚ :=
  if x ≤ 0 then 0
  else if x ≥ 1 then 1
  else
    let k : ℚ := 14186 / 10000
    let v := x * (1 - x)
    (v * (1 + k * v) + x) ^ 2

/-- OLA buffer for the C3 counterexample: capacity 5, frame 1, overlap 3. -/
def olaCex0 : OLARingBuffer2D := (OLARingBuffer2D.mkOLA 1 5 1 3).getD olaDflt

/-- OLA buffer used for the C3 witness: capacity 8, frame 2, overlap 2. -/
def olaAm : OLARingBuffer2D := (OLARingBuffer2D.mkOLA 1 8 2 2).getD olaDflt

/-- 3D buffer for the C4 evidence: 2 channels, featureDim 2, capacity 4,
frame 2, hop 1. -/
def push3D : FramingRingBuffer3D Int :=
  (FramingRingBuffer3D.mk3D Int 2 2 4 2 1 1 0).getD frb3Dflt

/-- 2D buffer with one channel for the C5 counterexample. -/
def frb2D1 : FramingRingBuffer2D Int :=
  (FramingRingBuffer2D.mk2D Int 1 4 2 1 1 0).getD frbDflt

/-- 3D buffer on which `prime` silently no-ops: the fill needed
(`(4-1)*5+5-5 = 15` time steps) exceeds the capacity of 10. -/
def primeCex : FramingRingBuffer3D Int :=
  (FramingRingBuffer3D.mk3D Int 1 1 10 5 5 4 0).getD frb3Dflt

/-- Empty 3D buffer satisfying the amended prime proviso:
1 channel, featureDim 1, capacity 10, frame 5, hop 2, minFrames 3. -/
def primeAm : FramingRingBuffer3D Int :=
  (FramingRingBuffer3D.mk3D Int 1 1 10 5 2 3 0).getD frb3Dflt

/-- Total per-channel length of a sequence of write blocks (each block a
channels × payload container); the length of a block is read off its first
channel, exactly as `write` does. -/
def totalLen {β : Type} (bs : List (List (List β))) : Nat :=
  (bs.map (fun b => (b.getD 0 []).length)).sum

/-- Concatenation of channel `c` across a sequence of write blocks: the
data the caller has handed to channel `c`, in order. -/
def chanConcat {β : Type} (bs : List (List (List β))) (c : Nat) : List β :=
  (bs.map (fun b => b.getD c [])).flatten

/-- Concrete 2D buffer with nonzero aligned cursors, exercising wraparound
in the round trip: capacity 4, cursors at 3. -/
def frbC1 : FramingRingBuffer2D Int :=
  { numChannels := 2, capacityFeatures := 4, frameSizeFeatures := 2,
    hopSizeFeatures := 1, minFrames := 1, keepFrames := 0,
    buffer := [[0, 0, 0, 0], [0, 0, 0, 0]],
    writeIndexFeatures := 3, readIndexFeatures := 3, availableFeatures := 0 }

/-- Concrete 3D buffer with nonzero aligned cursors: capacity 4 time steps,
featureDim 2, cursors at 3. -/
def frb3C1 : FramingRingBuffer3D Int :=
  { numChannels := 1, featureDim := 2, capacityTime := 4, frameSizeTime := 2,
    hopSizeTime := 1, minFrames := 1, keepFrames := 0,
    buffers := [[[0, 0], [0, 0], [0, 0], [0, 0]]],
    writeIndexTime := 3, readIndexTime := 3, availableTime := 0 }

/-! ### Arithmetic helper lemmas -/

theorem sub64_eq_sub {a b : Nat} (hb : b ≤ a) (ha : a < U64) : sub64 a b = a - b := by
  have hbu : b < U64 := lt_of_le_of_lt hb ha
  unfold sub64
  rw [Nat.mod_eq_of_lt ha, Nat.mod_eq_of_lt hbu]
  have h : a + (U64 - b) = (a - b) + U64 := by
    have : b ≤ U64 := Nat.le_of_lt hbu
    omega
  rw [h, Nat.add_mod_right, Nat.mod_eq_of_lt (by omega)]

theorem U64_pos : 0 < U64 := by decide

theorem addMod_inj (cap base : Nat) {i j : Nat} (hi : i < cap) (hj : j < cap)
    (h : (base + i) % cap = (base + j) % cap) : i = j := by
  have hmod : i % cap = j % cap :=
    Nat.ModEq.add_left_cancel' base h
  rwa [Nat.mod_eq_of_lt hi, Nat.mod_eq_of_lt hj] at hmod

theorem addMod_add (cap base i j : Nat) :
    ((base + i) % cap + j) % cap = (base + (i + j)) % cap := by
  rw [Nat.mod_add_mod, Nat.add_assoc]

/-! ### Characterization of the wraparound block copies -/

theorem overwriteAt_length (buf src : List α) (pos : Nat)
    (h : pos + src.length ≤ buf.length) :
    (overwriteAt buf pos src).length = buf.length := by
  simp only [overwriteAt, List.length_append, List.length_take, List.length_drop]
  omega

theorem overwriteAt_getElem?_lt (buf src : List α) (pos j : Nat)
    (hpos : pos ≤ buf.length) (hj : j < pos) :
    (overwriteAt buf pos src)[j]? = buf[j]? := by
  unfold overwriteAt
  rw [List.getElem?_append_left (by simp; omega),
      List.getElem?_append_left (by simp; omega), List.getElem?_take_of_lt hj]

theorem overwriteAt_getElem?_mem (buf src : List α) (pos j : Nat)
    (hpos : pos ≤ buf.length) (hj1 : pos ≤ j) (hj2 : j < pos + src.length) :
    (overwriteAt buf pos src)[j]? = src[j - pos]? := by
  unfold overwriteAt
  rw [List.getElem?_append_left (by simp; omega),
      List.getElem?_append_right (by simp; omega)]
  congr 1
  simp
  omega

theorem overwriteAt_getElem?_ge (buf src : List α) (pos j : Nat)
    (hpos : pos ≤ buf.length) (hj : pos + src.length ≤ j) :
    (overwriteAt buf pos src)[j]? = buf[j]? := by
  unfold overwriteAt
  rw [List.getElem?_append_right (by simp; omega), List.getElem?_drop]
  congr 1
  simp
  omega

theorem copyInWrap_length (cap : Nat) (buf src : List α) (pos : Nat)
    (hb : buf.length = cap) (hpos : pos < cap) (hsrc : src.length ≤ cap) :
    (copyInWrap cap buf pos src).length = cap := by
  unfold copyInWrap
  by_cases h : src.length > cap - pos
  · simp only [h, if_true]
    have h1 : (overwriteAt buf pos (src.take (cap - pos))).length = cap := by
      rw [overwriteAt_length]
      · exact hb
      · simp
        omega
    rw [overwriteAt_length]
    · exact h1
    · rw [h1]
      simp
      omega
  · simp only [h, if_false]
    rw [overwriteAt_length]
    · exact hb
    · omega

theorem copyInWrap_getElem?_new (cap : Nat) (buf src : List α) (pos i : Nat)
    (hb : buf.length = cap) (hpos : pos < cap) (hsrc : src.length ≤ cap)
    (hi : i < src.length) :
    (copyInWrap cap buf pos src)[(pos + i) % cap]? = src[i]? := by
  unfold copyInWrap
  by_cases h : src.length > cap - pos
  · simp only [h, if_true]
    have hlen1 : (overwriteAt buf pos (src.take (cap - pos))).length = cap := by
      rw [overwriteAt_length]
      · exact hb
      · simp
        omega
    by_cases hic : i < cap - pos
    · have hmod : (pos + i) % cap = pos + i := Nat.mod_eq_of_lt (by omega)
      rw [hmod]
      rw [overwriteAt_getElem?_ge _ _ 0 _ (by omega) (by simp; omega)]
      rw [overwriteAt_getElem?_mem _ _ _ _ (by omega) (by omega) (by simp; omega)]
      rw [Nat.add_sub_cancel_left, List.getElem?_take_of_lt hic]
    · have hmod : (pos + i) % cap = i - (cap - pos) := by
        have h1 : cap ≤ pos + i := by omega
        have h2 : pos + i < 2 * cap := by omega
        rw [Nat.mod_eq_sub_mod h1, Nat.mod_eq_of_lt (by omega)]
        omega
      rw [hmod]
      rw [overwriteAt_getElem?_mem _ _ 0 _ (by omega) (by omega) (by simp; omega)]
      rw [Nat.sub_zero, List.getElem?_drop]
      congr 1
      omega
  · simp only [h, if_false]
    have hmod : (pos + i) % cap = pos + i := Nat.mod_eq_of_lt (by omega)
    rw [hmod, overwriteAt_getElem?_mem _ _ _ _ (by omega) (by omega) (by omega),
        Nat.add_sub_cancel_left]

theorem copyInWrap_getElem?_old (cap : Nat) (buf src : List α) (pos q : Nat)
    (hb : buf.length = cap) (hpos : pos < cap) (hsrc : src.length ≤ cap)
    (hq : q < cap) (hout : ∀ i < src.length, (pos + i) % cap ≠ q) :
    (copyInWrap cap buf pos src)[q]? = buf[q]? := by
  unfold copyInWrap
  by_cases h : src.length > cap - pos
  · simp only [h, if_true]
    have hlen1 : (overwriteAt buf pos (src.take (cap - pos))).length = cap := by
      rw [overwriteAt_length]
      · exact hb
      · simp
        omega
    have hq1 : src.length - (cap - pos) ≤ q := by
      by_contra hcon
      apply hout (cap - pos + q)
      · omega
      · have h1 : cap ≤ pos + (cap - pos + q) := by omega
        rw [Nat.mod_eq_sub_mod h1, Nat.mod_eq_of_lt (by omega)]
        omega
    rw [overwriteAt_getElem?_ge _ _ 0 _ (by omega) (by simp; omega)]
    have hq2 : q < pos ∨ cap ≤ q := by
      by_contra hcon
      push_neg at hcon
      apply hout (q - pos)
      · omega
      · rw [Nat.mod_eq_of_lt (by omega)]
        omega
    rcases hq2 with hq2 | hq2
    · exact overwriteAt_getElem?_lt _ _ _ _ (by omega) hq2
    · omega
  · simp only [h, if_false]
    have hq2 : q < pos ∨ pos + src.length ≤ q := by
      by_contra hcon
      push_neg at hcon
      apply hout (q - pos)
      · omega
      · rw [Nat.mod_eq_of_lt (by omega)]
        omega
    rcases hq2 with hq2 | hq2
    · exact overwriteAt_getElem?_lt _ _ _ _ (by omega) hq2
    · exact overwriteAt_getElem?_ge _ _ _ _ (by omega) hq2

theorem copyOutWrap_length (cap : Nat) (buf : List α) (pos len : Nat)
    (hb : buf.length = cap) (hpos : pos < cap) (hlen : len ≤ cap) :
    (copyOutWrap cap buf pos len).length = len := by
  unfold copyOutWrap
  by_cases h : len > cap - pos
  · simp only [h, if_true]
    simp [hb]
    omega
  · simp only [h, if_false]
    simp [hb]
    omega

theorem copyOutWrap_getElem? (cap : Nat) (buf : List α) (pos len j : Nat)
    (hb : buf.length = cap) (hpos : pos < cap) (hlen : len ≤ cap) (hj : j < len) :
    (copyOutWrap cap buf pos len)[j]? = buf[(pos + j) % cap]? := by
  unfold copyOutWrap
  by_cases h : len > cap - pos
  · simp only [h, if_true]
    by_cases hjc : j < cap - pos
    · rw [List.getElem?_append_left (by simp [hb]; omega),
          List.getElem?_take_of_lt hjc, List.getElem?_drop]
      congr 1
      rw [Nat.mod_eq_of_lt (by omega)]
    · rw [List.getElem?_append_right (by simp [hb]; omega)]
      have hlt : j - ((buf.drop pos).take (cap - pos)).length = j - (cap - pos) := by
        simp [hb]
      rw [hlt, List.getElem?_take_of_lt (by omega)]
      congr 1
      have h1 : cap ≤ pos + j := by omega
      rw [Nat.mod_eq_sub_mod h1, Nat.mod_eq_of_lt (by omega)]
      omega
  · simp only [h, if_false]
    rw [List.getElem?_take_of_lt hj, List.getElem?_drop]
    congr 1
    rw [Nat.mod_eq_of_lt (by omega)]

/-! ### Characterization of elementwise circular writes (foldl over set) -/

theorem foldl_set_length (f : Nat → Nat) (g : List α → Nat → α) (n : Nat) (buf : List α) :
    ((List.range n).foldl (fun b i => b.set (f i) (g b i)) buf).length = buf.length := by
  induction n generalizing buf with
  | zero => rfl
  | succ m ih =>
    rw [List.range_succ, List.foldl_append]
    simp only [List.foldl_cons, List.foldl_nil, List.length_set]
    exact ih buf

theorem foldl_set_getElem?_miss (f : Nat → Nat) (g : List α → Nat → α) (n q : Nat)
    (buf : List α) (hq : ∀ i < n, f i ≠ q) :
    ((List.range n).foldl (fun b i => b.set (f i) (g b i)) buf)[q]? = buf[q]? := by
  induction n generalizing buf with
  | zero => rfl
  | succ m ih =>
    rw [List.range_succ, List.foldl_append]
    simp only [List.foldl_cons, List.foldl_nil]
    rw [List.getElem?_set_ne (hq m (Nat.lt_succ_self m))]
    exact ih buf (fun i hi => hq i (Nat.lt_succ_of_lt hi))

theorem foldl_set_getElem?_hit_pure (f : Nat → Nat) (h : Nat → α) (n i : Nat)
    (buf : List α) (hi : i < n)
    (hinj : ∀ i₁ < n, ∀ i₂ < n, f i₁ = f i₂ → i₁ = i₂)
    (hb : f i < buf.length) :
    ((List.range n).foldl (fun b j => b.set (f j) (h j)) buf)[f i]? = some (h i) := by
  induction n generalizing buf with
  | zero => omega
  | succ m ih =>
    rw [List.range_succ, List.foldl_append]
    simp only [List.foldl_cons, List.foldl_nil]
    by_cases hcase : i = m
    · have hlen : f i < ((List.range m).foldl (fun b j => b.set (f j) (h j)) buf).length := by
        rw [foldl_set_length]
        exact hb
      rw [hcase] at hlen ⊢
      exact List.getElem?_set_self hlen
    · have hne : f m ≠ f i := by
        intro hcon
        exact hcase (hinj i hi m (Nat.lt_succ_self m) hcon.symm)
      rw [List.getElem?_set_ne hne]
      exact ih buf (by omega)
        (fun i₁ h₁ i₂ h₂ he => hinj i₁ (Nat.lt_succ_of_lt h₁) i₂ (Nat.lt_succ_of_lt h₂) he)
        hb

theorem foldl_set_getElem?_hit_upd (f : Nat → Nat) (g : Nat → α → α) (d : α) (n i : Nat)
    (buf : List α) (hi : i < n)
    (hinj : ∀ i₁ < n, ∀ i₂ < n, f i₁ = f i₂ → i₁ = i₂)
    (hb : f i < buf.length) :
    ((List.range n).foldl (fun b j => b.set (f j) (g j (b.getD (f j) d))) buf)[f i]?
      = some (g i (buf.getD (f i) d)) := by
  induction n generalizing buf with
  | zero => omega
  | succ m ih =>
    rw [List.range_succ, List.foldl_append]
    simp only [List.foldl_cons, List.foldl_nil]
    by_cases hcase : i = m
    · have hmiss : ((List.range m).foldl
          (fun b j => b.set (f j) (g j (b.getD (f j) d))) buf)[f i]? = buf[f i]? :=
        foldl_set_getElem?_miss f (fun b j => g j (b.getD (f j) d)) m (f i) buf
          (fun j hj hcon => by
            have hji : j = i := hinj j (Nat.lt_succ_of_lt hj) i hi hcon
            omega)
      have hlen : f i < ((List.range m).foldl
          (fun b j => b.set (f j) (g j (b.getD (f j) d))) buf).length := by
        rw [foldl_set_length]
        exact hb
      rw [hcase] at hmiss hlen ⊢
      rw [List.getElem?_set_self hlen]
      rw [List.getD_eq_getElem?_getD, List.getD_eq_getElem?_getD, hmiss]
    · have hne : f m ≠ f i := by
        intro hcon
        exact hcase (hinj i hi m (Nat.lt_succ_self m) hcon.symm)
      rw [List.getElem?_set_ne hne]
      exact ih buf (by omega)
        (fun i₁ h₁ i₂ h₂ he => hinj i₁ (Nat.lt_succ_of_lt h₁) i₂ (Nat.lt_succ_of_lt h₂) he)
        hb

/-! ### Generic list access helpers -/

theorem getD_eq_of_getElem? {l : List α} {i : Nat} {a d : α} (h : l[i]? = some a) :
    l.getD i d = a := by
  rw [List.getD_eq_getElem?_getD, h]
  rfl

theorem getElem?_eq_some_getD {l : List α} {i : Nat} (h : i < l.length) (d : α) :
    l[i]? = some (l.getD i d) := by
  rw [List.getD_eq_getElem?_getD, List.getElem?_eq_getElem h]
  rfl

theorem zipWith_getElem?_some {f : α → β → γ} {as : List α} {bs : List β} {c : Nat}
    {a : α} {b : β} (ha : as[c]? = some a) (hb : bs[c]? = some b) :
    (List.zipWith f as bs)[c]? = some (f a b) := by
  rw [List.getElem?_zipWith, ha, hb]

theorem sub64_zero (a : Nat) : sub64 a 0 = a % U64 := by
  unfold sub64
  rw [Nat.zero_mod, Nat.sub_zero, Nat.add_mod_right]
  exact Nat.mod_mod_of_dvd a dvd_rfl

namespace FramingRingBuffer2D

variable {α : Type}

theorem WF.ch_length {s : FramingRingBuffer2D α} (hwf : s.WF) {c : Nat}
    (hc : c < s.numChannels) : (s.ch c).length = s.capacityFeatures := by
  obtain ⟨-, -, -, -, -, -, -, hlen, hall⟩ := hwf
  have hc2 : c < s.buffer.length := by omega
  have : s.ch c = s.buffer[c] := by
    unfold ch
    exact getD_eq_of_getElem? (List.getElem?_eq_getElem hc2)
  rw [this]
  exact hall _ (List.getElem_mem hc2)

theorem validate_full_ok (s : FramingRingBuffer2D α) (dataIn : List (List α))
    (hch : dataIn.length = s.numChannels) (hnc : 0 < s.numChannels)
    (hcons : ∀ c ∈ dataIn, c.length = (dataIn.getD 0 []).length)
    (hL : (dataIn.getD 0 []).length < U64) :
    s.validateWriteInput dataIn 0 0 = .ok (dataIn.getD 0 []).length := by
  unfold validateWriteInput
  rw [if_neg (by simp [hch])]
  rw [if_neg (by simp [List.isEmpty_iff]; intro hnil; rw [hnil] at hch; simp at hch; omega)]
  rw [if_neg (by
    simp only [List.any_eq_true, not_exists, not_and, decide_eq_true_eq]
    intro c hc
    simp only [ne_eq, Decidable.not_not]
    exact hcons c (List.mem_of_mem_drop hc))]
  rw [if_neg (by omega)]
  have hL2 : (dataIn[0]?.getD []).length < U64 := by
    rw [← List.getD_eq_getElem?_getD]
    exact hL
  have hc : sub64 (dataIn[0]?.getD []).length 0 = (dataIn[0]?.getD []).length := by
    rw [sub64_zero]
    exact Nat.mod_eq_of_lt hL2
  simp [hc, Nat.mod_eq_of_lt hL2]

/-- Full characterization of a successful full-block write
(`write(data_in)` with default offset and count) that fits capacity. -/
theorem write_full_spec (s : FramingRingBuffer2D α) (dataIn : List (List α))
    (hwf : s.WF) (hav : s.availableFeatures ≤ s.capacityFeatures)
    (hch : dataIn.length = s.numChannels)
    (hcons : ∀ c ∈ dataIn, c.length = (dataIn.getD 0 []).length)
    (hL : (dataIn.getD 0 []).length < U64)
    (hfit : s.availableFeatures + (dataIn.getD 0 []).length ≤ s.capacityFeatures) :
    (s.write dataIn 0 0).1 = .ok true ∧
    (s.write dataIn 0 0).2.numChannels = s.numChannels ∧
    (s.write dataIn 0 0).2.capacityFeatures = s.capacityFeatures ∧
    (s.write dataIn 0 0).2.frameSizeFeatures = s.frameSizeFeatures ∧
    (s.write dataIn 0 0).2.hopSizeFeatures = s.hopSizeFeatures ∧
    (s.write dataIn 0 0).2.minFrames = s.minFrames ∧
    (s.write dataIn 0 0).2.keepFrames = s.keepFrames ∧
    (s.write dataIn 0 0).2.readIndexFeatures = s.readIndexFeatures ∧
    (s.write dataIn 0 0).2.writeIndexFeatures
      = (s.writeIndexFeatures + (dataIn.getD 0 []).length) % s.capacityFeatures ∧
    (s.write dataIn 0 0).2.availableFeatures
      = s.availableFeatures + (dataIn.getD 0 []).length ∧
    (s.write dataIn 0 0).2.WF ∧
    (∀ c < s.numChannels, ∀ i < (dataIn.getD 0 []).length,
      ((s.write dataIn 0 0).2.ch c)[(s.writeIndexFeatures + i) % s.capacityFeatures]?
        = (dataIn.getD c [])[i]?) ∧
    (∀ c < s.numChannels, ∀ q < s.capacityFeatures,
      (∀ i < (dataIn.getD 0 []).length, (s.writeIndexFeatures + i) % s.capacityFeatures ≠ q) →
      ((s.write dataIn 0 0).2.ch c)[q]? = (s.ch c)[q]?) := by
  obtain ⟨hnc, hcap, hfr, hhop, hU, hwi, hri, hblen, hball⟩ := hwf
  have hwf' : s.WF := ⟨hnc, hcap, hfr, hhop, hU, hwi, hri, hblen, hball⟩
  set L := (dataIn.getD 0 []).length with hLdef
  have hval := validate_full_ok s dataIn hch hnc hcons hL
  have hnonempty : ¬ dataIn.isEmpty := by
    simp [List.isEmpty_iff]
    intro hnil
    rw [hnil] at hch
    simp at hch
    omega
  unfold write
  rw [if_neg hnonempty, hval]
  simp only
  by_cases hL0 : L = 0
  · rw [if_pos hL0]
    refine ⟨rfl, rfl, rfl, rfl, rfl, rfl, rfl, rfl, ?_, ?_, hwf', ?_, ?_⟩
    · show s.writeIndexFeatures = (s.writeIndexFeatures + L) % s.capacityFeatures
      rw [hL0, Nat.add_zero, Nat.mod_eq_of_lt hwi]
    · show s.availableFeatures = s.availableFeatures + L
      omega
    · intro c hc i hi
      omega
    · intro c hc q hq hmiss
      rfl
  · rw [if_neg hL0]
    have hgw : s.getAvailableWrite = s.capacityFeatures - s.availableFeatures := by
      unfold getAvailableWrite
      exact sub64_eq_sub hav hU
    rw [if_neg (by rw [hgw]; omega)]
    have hchlen : ∀ c < s.numChannels, (s.buffer.getD c []).length = s.capacityFeatures := by
      intro c hc
      have hc1 : c < s.buffer.length := by omega
      have he : s.buffer.getD c [] = s.buffer[c] :=
        getD_eq_of_getElem? (List.getElem?_eq_getElem hc1)
      rw [he]
      exact hball _ (List.getElem_mem hc1)
    have hdlen : ∀ c < s.numChannels, (dataIn.getD c []).length = L := by
      intro c hc
      have hc2 : c < dataIn.length := by omega
      have he : dataIn.getD c [] = dataIn[c] :=
        getD_eq_of_getElem? (List.getElem?_eq_getElem hc2)
      rw [he]
      exact hcons _ (List.getElem_mem hc2)
    have hchan : ∀ c < s.numChannels,
        ((List.zipWith (fun ch data => copyInWrap s.capacityFeatures ch s.writeIndexFeatures
          ((data.drop 0).take L)) s.buffer dataIn).getD c [])
        = copyInWrap s.capacityFeatures (s.buffer.getD c []) s.writeIndexFeatures
            (dataIn.getD c []) := by
      intro c hc
      have hc1 : c < s.buffer.length := by omega
      have hc2 : c < dataIn.length := by omega
      have hz := zipWith_getElem?_some
        (f := fun ch data => copyInWrap s.capacityFeatures ch s.writeIndexFeatures
          ((data.drop 0).take L))
        (getElem?_eq_some_getD hc1 []) (getElem?_eq_some_getD hc2 [])
      rw [getD_eq_of_getElem? hz]
      simp only [List.drop_zero]
      rw [← hdlen c hc, List.take_length]
    refine ⟨rfl, rfl, rfl, rfl, rfl, rfl, rfl, rfl, rfl, rfl, ?_, ?_, ?_⟩
    · refine ⟨hnc, hcap, hfr, hhop, hU, ?_, hri, ?_, ?_⟩
      · exact Nat.mod_lt _ hcap
      · show (List.zipWith _ s.buffer dataIn).length = s.numChannels
        rw [List.length_zipWith]
        omega
      · intro c hcmem
        obtain ⟨i, hilt, hieq⟩ := List.getElem_of_mem hcmem
        have hilen : i < s.numChannels := by
          rw [List.length_zipWith] at hilt
          omega
        have he : (List.zipWith (fun ch data => copyInWrap s.capacityFeatures ch
            s.writeIndexFeatures ((data.drop 0).take L)) s.buffer dataIn)[i]
          = ((List.zipWith (fun ch data => copyInWrap s.capacityFeatures ch
            s.writeIndexFeatures ((data.drop 0).take L)) s.buffer dataIn).getD i []) :=
          (getD_eq_of_getElem? (List.getElem?_eq_getElem hilt)).symm
        rw [← hieq, he, hchan i hilen]
        exact copyInWrap_length _ _ _ _ (hchlen i hilen) hwi (by rw [hdlen i hilen]; omega)
    · intro c hc i hi
      simp only [ch]
      rw [hchan c hc]
      rw [copyInWrap_getElem?_new _ _ _ _ _ (hchlen c hc) hwi
        (by rw [hdlen c hc]; omega) (by rw [hdlen c hc]; exact hi)]
    · intro c hc q hq hmiss
      simp only [ch]
      rw [hchan c hc]
      exact copyInWrap_getElem?_old _ _ _ _ _ (hchlen c hc) hwi
        (by rw [hdlen c hc]; omega) hq (by rw [hdlen c hc]; exact hmiss)

/-- A read requesting strictly more frames than are available fails and
leaves the buffer state and caller output untouched. -/
theorem read_insufficient (s : FramingRingBuffer2D α) (out : List (List α)) (N : Nat)
    (hN : s.getAvailableFramesRead < N) :
    s.read out N = (false, out, s) := by
  unfold read
  by_cases h1 : s.getAvailableFramesRead < s.minFrames
  · rw [if_pos h1]
  · rw [if_neg h1, if_pos ⟨by omega, hN⟩]

theorem span_le_avail (s : FramingRingBuffer2D α) {count : Nat}
    (hc0 : count ≠ 0) (hcfa : count ≤ s.getAvailableFramesRead)
    (hhop : 0 < s.hopSizeFeatures) :
    (count - 1) * s.hopSizeFeatures + s.frameSizeFeatures ≤ s.availableFeatures := by
  unfold getAvailableFramesRead at hcfa
  by_cases h : s.availableFeatures < s.frameSizeFeatures
  · rw [if_pos h] at hcfa
    omega
  · rw [if_neg h] at hcfa
    have h1 : count - 1 ≤ (s.availableFeatures - s.frameSizeFeatures) / s.hopSizeFeatures := by
      omega
    have h2 : (count - 1) * s.hopSizeFeatures
        ≤ ((s.availableFeatures - s.frameSizeFeatures) / s.hopSizeFeatures)
          * s.hopSizeFeatures := Nat.mul_le_mul_right _ h1
    have h3 : ((s.availableFeatures - s.frameSizeFeatures) / s.hopSizeFeatures)
        * s.hopSizeFeatures ≤ s.availableFeatures - s.frameSizeFeatures :=
      Nat.div_mul_le_self _ _
    omega

/-- Full characterization of a successful read: result, output contents,
and consumption-policy state update. -/
theorem read_success_spec (s : FramingRingBuffer2D α) (out : List (List α))
    (N count span consumed : Nat)
    (hmin : s.minFrames ≤ s.getAvailableFramesRead)
    (hcount : count = if N = 0 then s.getAvailableFramesRead else N)
    (hc0 : count ≠ 0) (hcfa : count ≤ s.getAvailableFramesRead)
    (hspan : span = (count - 1) * s.hopSizeFeatures + s.frameSizeFeatures)
    (hconsumed : consumed
      = (if count > s.keepFrames then count - s.keepFrames else 0) * s.hopSizeFeatures) :
    (s.read out N).1 = true ∧
    (s.read out N).2.1
      = s.buffer.map (fun c => copyOutWrap s.capacityFeatures c s.readIndexFeatures span) ∧
    (s.read out N).2.2 = { s with
      readIndexFeatures := (s.readIndexFeatures + consumed) % s.capacityFeatures
      availableFeatures := sub64 s.availableFeatures consumed } := by
  unfold read
  rw [if_neg (by omega)]
  rw [if_neg (by
    rintro ⟨hne, hlt⟩
    have hcN : count = N := by rw [hcount, if_neg hne]
    omega)]
  rw [← hcount, if_neg hc0, ← hspan]
  subst hconsumed
  exact ⟨rfl, rfl, rfl⟩

end FramingRingBuffer2D

theorem getD_map_of_lt {α β : Type} {f : α → β} {l : List α} {c : Nat} (hc : c < l.length)
    (d : α) (e : β) : (l.map f).getD c e = f (l.getD c d) := by
  have h1 : (l.map f)[c]? = some (f l[c]) := by
    rw [List.getElem?_map, List.getElem?_eq_getElem hc]
    rfl
  rw [getD_eq_of_getElem? h1, getD_eq_of_getElem? (List.getElem?_eq_getElem hc)]

theorem getD_mem_of_lt {l : List α} {i : Nat} (h : i < l.length) (d : α) :
    l.getD i d ∈ l := by
  rw [getD_eq_of_getElem? (List.getElem?_eq_getElem h)]
  exact List.getElem_mem h

theorem setSlot_eq {fd : Nat} {slot src : List α} (hslot : slot.length = fd)
    (hsrc : src.length = fd) : setSlot fd slot src = src := by
  unfold setSlot
  rw [← hsrc, List.take_length, hsrc, ← hslot, List.drop_length, List.append_nil]

namespace FramingRingBuffer3D

variable {α : Type}

theorem writeFold_hit (cap fd wI L : Nat) (chBuf chData : List (List α))
    (hlen : chBuf.length = cap) (hL : L ≤ cap) (hcap : 0 < cap)
    (t : Nat) (ht : t < L) :
    ((List.range L).foldl
      (fun b u => b.set ((wI + u) % cap)
        (setSlot fd (b.getD ((wI + u) % cap) []) (chData.getD (0 + u) []))) chBuf)[(wI + t) % cap]?
      = some (setSlot fd (chBuf.getD ((wI + t) % cap) []) (chData.getD (0 + t) [])) := by
  exact foldl_set_getElem?_hit_upd (fun u => (wI + u) % cap)
    (fun u v => setSlot fd v (chData.getD (0 + u) [])) [] L t chBuf ht
    (fun i₁ h₁ i₂ h₂ he => addMod_inj cap wI (by omega) (by omega) he)
    (by rw [hlen]; exact Nat.mod_lt _ hcap)

theorem writeFold_miss (cap fd wI L : Nat) (chBuf chData : List (List α))
    (q : Nat) (hq : ∀ t < L, (wI + t) % cap ≠ q) :
    ((List.range L).foldl
      (fun b u => b.set ((wI + u) % cap)
        (setSlot fd (b.getD ((wI + u) % cap) []) (chData.getD (0 + u) []))) chBuf)[q]?
      = chBuf[q]? := by
  exact foldl_set_getElem?_miss (fun u => (wI + u) % cap)
    (fun b u => setSlot fd (b.getD ((wI + u) % cap) []) (chData.getD (0 + u) [])) L q chBuf hq

theorem validate_full_ok3 (s : FramingRingBuffer3D α) (dataIn : List (List (List α)))
    (hch : dataIn.length = s.numChannels) (hnc : 0 < s.numChannels)
    (hcons : ∀ c ∈ dataIn, c.length = (dataIn.getD 0 []).length)
    (hfeat : ∀ c ∈ dataIn, ∀ v ∈ c, v.length = s.featureDim)
    (hL : (dataIn.getD 0 []).length < U64) :
    s.validateWriteInput dataIn 0 0 = .ok (dataIn.getD 0 []).length := by
  unfold validateWriteInput
  rw [if_neg (by simp [hch])]
  rw [if_neg (by simp [List.isEmpty_iff]; intro hnil; rw [hnil] at hch; simp at hch; omega)]
  rw [if_neg (by
    simp only [List.any_eq_true, not_exists, not_and, decide_eq_true_eq]
    intro c hc
    simp only [ne_eq, Decidable.not_not]
    exact hcons c (List.mem_of_mem_drop hc))]
  rw [if_neg (by omega)]
  have hcalc : (if (0 : Nat) = 0 then sub64 (dataIn.getD 0 []).length 0 else 0)
      = (dataIn.getD 0 []).length := by
    rw [if_pos rfl, sub64_zero]
    exact Nat.mod_eq_of_lt hL
  rw [hcalc]
  rw [if_neg (by rw [Nat.zero_add, Nat.mod_eq_of_lt hL]; omega)]
  rw [if_neg (by
    simp only [List.any_eq_true, not_exists, not_and, decide_eq_true_eq]
    intro c hcmem
    simp only [List.drop_zero, not_exists, not_and]
    intro v hv
    simp only [ne_eq, Decidable.not_not]
    exact hfeat c hcmem v (List.mem_of_mem_take hv))]

/-- Full characterization of a successful full-block 3D write that fits
capacity: each written time-slot equals the corresponding input vector. -/
theorem write_full_spec3 (s : FramingRingBuffer3D α) (dataIn : List (List (List α)))
    (hwf : s.WF) (hav : s.availableTime ≤ s.capacityTime)
    (hch : dataIn.length = s.numChannels)
    (hcons : ∀ c ∈ dataIn, c.length = (dataIn.getD 0 []).length)
    (hfeat : ∀ c ∈ dataIn, ∀ v ∈ c, v.length = s.featureDim)
    (hL : (dataIn.getD 0 []).length < U64)
    (hfit : s.availableTime + (dataIn.getD 0 []).length ≤ s.capacityTime) :
    (s.write dataIn 0 0).1 = .ok true ∧
    (s.write dataIn 0 0).2.numChannels = s.numChannels ∧
    (s.write dataIn 0 0).2.featureDim = s.featureDim ∧
    (s.write dataIn 0 0).2.capacityTime = s.capacityTime ∧
    (s.write dataIn 0 0).2.frameSizeTime = s.frameSizeTime ∧
    (s.write dataIn 0 0).2.hopSizeTime = s.hopSizeTime ∧
    (s.write dataIn 0 0).2.minFrames = s.minFrames ∧
    (s.write dataIn 0 0).2.keepFrames = s.keepFrames ∧
    (s.write dataIn 0 0).2.readIndexTime = s.readIndexTime ∧
    (s.write dataIn 0 0).2.writeIndexTime
      = (s.writeIndexTime + (dataIn.getD 0 []).length) % s.capacityTime ∧
    (s.write dataIn 0 0).2.availableTime
      = s.availableTime + (dataIn.getD 0 []).length ∧
    (s.write dataIn 0 0).2.WF ∧
    (∀ c < s.numChannels, ∀ t < (dataIn.getD 0 []).length,
      ((s.write dataIn 0 0).2.chB c)[(s.writeIndexTime + t) % s.capacityTime]?
        = (dataIn.getD c [])[t]?) ∧
    (∀ c < s.numChannels, ∀ q < s.capacityTime,
      (∀ t < (dataIn.getD 0 []).length, (s.writeIndexTime + t) % s.capacityTime ≠ q) →
      ((s.write dataIn 0 0).2.chB c)[q]? = (s.chB c)[q]?) := by
  obtain ⟨hnc, hfd, hcap, hfr, hhop, hU, hwi, hri, hblen, hball⟩ := hwf
  have hwf' : s.WF := ⟨hnc, hfd, hcap, hfr, hhop, hU, hwi, hri, hblen, hball⟩
  set L := (dataIn.getD 0 []).length with hLdef
  have hval := validate_full_ok3 s dataIn hch hnc hcons hfeat hL
  have hnonempty : ¬ dataIn.isEmpty := by
    simp [List.isEmpty_iff]
    intro hnil
    rw [hnil] at hch
    simp at hch
    omega
  unfold write
  rw [if_neg hnonempty, hval]
  simp only
  have hchlen : ∀ c < s.numChannels, (s.buffers.getD c []).length = s.capacityTime := by
    intro c hc
    have hc1 : c < s.buffers.length := by omega
    have he : s.buffers.getD c [] = s.buffers[c] :=
      getD_eq_of_getElem? (List.getElem?_eq_getElem hc1)
    rw [he]
    exact (hball _ (List.getElem_mem hc1)).1
  have hchslot : ∀ c < s.numChannels, ∀ slot ∈ s.buffers.getD c [], slot.length = s.featureDim := by
    intro c hc
    have hc1 : c < s.buffers.length := by omega
    have he : s.buffers.getD c [] = s.buffers[c] :=
      getD_eq_of_getElem? (List.getElem?_eq_getElem hc1)
    rw [he]
    exact (hball _ (List.getElem_mem hc1)).2
  have hdlen : ∀ c < s.numChannels, (dataIn.getD c []).length = L := by
    intro c hc
    have hc2 : c < dataIn.length := by omega
    have he : dataIn.getD c [] = dataIn[c] :=
      getD_eq_of_getElem? (List.getElem?_eq_getElem hc2)
    rw [he]
    exact hcons _ (List.getElem_mem hc2)
  have hdfeat : ∀ c < s.numChannels, ∀ v ∈ dataIn.getD c [], v.length = s.featureDim := by
    intro c hc
    have hc2 : c < dataIn.length := by omega
    have he : dataIn.getD c [] = dataIn[c] :=
      getD_eq_of_getElem? (List.getElem?_eq_getElem hc2)
    rw [he]
    exact hfeat _ (List.getElem_mem hc2)
  by_cases hL0 : L = 0
  · rw [if_pos hL0]
    refine ⟨rfl, rfl, rfl, rfl, rfl, rfl, rfl, rfl, rfl, ?_, ?_, hwf', ?_, ?_⟩
    · show s.writeIndexTime = (s.writeIndexTime + L) % s.capacityTime
      rw [hL0, Nat.add_zero, Nat.mod_eq_of_lt hwi]
    · show s.availableTime = s.availableTime + L
      omega
    · intro c hc t ht
      omega
    · intro c hc q hq hmiss
      rfl
  · rw [if_neg hL0]
    have hgw : s.getAvailableWrite = s.capacityTime - s.availableTime := by
      unfold getAvailableWrite
      exact sub64_eq_sub hav hU
    rw [if_neg (by rw [hgw]; omega)]
    have hchan : ∀ c < s.numChannels,
        ((List.zipWith (fun chBuf chData => (List.range L).foldl
          (fun b t => b.set ((s.writeIndexTime + t) % s.capacityTime)
            (setSlot s.featureDim (b.getD ((s.writeIndexTime + t) % s.capacityTime) [])
              (chData.getD (0 + t) []))) chBuf) s.buffers dataIn).getD c [])
        = (List.range L).foldl
          (fun b t => b.set ((s.writeIndexTime + t) % s.capacityTime)
            (setSlot s.featureDim (b.getD ((s.writeIndexTime + t) % s.capacityTime) [])
              ((dataIn.getD c []).getD (0 + t) []))) (s.buffers.getD c []) := by
      intro c hc
      have hc1 : c < s.buffers.length := by omega
      have hc2 : c < dataIn.length := by omega
      have hz := zipWith_getElem?_some
        (f := fun chBuf chData => (List.range L).foldl
          (fun b t => b.set ((s.writeIndexTime + t) % s.capacityTime)
            (setSlot s.featureDim (b.getD ((s.writeIndexTime + t) % s.capacityTime) [])
              (chData.getD (0 + t) []))) chBuf)
        (getElem?_eq_some_getD hc1 []) (getElem?_eq_some_getD hc2 [])
      rw [getD_eq_of_getElem? hz]
    have hLcap : L ≤ s.capacityTime := by omega
    refine ⟨rfl, rfl, rfl, rfl, rfl, rfl, rfl, rfl, rfl, rfl, rfl, ?_, ?_, ?_⟩
    · refine ⟨hnc, hfd, hcap, hfr, hhop, hU, ?_, hri, ?_, ?_⟩
      · exact Nat.mod_lt _ hcap
      · show (List.zipWith _ s.buffers dataIn).length = s.numChannels
        rw [List.length_zipWith]
        omega
      · intro chBuf hcmem
        obtain ⟨i, hilt, hieq⟩ := List.getElem_of_mem hcmem
        have hilen : i < s.numChannels := by
          rw [List.length_zipWith] at hilt
          omega
        have he : _ = ((List.zipWith (fun chBuf chData => (List.range L).foldl
            (fun b t => b.set ((s.writeIndexTime + t) % s.capacityTime)
              (setSlot s.featureDim (b.getD ((s.writeIndexTime + t) % s.capacityTime) [])
                (chData.getD (0 + t) []))) chBuf) s.buffers dataIn).getD i []) :=
          (getD_eq_of_getElem? (List.getElem?_eq_getElem hilt)).symm
        rw [← hieq, he, hchan i hilen]
        constructor
        · rw [foldl_set_length]
          exact hchlen i hilen
        · intro slot hslot
          obtain ⟨q, hqlt, hqeq⟩ := List.getElem_of_mem hslot
          rw [foldl_set_length, hchlen i hilen] at hqlt
          have hsome : ((List.range L).foldl
              (fun b t => b.set ((s.writeIndexTime + t) % s.capacityTime)
                (setSlot s.featureDim (b.getD ((s.writeIndexTime + t) % s.capacityTime) [])
                  ((dataIn.getD i []).getD (0 + t) []))) (s.buffers.getD i []))[q]?
              = some slot := by
            rw [← hqeq]
            exact List.getElem?_eq_getElem _
          by_cases hex : ∃ t, t < L ∧ (s.writeIndexTime + t) % s.capacityTime = q
          · obtain ⟨t, ht, hteq⟩ := hex
            rw [← hteq] at hsome
            rw [writeFold_hit s.capacityTime s.featureDim s.writeIndexTime L _ _
              (hchlen i hilen) hLcap hcap t ht] at hsome
            have hslotv : slot = setSlot s.featureDim
                ((s.buffers.getD i []).getD ((s.writeIndexTime + t) % s.capacityTime) [])
                ((dataIn.getD i []).getD (0 + t) []) := by
              injection hsome with hh
              exact hh.symm
            have hpos : (s.writeIndexTime + t) % s.capacityTime
                < (s.buffers.getD i []).length := by
              rw [hchlen i hilen]
              exact Nat.mod_lt _ hcap
            have htpos : 0 + t < (dataIn.getD i []).length := by
              rw [hdlen i hilen]
              omega
            rw [hslotv, setSlot_eq (hchslot i hilen _ (getD_mem_of_lt hpos []))
              (hdfeat i hilen _ (getD_mem_of_lt htpos []))]
            exact hdfeat i hilen _ (getD_mem_of_lt htpos [])
          · push_neg at hex
            rw [writeFold_miss s.capacityTime s.featureDim s.writeIndexTime L _ _
              q (fun t ht => hex t ht)] at hsome
            have hq2 : q < (s.buffers.getD i []).length := by
              rw [hchlen i hilen]
              exact hqlt
            have : slot = (s.buffers.getD i [])[q] := by
              rw [List.getElem?_eq_getElem hq2] at hsome
              injection hsome with hh
              exact hh.symm
            rw [this]
            exact hchslot i hilen _ (List.getElem_mem hq2)
    · intro c hc t ht
      show ((List.zipWith _ s.buffers dataIn).getD c [])[_]? = _
      rw [hchan c hc]
      rw [writeFold_hit s.capacityTime s.featureDim s.writeIndexTime L _ _
        (hchlen c hc) hLcap hcap t ht]
      have hpos : (s.writeIndexTime + t) % s.capacityTime
          < (s.buffers.getD c []).length := by
        rw [hchlen c hc]
        exact Nat.mod_lt _ hcap
      have htpos : 0 + t < (dataIn.getD c []).length := by
        rw [hdlen c hc]
        omega
      rw [setSlot_eq (hchslot c hc _ (getD_mem_of_lt hpos []))
        (hdfeat c hc _ (getD_mem_of_lt htpos []))]
      have ht2 : t < (dataIn.getD c []).length := by
        rw [hdlen c hc]
        omega
      rw [Nat.zero_add]
      exact (getElem?_eq_some_getD ht2 ([] : List α)).symm
    · intro c hc q hq hmiss
      show ((List.zipWith _ s.buffers dataIn).getD c [])[_]? = _
      rw [hchan c hc]
      exact writeFold_miss s.capacityTime s.featureDim s.writeIndexTime L _ _ q hmiss

/-- A 3D read requesting strictly more frames than are available fails and
leaves the buffer state and caller output untouched. -/
theorem read_insufficient3 [Inhabited α] (s : FramingRingBuffer3D α)
    (out : List (List (List α))) (N : Nat)
    (hN : s.getAvailableFramesRead < N) :
    s.read out N = (false, out, s) := by
  unfold read
  by_cases h1 : s.getAvailableFramesRead < s.minFrames
  · rw [if_pos h1]
  · rw [if_neg h1, if_pos ⟨by omega, hN⟩]

theorem span_le_avail3 (s : FramingRingBuffer3D α) {count : Nat}
    (hc0 : count ≠ 0) (hcfa : count ≤ s.getAvailableFramesRead) :
    (count - 1) * s.hopSizeTime + s.frameSizeTime ≤ s.availableTime := by
  unfold getAvailableFramesRead at hcfa
  by_cases h : s.availableTime < s.frameSizeTime
  · rw [if_pos h] at hcfa
    omega
  · rw [if_neg h] at hcfa
    have h1 : count - 1 ≤ (s.availableTime - s.frameSizeTime) / s.hopSizeTime := by
      omega
    have h2 : (count - 1) * s.hopSizeTime
        ≤ ((s.availableTime - s.frameSizeTime) / s.hopSizeTime) * s.hopSizeTime :=
      Nat.mul_le_mul_right _ h1
    have h3 : ((s.availableTime - s.frameSizeTime) / s.hopSizeTime) * s.hopSizeTime
        ≤ s.availableTime - s.frameSizeTime := Nat.div_mul_le_self _ _
    omega

/-- Full characterization of a successful 3D read. -/
theorem read_success_spec3 [Inhabited α] (s : FramingRingBuffer3D α)
    (out : List (List (List α))) (N count span consumed : Nat)
    (hmin : s.minFrames ≤ s.getAvailableFramesRead)
    (hcount : count = if N = 0 then s.getAvailableFramesRead else N)
    (hc0 : count ≠ 0) (hcfa : count ≤ s.getAvailableFramesRead)
    (hspan : span = (count - 1) * s.hopSizeTime + s.frameSizeTime)
    (hconsumed : consumed
      = (if count > s.keepFrames then count - s.keepFrames else 0) * s.hopSizeTime) :
    (s.read out N).1 = true ∧
    (s.read out N).2.1
      = s.buffers.map (fun chBuf => (List.range span).map
          (fun t => setSlot s.featureDim (List.replicate s.featureDim default)
            (chBuf.getD ((s.readIndexTime + t) % s.capacityTime) []))) ∧
    (s.read out N).2.2 = { s with
      readIndexTime := (s.readIndexTime + consumed) % s.capacityTime
      availableTime := sub64 s.availableTime consumed } := by
  unfold read
  rw [if_neg (by omega)]
  rw [if_neg (by
    rintro ⟨hne, hlt⟩
    have hcN : count = N := by rw [hcount, if_neg hne]
    omega)]
  rw [← hcount, if_neg hc0, ← hspan]
  subst hconsumed
  exact ⟨rfl, rfl, rfl⟩

end FramingRingBuffer3D

namespace OLARingBuffer2D

/-- Value of the splice in the overlap-add region (`i < overlap_size`):
the faded-in input sample is added to the stored fade-out tail. -/
theorem spliceChannel_getElem?_overlap (s : OLARingBuffer2D) (chBuf chData : List ℚ)
    (L : Nat) (hlen : chBuf.length = s.capacitySamples) (hcap : 0 < s.capacitySamples)
    (hLcap : L ≤ s.capacitySamples) (hov : s.overlapSize ≤ L)
    (i : Nat) (hi : i < s.overlapSize) :
    (s.spliceChannel chBuf chData L)[(s.writeIndex + i) % s.capacitySamples]?
      = some (chBuf.getD ((s.writeIndex + i) % s.capacitySamples) 0
        + chData.getD i 0 * s.crossfadeWindow.getD i 0) := by
  unfold spliceChannel
  simp only
  rw [foldl_set_getElem?_miss
    (fun j => ((s.writeIndex + s.overlapSize) % s.capacitySamples + j) % s.capacitySamples)
    (fun b j => if L - 1 - (s.overlapSize + j) < s.overlapSize then
        chData.getD (s.overlapSize + j) 0
          * s.crossfadeWindow.getD
            (if L - 1 - (s.overlapSize + j) ≥ s.overlapSize then s.overlapSize - 1
             else L - 1 - (s.overlapSize + j)) 0
       else chData.getD (s.overlapSize + j) 0)
    (L - s.overlapSize) ((s.writeIndex + i) % s.capacitySamples) _
    (fun j hj => by
      simp only
      rw [addMod_add]
      intro hcon
      have := addMod_inj s.capacitySamples s.writeIndex
        (by omega) (by omega) hcon
      omega)]
  exact foldl_set_getElem?_hit_upd
    (fun j => (s.writeIndex + j) % s.capacitySamples)
    (fun j v => v + chData.getD j 0 * s.crossfadeWindow.getD j 0) 0
    s.overlapSize i chBuf hi
    (fun i₁ h₁ i₂ h₂ he => addMod_inj s.capacitySamples s.writeIndex
      (by omega) (by omega) he)
    (by rw [hlen]; exact Nat.mod_lt _ hcap)

/-- Value of the splice in the body / new-tail region
(`overlap_size ≤ i < inputLen`): overwrite, faded out near the end. -/
theorem spliceChannel_getElem?_body (s : OLARingBuffer2D) (chBuf chData : List ℚ)
    (L : Nat) (hlen : chBuf.length = s.capacitySamples) (hcap : 0 < s.capacitySamples)
    (hrem : L - s.overlapSize ≤ s.capacitySamples)
    (i : Nat) (hiov : s.overlapSize ≤ i) (hiL : i < L) :
    (s.spliceChannel chBuf chData L)[(s.writeIndex + i) % s.capacitySamples]?
      = some (if L - 1 - i < s.overlapSize
        then chData.getD i 0 * s.crossfadeWindow.getD (L - 1 - i) 0
        else chData.getD i 0) := by
  unfold spliceChannel
  simp only
  have hpos : (s.writeIndex + i) % s.capacitySamples
      = ((s.writeIndex + s.overlapSize) % s.capacitySamples + (i - s.overlapSize))
        % s.capacitySamples := by
    rw [addMod_add]
    congr 1
    omega
  rw [hpos]
  have hh := foldl_set_getElem?_hit_pure
    (fun j => ((s.writeIndex + s.overlapSize) % s.capacitySamples + j) % s.capacitySamples)
    (fun j => if L - 1 - (s.overlapSize + j) < s.overlapSize then
        chData.getD (s.overlapSize + j) 0
          * s.crossfadeWindow.getD
            (if L - 1 - (s.overlapSize + j) ≥ s.overlapSize then s.overlapSize - 1
             else L - 1 - (s.overlapSize + j)) 0
       else chData.getD (s.overlapSize + j) 0)
    (L - s.overlapSize) (i - s.overlapSize) _ (by omega)
    (fun i₁ h₁ i₂ h₂ he => by
      simp only at he
      rw [addMod_add, addMod_add, ← Nat.add_assoc, ← Nat.add_assoc] at he
      exact addMod_inj s.capacitySamples (s.writeIndex + s.overlapSize)
        (by omega) (by omega) he)
    (by
      simp only
      rw [foldl_set_length (fun j => (s.writeIndex + j) % s.capacitySamples)
        (fun b j => b.getD ((s.writeIndex + j) % s.capacitySamples) 0
          + chData.getD j 0 * s.crossfadeWindow.getD j 0) s.overlapSize chBuf, hlen]
      exact Nat.mod_lt _ hcap)
  simp only at hh
  rw [hh]
  have hio : s.overlapSize + (i - s.overlapSize) = i := by omega
  rw [hio]
  by_cases hc : L - 1 - i < s.overlapSize
  · rw [if_pos hc, if_pos hc, if_neg (by omega)]
  · rw [if_neg hc, if_neg hc]

theorem spliceChannel_length (s : OLARingBuffer2D) (chBuf chData : List ℚ) (L : Nat) :
    (s.spliceChannel chBuf chData L).length = chBuf.length := by
  unfold spliceChannel
  simp only
  rw [foldl_set_length, foldl_set_length]

/-- A too-short block or an overfull buffer makes `write` return `false`
with the state untouched. -/
theorem write_reject (s : OLARingBuffer2D) (dataIn : List (List ℚ))
    (hne : ¬ dataIn.isEmpty) (hch : dataIn.length = s.numChannels)
    (hcond : (dataIn.getD 0 []).length ≤ 2 * s.overlapSize ∨
      s.availableSamples + ((dataIn.getD 0 []).length - s.overlapSize)
        > s.capacitySamples) :
    s.write dataIn = (.ok false, s) := by
  unfold write
  rw [if_neg hne, if_neg (by simp [hch])]
  rcases hcond with hcond | hcond
  · rw [if_pos hcond]
  · by_cases h1 : (dataIn.getD 0 []).length ≤ 2 * s.overlapSize
    · rw [if_pos h1]
    · rw [if_neg h1, if_pos hcond]

/-- A successful `write`: buffer spliced per channel, cursors advanced by
`inputLen - overlapSize`. -/
theorem write_success (s : OLARingBuffer2D) (dataIn : List (List ℚ))
    (hne : ¬ dataIn.isEmpty) (hch : dataIn.length = s.numChannels)
    (hbig : 2 * s.overlapSize < (dataIn.getD 0 []).length)
    (hfit : s.availableSamples + ((dataIn.getD 0 []).length - s.overlapSize)
      ≤ s.capacitySamples) :
    s.write dataIn = (.ok true,
      { s with
        buffer := List.zipWith
          (fun chBuf chData => s.spliceChannel chBuf chData (dataIn.getD 0 []).length)
          s.buffer dataIn
        writeIndex := (s.writeIndex + ((dataIn.getD 0 []).length - s.overlapSize))
          % s.capacitySamples
        availableSamples := s.availableSamples
          + ((dataIn.getD 0 []).length - s.overlapSize) }) := by
  unfold write
  rw [if_neg hne, if_neg (by simp [hch]), if_neg (by omega), if_neg (by omega)]

/-- Channel `c` of the storage after a successful `write` is the crossfaded
splice of that channel. -/
theorem write_success_channel (s : OLARingBuffer2D) (dataIn : List (List ℚ))
    (hne : ¬ dataIn.isEmpty) (hch : dataIn.length = s.numChannels)
    (hbig : 2 * s.overlapSize < (dataIn.getD 0 []).length)
    (hfit : s.availableSamples + ((dataIn.getD 0 []).length - s.overlapSize)
      ≤ s.capacitySamples)
    (c : Nat) (hc : c < s.numChannels) (hblen : s.buffer.length = s.numChannels) :
    ((s.write dataIn).2.buffer.getD c [])
      = s.spliceChannel (s.buffer.getD c []) (dataIn.getD c [])
          (dataIn.getD 0 []).length := by
  rw [write_success s dataIn hne hch hbig hfit]
  exact getD_eq_of_getElem? (zipWith_getElem?_some
    (f := fun chBuf chData => s.spliceChannel chBuf chData (dataIn.getD 0 []).length)
    (getElem?_eq_some_getD (by omega : c < s.buffer.length) [])
    (getElem?_eq_some_getD (by omega : c < dataIn.length) []))

/-- A failed OLA read leaves everything unchanged. -/
theorem read_fail (s : OLARingBuffer2D) (out : List (List ℚ)) (N : Nat)
    (h : (if N = 0 then s.getAvailableFramesRead else N) = 0 ∨
      s.getAvailableFramesRead < (if N = 0 then s.getAvailableFramesRead else N)) :
    s.read out N = (false, out, s) := by
  unfold read
  rw [if_pos h]

/-- A successful OLA read: contiguous copy of `count · frame_size` samples,
cursor advanced by `count · hop_size`. -/
theorem read_success (s : OLARingBuffer2D) (out : List (List ℚ)) (N count : Nat)
    (hcount : count = if N = 0 then s.getAvailableFramesRead else N)
    (hc0 : count ≠ 0) (hcfa : count ≤ s.getAvailableFramesRead) :
    s.read out N = (true,
      s.buffer.map (fun c => copyOutWrap s.capacitySamples c s.readIndex
        (count * s.frameSize)),
      { s with
        readIndex := (s.readIndex + count * s.hopSize) % s.capacitySamples
        availableSamples := sub64 s.availableSamples (count * s.hopSize) }) := by
  unfold read
  simp only
  rw [← hcount, if_neg (by omega)]

/-- Samples consumed by a successful OLA read never exceed the available
count (read hop equals frame size). -/
theorem advance_le_avail (s : OLARingBuffer2D) {count : Nat}
    (hc0 : count ≠ 0) (hcfa : count ≤ s.getAvailableFramesRead) :
    count * s.frameSize ≤ s.availableSamples := by
  unfold getAvailableFramesRead at hcfa
  by_cases h : s.availableSamples < s.frameSize
  · rw [if_pos h] at hcfa
    omega
  · rw [if_neg h] at hcfa
    calc count * s.frameSize
        ≤ (s.availableSamples / s.frameSize) * s.frameSize :=
          Nat.mul_le_mul_right _ hcfa
      _ ≤ s.availableSamples := Nat.div_mul_le_self _ _

end OLARingBuffer2D

/-! ### C6: strict versus auto read -/

/-- C6: for both framing buffers, a read requesting `N > framesAvailable`
frames returns false with buffer state, cursors and storage unchanged (no
partial read); a read with `numFrames = 0` succeeds whenever
`framesAvailable ≥ minFrames ≥ 1` and returns exactly `framesAvailable`
frames as one contiguous span of `(framesAvailable-1)*hopSize + frameSize`
elements (time steps) per channel. -/
theorem claim_C6_strict_vs_auto :
    (∀ (α : Type) (s : FramingRingBuffer2D α) (out : List (List α)) (N : Nat),
      s.getAvailableFramesRead < N → s.read out N = (false, out, s)) ∧
    (∀ (α : Type) (s : FramingRingBuffer2D α) (out : List (List α)),
      s.WF → s.availableFeatures ≤ s.capacityFeatures →
      1 ≤ s.minFrames → s.minFrames ≤ s.getAvailableFramesRead →
      (s.read out 0).1 = true ∧
      (s.read out 0).2.1.length = s.numChannels ∧
      (∀ c < s.numChannels, ((s.read out 0).2.1.getD c []).length
        = (s.getAvailableFramesRead - 1) * s.hopSizeFeatures + s.frameSizeFeatures)) ∧
    (∀ (α : Type) [Inhabited α] (s : FramingRingBuffer3D α)
      (out : List (List (List α))) (N : Nat),
      s.getAvailableFramesRead < N → s.read out N = (false, out, s)) ∧
    (∀ (α : Type) [Inhabited α] (s : FramingRingBuffer3D α) (out : List (List (List α))),
      s.WF → s.availableTime ≤ s.capacityTime →
      1 ≤ s.minFrames → s.minFrames ≤ s.getAvailableFramesRead →
      (s.read out 0).1 = true ∧
      (s.read out 0).2.1.length = s.numChannels ∧
      (∀ c < s.numChannels, ((s.read out 0).2.1.getD c []).length
        = (s.getAvailableFramesRead - 1) * s.hopSizeTime + s.frameSizeTime)) := by
  refine ⟨?_, ?_, ?_, ?_⟩
  · intro α s out N hN
    exact FramingRingBuffer2D.read_insufficient s out N hN
  · intro α s out hwf hav hmin1 hmin
    have hfa0 : s.getAvailableFramesRead ≠ 0 := by omega
    obtain ⟨h1, h2, h3⟩ := FramingRingBuffer2D.read_success_spec s out 0
      s.getAvailableFramesRead
      ((s.getAvailableFramesRead - 1) * s.hopSizeFeatures + s.frameSizeFeatures)
      ((if s.getAvailableFramesRead > s.keepFrames
        then s.getAvailableFramesRead - s.keepFrames else 0) * s.hopSizeFeatures)
      hmin (by rw [if_pos rfl]) hfa0 (le_refl _) rfl rfl
    obtain ⟨hnc, hcap, hfr, hhop, hU, hwi, hri, hblen, hball⟩ := hwf
    have hwf' : s.WF := ⟨hnc, hcap, hfr, hhop, hU, hwi, hri, hblen, hball⟩
    have hspanle := FramingRingBuffer2D.span_le_avail s hfa0 (le_refl _) hhop
    refine ⟨h1, ?_, ?_⟩
    · rw [h2, List.length_map]
      omega
    · intro c hc
      have hc1 : c < s.buffer.length := by omega
      rw [h2, getD_map_of_lt hc1 [] []]
      exact copyOutWrap_length _ _ _ _ (hwf'.ch_length hc) hri (by omega)
  · intro α hInh s out N hN
    exact FramingRingBuffer3D.read_insufficient3 s out N hN
  · intro α hInh s out hwf hav hmin1 hmin
    have hfa0 : s.getAvailableFramesRead ≠ 0 := by omega
    obtain ⟨h1, h2, h3⟩ := FramingRingBuffer3D.read_success_spec3 s out 0
      s.getAvailableFramesRead
      ((s.getAvailableFramesRead - 1) * s.hopSizeTime + s.frameSizeTime)
      ((if s.getAvailableFramesRead > s.keepFrames
        then s.getAvailableFramesRead - s.keepFrames else 0) * s.hopSizeTime)
      hmin (by rw [if_pos rfl]) hfa0 (le_refl _) rfl rfl
    obtain ⟨hnc, hfd, hcap, hfr, hhop, hU, hwi, hri, hblen, hball⟩ := hwf
    refine ⟨h1, ?_, ?_⟩
    · rw [h2, List.length_map]
      omega
    · intro c hc
      have hc1 : c < s.buffers.length := by omega
      rw [h2, getD_map_of_lt hc1 [] []]
      rw [List.length_map, List.length_range]

/-- C6 witness: the theorem applied at concrete 2D and 3D buffers. -/
theorem claim_C6_strict_vs_auto_witness :
    (frb2Dwit.read [] 5 = (false, [], frb2Dwit)) ∧
    ((frb2Dwit.read [] 0).1 = true ∧
      (frb2Dwit.read [] 0).2.1.length = 2 ∧
      ((frb2Dwit.read [] 0).2.1.getD 0 []).length = 4) ∧
    (frb3Dwit.read [] 5 = (false, [], frb3Dwit)) ∧
    ((frb3Dwit.read [] 0).1 = true ∧
      (frb3Dwit.read [] 0).2.1.length = 1 ∧
      ((frb3Dwit.read [] 0).2.1.getD 0 []).length = 4) := by
  obtain ⟨h1, h2, h3, h4⟩ := claim_C6_strict_vs_auto
  have w1 := h1 Int frb2Dwit [] 5 (by decide)
  have w2 := h2 Int frb2Dwit [] (by decide) (by decide) (by decide) (by decide)
  have w3 := h3 Int frb3Dwit [] 5 (by decide)
  have w4 := h4 Int frb3Dwit [] (by decide) (by decide) (by decide) (by decide)
  refine ⟨w1, ⟨w2.1, ?_, ?_⟩, w3, ⟨w4.1, ?_, ?_⟩⟩
  · have := w2.2.1
    simpa using this
  · have := w2.2.2 0 (by decide)
    simpa using this
  · have := w4.2.1
    simpa using this
  · have := w4.2.2 0 (by decide)
    simpa using this

/-! ### C7: read consumption policy and keepFrames peek -/

/-- C7 counterexample: with hopSize 5 greater than frameSize 1 on a buffer
holding 6 features, a strict read of 2 frames succeeds but `available` is
not decreased by `max(0, numFrames - keepFrames) * hopSize = 10`: the
`size_t` subtraction wraps to `2^64 - 4`. -/
theorem claim_C7_counterexample :
    underflow2D.availableFeatures = 6 ∧
    underflow2D.keepFrames = 0 ∧
    underflow2D.hopSizeFeatures = 5 ∧
    (underflow2D.read [] 2).1 = true ∧
    (underflow2D.read [] 2).2.2.availableFeatures + 2 * 5 ≠ underflow2D.availableFeatures ∧
    (underflow2D.read [] 2).2.2.availableFeatures = 2 ^ 64 - 4 := by
  decide

/-- C7 amended: for both framing buffers configured with keepFrames = k, a
successful strict read of N ≥ 1 frames advances readCursor modulo capacity
and decreases available by exactly max(0, N - k) * hopSize, PROVIDED that
amount does not exceed available (always the case when hopSize ≤ frameSize;
violated otherwise, when the size_t subtraction wraps).  In particular a
read of exactly k frames leaves readCursor and available unchanged while
still copying the full requested span into the output. -/
theorem claim_C7_consumption_amended :
    (∀ (α : Type) (s : FramingRingBuffer2D α) (out : List (List α)) (N : Nat),
      s.WF → s.availableFeatures ≤ s.capacityFeatures →
      1 ≤ N → N ≤ s.getAvailableFramesRead → s.minFrames ≤ s.getAvailableFramesRead →
      (if N > s.keepFrames then N - s.keepFrames else 0) * s.hopSizeFeatures
        ≤ s.availableFeatures →
      (s.read out N).1 = true ∧
      (s.read out N).2.2.readIndexFeatures
        = (s.readIndexFeatures
            + (if N > s.keepFrames then N - s.keepFrames else 0) * s.hopSizeFeatures)
          % s.capacityFeatures ∧
      (s.read out N).2.2.availableFeatures
        = s.availableFeatures
          - (if N > s.keepFrames then N - s.keepFrames else 0) * s.hopSizeFeatures ∧
      (N = s.keepFrames →
        (s.read out N).2.2.readIndexFeatures = s.readIndexFeatures ∧
        (s.read out N).2.2.availableFeatures = s.availableFeatures) ∧
      (s.read out N).2.1.length = s.numChannels ∧
      (∀ c < s.numChannels, ((s.read out N).2.1.getD c []).length
        = (N - 1) * s.hopSizeFeatures + s.frameSizeFeatures)) ∧
    (∀ (α : Type) [Inhabited α] (s : FramingRingBuffer3D α)
      (out : List (List (List α))) (N : Nat),
      s.WF → s.availableTime ≤ s.capacityTime →
      1 ≤ N → N ≤ s.getAvailableFramesRead → s.minFrames ≤ s.getAvailableFramesRead →
      (if N > s.keepFrames then N - s.keepFrames else 0) * s.hopSizeTime
        ≤ s.availableTime →
      (s.read out N).1 = true ∧
      (s.read out N).2.2.readIndexTime
        = (s.readIndexTime
            + (if N > s.keepFrames then N - s.keepFrames else 0) * s.hopSizeTime)
          % s.capacityTime ∧
      (s.read out N).2.2.availableTime
        = s.availableTime
          - (if N > s.keepFrames then N - s.keepFrames else 0) * s.hopSizeTime ∧
      (N = s.keepFrames →
        (s.read out N).2.2.readIndexTime = s.readIndexTime ∧
        (s.read out N).2.2.availableTime = s.availableTime) ∧
      (s.read out N).2.1.length = s.numChannels ∧
      (∀ c < s.numChannels, ((s.read out N).2.1.getD c []).length
        = (N - 1) * s.hopSizeTime + s.frameSizeTime)) := by
  constructor
  · intro α s out N hwf hav h1 hNfa hmin hle
    obtain ⟨hok, hout, hst⟩ := FramingRingBuffer2D.read_success_spec s out N N
      ((N - 1) * s.hopSizeFeatures + s.frameSizeFeatures)
      ((if N > s.keepFrames then N - s.keepFrames else 0) * s.hopSizeFeatures)
      hmin (by rw [if_neg (by omega)]) (by omega) hNfa rfl rfl
    obtain ⟨hnc, hcap, hfr, hhop, hU, hwi, hri, hblen, hball⟩ := hwf
    have hwf' : s.WF := ⟨hnc, hcap, hfr, hhop, hU, hwi, hri, hblen, hball⟩
    have hspanle := FramingRingBuffer2D.span_le_avail s (by omega : N ≠ 0) hNfa hhop
    have hsub : sub64 s.availableFeatures
        ((if N > s.keepFrames then N - s.keepFrames else 0) * s.hopSizeFeatures)
        = s.availableFeatures
          - (if N > s.keepFrames then N - s.keepFrames else 0) * s.hopSizeFeatures :=
      sub64_eq_sub hle (by omega)
    refine ⟨hok, by rw [hst], by rw [hst]; exact hsub, ?_, ?_, ?_⟩
    · intro hNk
      have hzero : (if N > s.keepFrames then N - s.keepFrames else 0)
          * s.hopSizeFeatures = 0 := by
        rw [if_neg (by omega)]
        exact Nat.zero_mul _
      constructor
      · rw [hst]
        show (s.readIndexFeatures + _) % s.capacityFeatures = _
        rw [hzero, Nat.add_zero, Nat.mod_eq_of_lt hri]
      · rw [hst]
        show sub64 s.availableFeatures _ = _
        rw [hzero, sub64_zero, Nat.mod_eq_of_lt (by omega)]
    · rw [hout, List.length_map]
      omega
    · intro c hc
      have hc1 : c < s.buffer.length := by omega
      rw [hout, getD_map_of_lt hc1 [] []]
      exact copyOutWrap_length _ _ _ _ (hwf'.ch_length hc) hri (by omega)
  · intro α hInh s out N hwf hav h1 hNfa hmin hle
    obtain ⟨hok, hout, hst⟩ := FramingRingBuffer3D.read_success_spec3 s out N N
      ((N - 1) * s.hopSizeTime + s.frameSizeTime)
      ((if N > s.keepFrames then N - s.keepFrames else 0) * s.hopSizeTime)
      hmin (by rw [if_neg (by omega)]) (by omega) hNfa rfl rfl
    obtain ⟨hnc, hfd, hcap, hfr, hhop, hU, hwi, hri, hblen, hball⟩ := hwf
    have hsub : sub64 s.availableTime
        ((if N > s.keepFrames then N - s.keepFrames else 0) * s.hopSizeTime)
        = s.availableTime
          - (if N > s.keepFrames then N - s.keepFrames else 0) * s.hopSizeTime :=
      sub64_eq_sub hle (by omega)
    refine ⟨hok, by rw [hst], by rw [hst]; exact hsub, ?_, ?_, ?_⟩
    · intro hNk
      have hzero : (if N > s.keepFrames then N - s.keepFrames else 0)
          * s.hopSizeTime = 0 := by
        rw [if_neg (by omega)]
        exact Nat.zero_mul _
      constructor
      · rw [hst]
        show (s.readIndexTime + _) % s.capacityTime = _
        rw [hzero, Nat.add_zero, Nat.mod_eq_of_lt hri]
      · rw [hst]
        show sub64 s.availableTime _ = _
        rw [hzero, sub64_zero, Nat.mod_eq_of_lt (by omega)]
    · rw [hout, List.length_map]
      omega
    · intro c hc
      have hc1 : c < s.buffers.length := by omega
      rw [hout, getD_map_of_lt hc1 [] []]
      rw [List.length_map, List.length_range]

/-- C7 witness: the amended theorem applied at concrete buffers configured
with keepFrames 1, reading exactly 1 frame (the non-destructive peek). -/
theorem claim_C7_consumption_amended_witness :
    ((frb2Dwit.read [] 1).1 = true ∧
      (frb2Dwit.read [] 1).2.2.readIndexFeatures = frb2Dwit.readIndexFeatures ∧
      (frb2Dwit.read [] 1).2.2.availableFeatures = frb2Dwit.availableFeatures ∧
      ((frb2Dwit.read [] 1).2.1.getD 0 []).length = 4) ∧
    ((frb3Dwit.read [] 1).1 = true ∧
      (frb3Dwit.read [] 1).2.2.readIndexTime = frb3Dwit.readIndexTime ∧
      (frb3Dwit.read [] 1).2.2.availableTime = frb3Dwit.availableTime ∧
      ((frb3Dwit.read [] 1).2.1.getD 0 []).length = 4) := by
  have w1 := claim_C7_consumption_amended.1 Int frb2Dwit [] 1 (by decide) (by decide)
    (by decide) (by decide) (by decide) (by decide)
  have w2 := claim_C7_consumption_amended.2 Int frb3Dwit [] 1 (by decide) (by decide)
    (by decide) (by decide) (by decide) (by decide)
  obtain ⟨ho1, -, -, hk1, -, hlen1⟩ := w1
  obtain ⟨ho2, -, -, hk2, -, hlen2⟩ := w2
  have hpk1 := hk1 (by decide)
  have hpk2 := hk2 (by decide)
  refine ⟨⟨ho1, hpk1.1, hpk1.2, ?_⟩, ⟨ho2, hpk2.1, hpk2.2, ?_⟩⟩
  · have := hlen1 0 (by decide)
    simpa using this
  · have := hlen2 0 (by decide)
    simpa using this

/-! ### C2: the cursor/available invariant -/

namespace FramingRingBuffer2D

variable {α : Type}

theorem mk_inv [Inhabited α] {nc cap fr hp mf kf : Nat} {s : FramingRingBuffer2D α}
    (h : mk2D α nc cap fr hp mf kf = some s) : s.Inv := by
  unfold mk2D at h
  split at h
  · exact absurd h (by simp)
  · split at h
    · exact absurd h (by simp)
    · split at h
      · exact absurd h (by simp)
      · injection h with h
        subst h
        exact ⟨Nat.zero_le _, by rw [Nat.add_zero, Nat.zero_mod]⟩

theorem write_inv (s : FramingRingBuffer2D α) (d : List (List α)) (o n : Nat)
    (hwf : s.WF) (hinv : s.Inv) : ((s.write d o n).2).Inv := by
  obtain ⟨hnc, hcap, hfr, hhop, hU, hwi, hri, hblen, hball⟩ := hwf
  obtain ⟨hav, hwc⟩ := hinv
  unfold write
  by_cases he : d.isEmpty
  · rw [if_pos he]
    exact ⟨hav, hwc⟩
  · rw [if_neg he]
    cases hval : s.validateWriteInput d o n with
    | error e =>
      exact ⟨hav, hwc⟩
    | ok a =>
      simp only
      by_cases ha0 : a = 0
      · rw [if_pos ha0]
        exact ⟨hav, hwc⟩
      · rw [if_neg ha0]
        by_cases hfull : a > s.getAvailableWrite
        · rw [if_pos hfull]
          exact ⟨hav, hwc⟩
        · rw [if_neg hfull]
          have hgw : s.getAvailableWrite = s.capacityFeatures - s.availableFeatures :=
            sub64_eq_sub hav hU
          rw [hgw] at hfull
          refine ⟨by show s.availableFeatures + a ≤ s.capacityFeatures; omega, ?_⟩
          show (s.writeIndexFeatures + a) % s.capacityFeatures
            = (s.readIndexFeatures + (s.availableFeatures + a)) % s.capacityFeatures
          rw [hwc, addMod_add]

theorem consumed_le_avail (s : FramingRingBuffer2D α) {count : Nat}
    (hc0 : count ≠ 0) (hcfa : count ≤ s.getAvailableFramesRead)
    (hhop : 0 < s.hopSizeFeatures)
    (hhf : s.hopSizeFeatures ≤ s.frameSizeFeatures) :
    (if count > s.keepFrames then count - s.keepFrames else 0) * s.hopSizeFeatures
      ≤ s.availableFeatures := by
  have hspan := span_le_avail s hc0 hcfa hhop
  have hfc : (if count > s.keepFrames then count - s.keepFrames else 0) ≤ count := by
    split <;> omega
  calc (if count > s.keepFrames then count - s.keepFrames else 0) * s.hopSizeFeatures
      ≤ count * s.hopSizeFeatures := Nat.mul_le_mul_right _ hfc
    _ = (count - 1) * s.hopSizeFeatures + s.hopSizeFeatures := by
        have hcc : count = (count - 1) + 1 := by omega
        conv_lhs => rw [hcc]
        rw [Nat.succ_mul]
    _ ≤ (count - 1) * s.hopSizeFeatures + s.frameSizeFeatures := by omega
    _ ≤ s.availableFeatures := hspan

theorem read_inv_core (s : FramingRingBuffer2D α) (out : List (List α)) (N : Nat)
    (hwf : s.WF) (hinv : s.Inv)
    (hle : (if N = 0 then s.getAvailableFramesRead else N) ≠ 0 →
      (if N = 0 then s.getAvailableFramesRead else N) ≤ s.getAvailableFramesRead →
      (if (if N = 0 then s.getAvailableFramesRead else N) > s.keepFrames
        then (if N = 0 then s.getAvailableFramesRead else N) - s.keepFrames else 0)
        * s.hopSizeFeatures ≤ s.availableFeatures) :
    ((s.read out N).2.2).Inv := by
  obtain ⟨hnc, hcap, hfr, hhop, hU, hwi, hri, hblen, hball⟩ := hwf
  obtain ⟨hav, hwc⟩ := hinv
  unfold read
  by_cases h1 : s.getAvailableFramesRead < s.minFrames
  · rw [if_pos h1]
    exact ⟨hav, hwc⟩
  · rw [if_neg h1]
    by_cases h2 : N ≠ 0 ∧ s.getAvailableFramesRead < N
    · rw [if_pos h2]
      exact ⟨hav, hwc⟩
    · rw [if_neg h2]
      by_cases h3 : (if N = 0 then s.getAvailableFramesRead else N) = 0
      · rw [if_pos h3]
        exact ⟨hav, hwc⟩
      · rw [if_neg h3]
        have hcfa : (if N = 0 then s.getAvailableFramesRead else N)
            ≤ s.getAvailableFramesRead := by
          by_cases hN : N = 0
          · rw [if_pos hN]
          · rw [if_neg hN]
            push_neg at h2
            exact h2 hN
        have hle2 := hle h3 hcfa
        refine ⟨?_, ?_⟩
        · show sub64 s.availableFeatures _ ≤ s.capacityFeatures
          rw [sub64_eq_sub hle2 (by omega)]
          omega
        · show s.writeIndexFeatures = ((s.readIndexFeatures + _) % s.capacityFeatures
            + sub64 s.availableFeatures _) % s.capacityFeatures
          rw [sub64_eq_sub hle2 (by omega), hwc, addMod_add]
          congr 1
          omega

theorem clear_inv (s : FramingRingBuffer2D α) : (s.clear).Inv :=
  ⟨Nat.zero_le _, by show (0 : Nat) = (0 + 0) % s.capacityFeatures; rw [Nat.zero_mod]⟩

end FramingRingBuffer2D

namespace FramingRingBuffer3D

variable {α : Type}

theorem mk_inv3 [Inhabited α] {nc fd cap fr hp mf kf : Nat} {s : FramingRingBuffer3D α}
    (h : mk3D α nc fd cap fr hp mf kf = some s) : s.Inv := by
  unfold mk3D at h
  split at h
  · exact absurd h (by simp)
  · split at h
    · exact absurd h (by simp)
    · split at h
      · exact absurd h (by simp)
      · injection h with h
        subst h
        exact ⟨Nat.zero_le _, by rw [Nat.add_zero, Nat.zero_mod]⟩

theorem write_inv3 (s : FramingRingBuffer3D α) (d : List (List (List α))) (o n : Nat)
    (hwf : s.WF) (hinv : s.Inv) : ((s.write d o n).2).Inv := by
  obtain ⟨hnc, hfd, hcap, hfr, hhop, hU, hwi, hri, hblen, hball⟩ := hwf
  obtain ⟨hav, hwc⟩ := hinv
  unfold write
  by_cases he : d.isEmpty
  · rw [if_pos he]
    exact ⟨hav, hwc⟩
  · rw [if_neg he]
    cases hval : s.validateWriteInput d o n with
    | error e =>
      exact ⟨hav, hwc⟩
    | ok a =>
      simp only
      by_cases ha0 : a = 0
      · rw [if_pos ha0]
        exact ⟨hav, hwc⟩
      · rw [if_neg ha0]
        by_cases hfull : a > s.getAvailableWrite
        · rw [if_pos hfull]
          exact ⟨hav, hwc⟩
        · rw [if_neg hfull]
          have hgw : s.getAvailableWrite = s.capacityTime - s.availableTime :=
            sub64_eq_sub hav hU
          rw [hgw] at hfull
          refine ⟨by show s.availableTime + a ≤ s.capacityTime; omega, ?_⟩
          show (s.writeIndexTime + a) % s.capacityTime
            = (s.readIndexTime + (s.availableTime + a)) % s.capacityTime
          rw [hwc, addMod_add]

theorem push_inv (s : FramingRingBuffer3D α) (d : List (List α))
    (hwf : s.WF) (hinv : s.Inv) : ((s.push d).2).Inv := by
  obtain ⟨hnc, hfd, hcap, hfr, hhop, hU, hwi, hri, hblen, hball⟩ := hwf
  obtain ⟨hav, hwc⟩ := hinv
  unfold push
  by_cases hch : d.length ≠ s.numChannels
  · rw [if_pos hch]
    exact ⟨hav, hwc⟩
  · rw [if_neg hch]
    by_cases hfull : s.getAvailableWrite < 1
    · rw [if_pos hfull]
      exact ⟨hav, hwc⟩
    · rw [if_neg hfull]
      have hgw : s.getAvailableWrite = s.capacityTime - s.availableTime :=
        sub64_eq_sub hav hU
      rw [hgw] at hfull
      cases he : (pushChannels s.featureDim s.writeIndexTime (s.buffers.zip d)).1 with
      | some err =>
        simp only [he]
        exact ⟨hav, hwc⟩
      | none =>
        simp only [he]
        refine ⟨by show s.availableTime + 1 ≤ s.capacityTime; omega, ?_⟩
        show (s.writeIndexTime + 1) % s.capacityTime
          = (s.readIndexTime + (s.availableTime + 1)) % s.capacityTime
        rw [hwc, addMod_add]

theorem prime_inv [Inhabited α] (s : FramingRingBuffer3D α) (v : α)
    (hwf : s.WF) (hinv : s.Inv) : (s.prime v).Inv := by
  unfold prime
  simp only
  by_cases h : sub64 s.minFrames 1 * s.hopSizeTime + s.frameSizeTime > s.hopSizeTime
  · rw [if_pos h]
    by_cases h2 : sub64 s.minFrames 1 * s.hopSizeTime + s.frameSizeTime - s.hopSizeTime > 0
    · rw [if_pos h2]
      exact write_inv3 s _ 0 0 hwf hinv
    · rw [if_neg h2]
      exact hinv
  · rw [if_neg h]
    rw [if_neg (by omega)]
    exact hinv

theorem consumed_le_avail3 (s : FramingRingBuffer3D α) {count : Nat}
    (hc0 : count ≠ 0) (hcfa : count ≤ s.getAvailableFramesRead)
    (hhop : 0 < s.hopSizeTime)
    (hhf : s.hopSizeTime ≤ s.frameSizeTime) :
    (if count > s.keepFrames then count - s.keepFrames else 0) * s.hopSizeTime
      ≤ s.availableTime := by
  have hspan := span_le_avail3 s hc0 hcfa
  have hfc : (if count > s.keepFrames then count - s.keepFrames else 0) ≤ count := by
    split <;> omega
  calc (if count > s.keepFrames then count - s.keepFrames else 0) * s.hopSizeTime
      ≤ count * s.hopSizeTime := Nat.mul_le_mul_right _ hfc
    _ = (count - 1) * s.hopSizeTime + s.hopSizeTime := by
        have hcc : count = (count - 1) + 1 := by omega
        conv_lhs => rw [hcc]
        rw [Nat.succ_mul]
    _ ≤ (count - 1) * s.hopSizeTime + s.frameSizeTime := by omega
    _ ≤ s.availableTime := hspan

theorem read_inv_core3 [Inhabited α] (s : FramingRingBuffer3D α)
    (out : List (List (List α))) (N : Nat)
    (hwf : s.WF) (hinv : s.Inv)
    (hle : (if N = 0 then s.getAvailableFramesRead else N) ≠ 0 →
      (if N = 0 then s.getAvailableFramesRead else N) ≤ s.getAvailableFramesRead →
      (if (if N = 0 then s.getAvailableFramesRead else N) > s.keepFrames
        then (if N = 0 then s.getAvailableFramesRead else N) - s.keepFrames else 0)
        * s.hopSizeTime ≤ s.availableTime) :
    ((s.read out N).2.2).Inv := by
  obtain ⟨hnc, hfd, hcap, hfr, hhop, hU, hwi, hri, hblen, hball⟩ := hwf
  obtain ⟨hav, hwc⟩ := hinv
  unfold read
  by_cases h1 : s.getAvailableFramesRead < s.minFrames
  · rw [if_pos h1]
    exact ⟨hav, hwc⟩
  · rw [if_neg h1]
    by_cases h2 : N ≠ 0 ∧ s.getAvailableFramesRead < N
    · rw [if_pos h2]
      exact ⟨hav, hwc⟩
    · rw [if_neg h2]
      by_cases h3 : (if N = 0 then s.getAvailableFramesRead else N) = 0
      · rw [if_pos h3]
        exact ⟨hav, hwc⟩
      · rw [if_neg h3]
        have hcfa : (if N = 0 then s.getAvailableFramesRead else N)
            ≤ s.getAvailableFramesRead := by
          by_cases hN : N = 0
          · rw [if_pos hN]
          · rw [if_neg hN]
            push_neg at h2
            exact h2 hN
        have hle2 := hle h3 hcfa
        refine ⟨?_, ?_⟩
        · show sub64 s.availableTime _ ≤ s.capacityTime
          rw [sub64_eq_sub hle2 (by omega)]
          omega
        · show s.writeIndexTime = ((s.readIndexTime + _) % s.capacityTime
            + sub64 s.availableTime _) % s.capacityTime
          rw [sub64_eq_sub hle2 (by omega), hwc, addMod_add]
          congr 1
          omega

theorem clear_inv3 (s : FramingRingBuffer3D α) : (s.clear).Inv :=
  ⟨Nat.zero_le _, by show (0 : Nat) = (0 + 0) % s.capacityTime; rw [Nat.zero_mod]⟩

end FramingRingBuffer3D

namespace OLARingBuffer2D

theorem mk_inv_ola {nc cap fr ov : Nat} {s : OLARingBuffer2D}
    (h : mkOLA nc cap fr ov = some s) : s.Inv := by
  unfold mkOLA at h
  split at h
  · exact absurd h (by simp)
  · split at h
    · exact absurd h (by simp)
    · injection h with h
      subst h
      exact ⟨Nat.zero_le _, by rw [Nat.add_zero, Nat.zero_mod]⟩

theorem write_inv_ola (s : OLARingBuffer2D) (d : List (List ℚ))
    (hinv : s.Inv) : ((s.write d).2).Inv := by
  obtain ⟨hav, hwc⟩ := hinv
  unfold write
  by_cases he : d.isEmpty
  · rw [if_pos he]
    exact ⟨hav, hwc⟩
  · rw [if_neg he]
    by_cases hch : d.length ≠ s.numChannels
    · rw [if_pos hch]
      exact ⟨hav, hwc⟩
    · rw [if_neg hch]
      by_cases hshort : (d.getD 0 []).length ≤ 2 * s.overlapSize
      · rw [if_pos hshort]
        exact ⟨hav, hwc⟩
      · rw [if_neg hshort]
        by_cases hfull : s.availableSamples + ((d.getD 0 []).length - s.overlapSize)
            > s.capacitySamples
        · rw [if_pos hfull]
          exact ⟨hav, hwc⟩
        · rw [if_neg hfull]
          refine ⟨by
            show s.availableSamples + ((d.getD 0 []).length - s.overlapSize)
              ≤ s.capacitySamples
            omega, ?_⟩
          show (s.writeIndex + _) % s.capacitySamples
            = (s.readIndex + (s.availableSamples + _)) % s.capacitySamples
          rw [hwc, addMod_add]

theorem read_inv (s : OLARingBuffer2D) (out : List (List ℚ)) (N : Nat)
    (hwf : s.WF) (hinv : s.Inv) : ((s.read out N).2.2).Inv := by
  obtain ⟨hnc, hcap, hfr, hhopf, hU, hwi, hri, hblen, hball, hwin⟩ := hwf
  obtain ⟨hav, hwc⟩ := hinv
  unfold read
  simp only
  by_cases h1 : (if N = 0 then s.getAvailableFramesRead else N) = 0 ∨
      s.getAvailableFramesRead < (if N = 0 then s.getAvailableFramesRead else N)
  · rw [if_pos h1]
    exact ⟨hav, hwc⟩
  · rw [if_neg h1]
    push_neg at h1
    obtain ⟨hc0, hcfa⟩ := h1
    have hadv : (if N = 0 then s.getAvailableFramesRead else N) * s.hopSize
        ≤ s.availableSamples := by
      rw [hhopf]
      exact advance_le_avail s hc0 hcfa
    refine ⟨?_, ?_⟩
    · show sub64 s.availableSamples _ ≤ s.capacitySamples
      rw [sub64_eq_sub hadv (by omega)]
      omega
    · show s.writeIndex = ((s.readIndex + _) % s.capacitySamples
        + sub64 s.availableSamples _) % s.capacitySamples
      rw [sub64_eq_sub hadv (by omega), hwc, addMod_add]
      congr 1
      omega

theorem primeWithSilence_inv (s : OLARingBuffer2D) (hinv : s.Inv) :
    (s.primeWithSilence).Inv := hinv

theorem clear_inv_ola (s : OLARingBuffer2D) : (s.clear).Inv :=
  ⟨Nat.zero_le _, by show (0 : Nat) = (0 + 0) % s.capacitySamples; rw [Nat.zero_mod]⟩

end OLARingBuffer2D

/-- C2 counterexample: a successful read with hopSize 5 > frameSize 1
consumes more features than are available, so the invariant
`available ≤ capacity ∧ writeCursor = (readCursor + available) % capacity`
is violated after the read. -/
theorem claim_C2_counterexample :
    underflow2D.Inv ∧
    (underflow2D.read [] 2).1 = true ∧
    ¬ ((underflow2D.read [] 2).2.2).Inv := by
  decide

/-- C2 amended: for every buffer variant the invariant
`available ≤ capacity ∧ writeCursor = (readCursor + available) % capacity`
holds after construction and is preserved by write, push, prime,
primeWithSilence and clear; a successful framing-buffer read preserves it
PROVIDED `framesConsumed * hopSize ≤ available` — which always holds when
`hopSize ≤ frameSize` — while the OLA read preserves it unconditionally
(its read hop equals its frame size). -/
theorem claim_C2_invariant_amended :
    (∀ (α : Type) [Inhabited α] (nc cap fr hp mf kf : Nat) (s : FramingRingBuffer2D α),
      FramingRingBuffer2D.mk2D α nc cap fr hp mf kf = some s → s.Inv) ∧
    (∀ (α : Type) (s : FramingRingBuffer2D α) (d : List (List α)) (o n : Nat),
      s.WF → s.Inv → ((s.write d o n).2).Inv) ∧
    (∀ (α : Type) (s : FramingRingBuffer2D α) (out : List (List α)) (N : Nat),
      s.WF → s.Inv →
      ((if (if N = 0 then s.getAvailableFramesRead else N) > s.keepFrames
        then (if N = 0 then s.getAvailableFramesRead else N) - s.keepFrames else 0)
        * s.hopSizeFeatures ≤ s.availableFeatures) →
      ((s.read out N).2.2).Inv) ∧
    (∀ (α : Type) (s : FramingRingBuffer2D α) (out : List (List α)) (N : Nat),
      s.WF → s.Inv → s.hopSizeFeatures ≤ s.frameSizeFeatures →
      ((s.read out N).2.2).Inv) ∧
    (∀ (α : Type) (s : FramingRingBuffer2D α), (s.clear).Inv) ∧
    (∀ (α : Type) [Inhabited α] (nc fd cap fr hp mf kf : Nat) (s : FramingRingBuffer3D α),
      FramingRingBuffer3D.mk3D α nc fd cap fr hp mf kf = some s → s.Inv) ∧
    (∀ (α : Type) (s : FramingRingBuffer3D α) (d : List (List (List α))) (o n : Nat),
      s.WF → s.Inv → ((s.write d o n).2).Inv) ∧
    (∀ (α : Type) (s : FramingRingBuffer3D α) (d : List (List α)),
      s.WF → s.Inv → ((s.push d).2).Inv) ∧
    (∀ (α : Type) [Inhabited α] (s : FramingRingBuffer3D α) (v : α),
      s.WF → s.Inv → (s.prime v).Inv) ∧
    (∀ (α : Type) [Inhabited α] (s : FramingRingBuffer3D α)
      (out : List (List (List α))) (N : Nat),
      s.WF → s.Inv →
      ((if (if N = 0 then s.getAvailableFramesRead else N) > s.keepFrames
        then (if N = 0 then s.getAvailableFramesRead else N) - s.keepFrames else 0)
        * s.hopSizeTime ≤ s.availableTime) →
      ((s.read out N).2.2).Inv) ∧
    (∀ (α : Type) [Inhabited α] (s : FramingRingBuffer3D α)
      (out : List (List (List α))) (N : Nat),
      s.WF → s.Inv → s.hopSizeTime ≤ s.frameSizeTime →
      ((s.read out N).2.2).Inv) ∧
    (∀ (α : Type) (s : FramingRingBuffer3D α), (s.clear).Inv) ∧
    (∀ (nc cap fr ov : Nat) (s : OLARingBuffer2D),
      OLARingBuffer2D.mkOLA nc cap fr ov = some s → s.Inv) ∧
    (∀ (s : OLARingBuffer2D) (d : List (List ℚ)), s.Inv → ((s.write d).2).Inv) ∧
    (∀ (s : OLARingBuffer2D) (out : List (List ℚ)) (N : Nat),
      s.WF → s.Inv → ((s.read out N).2.2).Inv) ∧
    (∀ (s : OLARingBuffer2D), s.Inv → (s.primeWithSilence).Inv) ∧
    (∀ (s : OLARingBuffer2D), (s.clear).Inv) := by
  refine ⟨?_, ?_, ?_, ?_, ?_, ?_, ?_, ?_, ?_, ?_, ?_, ?_, ?_, ?_, ?_, ?_, ?_⟩
  · intro α hI nc cap fr hp mf kf s h
    exact FramingRingBuffer2D.mk_inv h
  · intro α s d o n hwf hinv
    exact FramingRingBuffer2D.write_inv s d o n hwf hinv
  · intro α s out N hwf hinv hle
    exact FramingRingBuffer2D.read_inv_core s out N hwf hinv (fun _ _ => hle)
  · intro α s out N hwf hinv hhf
    refine FramingRingBuffer2D.read_inv_core s out N hwf hinv (fun hc0 hcfa => ?_)
    exact FramingRingBuffer2D.consumed_le_avail s hc0 hcfa hwf.2.2.2.1 hhf
  · intro α s
    exact FramingRingBuffer2D.clear_inv s
  · intro α hI nc fd cap fr hp mf kf s h
    exact FramingRingBuffer3D.mk_inv3 h
  · intro α s d o n hwf hinv
    exact FramingRingBuffer3D.write_inv3 s d o n hwf hinv
  · intro α s d hwf hinv
    exact FramingRingBuffer3D.push_inv s d hwf hinv
  · intro α hI s v hwf hinv
    exact FramingRingBuffer3D.prime_inv s v hwf hinv
  · intro α hI s out N hwf hinv hle
    exact FramingRingBuffer3D.read_inv_core3 s out N hwf hinv (fun _ _ => hle)
  · intro α hI s out N hwf hinv hhf
    refine FramingRingBuffer3D.read_inv_core3 s out N hwf hinv (fun hc0 hcfa => ?_)
    exact FramingRingBuffer3D.consumed_le_avail3 s hc0 hcfa hwf.2.2.2.2.1 hhf
  · intro α s
    exact FramingRingBuffer3D.clear_inv3 s
  · intro nc cap fr ov s h
    exact OLARingBuffer2D.mk_inv_ola h
  · intro s d hinv
    exact OLARingBuffer2D.write_inv_ola s d hinv
  · intro s out N hwf hinv
    exact OLARingBuffer2D.read_inv s out N hwf hinv
  · intro s hinv
    exact OLARingBuffer2D.primeWithSilence_inv s hinv
  · intro s
    exact OLARingBuffer2D.clear_inv_ola s

theorem olaWit_WF : olaWit.WF := by
  refine ⟨by decide, by decide, by decide, by decide, by decide, by decide, by decide,
    by decide, by decide, ?_⟩
  rfl

/-- C2 witness: the amended invariant theorem applied at concrete buffers
of every variant and every operation. -/
theorem claim_C2_invariant_amended_witness :
    ((FramingRingBuffer2D.mk2D Int 1 4 2 1 1 0).getD frbDflt).Inv ∧
    ((frb2Dwit.write [[11], [12]] 0 0).2).Inv ∧
    ((frb2Dwit.read [] 1).2.2).Inv ∧
    (frb2Dwit.clear).Inv ∧
    ((FramingRingBuffer3D.mk3D Int 1 2 4 2 1 1 0).getD frb3Dflt).Inv ∧
    ((frb3Dwit.write [[[9, 9]]] 0 0).2).Inv ∧
    ((frb3Dwit.push [[9, 9]]).2).Inv ∧
    ((frb3Dwit.prime 0)).Inv ∧
    ((frb3Dwit.read [] 1).2.2).Inv ∧
    (frb3Dwit.clear).Inv ∧
    ((OLARingBuffer2D.mkOLA 1 8 2 1).getD olaDflt).Inv ∧
    ((olaWit.write [[2, 2, 2]]).2).Inv ∧
    ((olaWit.read [] 0).2.2).Inv ∧
    (olaWit.primeWithSilence).Inv ∧
    (olaWit.clear).Inv := by
  obtain ⟨hmk2, hw2, hr2p, hr2h, hc2, hmk3, hw3, hp3, hpr3, hr3p, hr3h, hc3,
    hmkO, hwO, hrO, hpO, hcO⟩ := claim_C2_invariant_amended
  refine ⟨?_, ?_, ?_, ?_, ?_, ?_, ?_, ?_, ?_, ?_, ?_, ?_, ?_, ?_, ?_⟩
  · exact hmk2 Int 1 4 2 1 1 0 _ (by decide)
  · exact hw2 Int frb2Dwit [[11], [12]] 0 0 (by decide) (by decide)
  · exact hr2h Int frb2Dwit [] 1 (by decide) (by decide) (by decide)
  · exact hc2 Int frb2Dwit
  · exact hmk3 Int 1 2 4 2 1 1 0 _ (by decide)
  · exact hw3 Int frb3Dwit [[[9, 9]]] 0 0 (by decide) (by decide)
  · exact hp3 Int frb3Dwit [[9, 9]] (by decide) (by decide)
  · exact hpr3 Int frb3Dwit 0 (by decide) (by decide)
  · exact hr3h Int frb3Dwit [] 1 (by decide) (by decide) (by decide)
  · exact hc3 Int frb3Dwit
  · exact hmkO 1 8 2 1 _ rfl

  · exact hwO olaWit [[2, 2, 2]] (by decide)
  · exact hrO olaWit [] 0 olaWit_WF (by decide)
  · exact hpO olaWit (by decide)
  · exact hcO olaWit

/-! ### C8: the crossfade window definition -/

theorem crossfadeCurve_eq_gSpec (x : ℚ) : crossfadeCurve x = gSpec x := by
  unfold crossfadeCurve gSpec
  by_cases h1 : x ≤ 0
  · rw [if_pos h1, if_pos h1]
  · rw [if_neg h1, if_neg h1]
    by_cases h2 : x ≥ 1
    · rw [if_pos h2, if_pos h2]
    · rw [if_neg h2, if_neg h2]
      ring

/-- C8: the window table built at construction satisfies
`window[i] = g(i / overlapSize)` for every `i < overlapSize`, where `g` is
the spec's piecewise curve (`gSpec`); it has exactly `overlapSize` entries
and is the only gain table the buffer holds (the fade-out tail in
`spliceChannel` indexes this same table at the distance from the end). -/
theorem claim_C8_window :
    ∀ (nc cap frame ov : Nat) (s : OLARingBuffer2D),
      OLARingBuffer2D.mkOLA nc cap frame ov = some s →
      s.crossfadeWindow.length = ov ∧
      ∀ i < ov, s.crossfadeWindow[i]? = some (gSpec ((i : ℚ) / (ov : ℚ))) := by
  intro nc cap frame ov s h
  unfold OLARingBuffer2D.mkOLA at h
  split at h
  · exact absurd h (by simp)
  · split at h
    · exact absurd h (by simp)
    · injection h with h
      subst h
      constructor
      · show (precomputeWindow ov).length = ov
        unfold precomputeWindow
        rw [List.length_map, List.length_range]
      · intro i hi
        show (precomputeWindow ov)[i]? = _
        unfold precomputeWindow
        rw [List.getElem?_map, List.getElem?_range hi]
        show some (crossfadeCurve _) = some (gSpec _)
        rw [crossfadeCurve_eq_gSpec]

/-- C8 witness: the window theorem applied at a concrete OLA buffer with
overlap size 4. -/
theorem claim_C8_window_witness :
    ((OLARingBuffer2D.mkOLA 1 8 2 4).getD olaDflt).crossfadeWindow.length = 4 ∧
    ((OLARingBuffer2D.mkOLA 1 8 2 4).getD olaDflt).crossfadeWindow[1]?
      = some (gSpec (((1 : Nat) : ℚ) / ((4 : Nat) : ℚ))) := by
  obtain ⟨hl, hv⟩ := claim_C8_window 1 8 2 4 _ rfl
  exact ⟨hl, hv 1 (by decide)⟩

/-! ### C3: the OLA splice write -/

theorem olaCex0_WF : olaCex0.WF := by
  refine ⟨by decide, by decide, by decide, by decide, by decide, by decide, by decide,
    by decide, by decide, ?_⟩
  rfl

/-- C3 counterexample: an accepted block longer than the capacity
(`inputLen = 7 > 5 = capacity`, yet `inputLen > 2·overlapSize` and
`available + (inputLen − overlapSize) ≤ capacity` both hold, so the claim
asserts the splice formulas).  The body region wraps all the way around and
overwrites the overlap-add region, so storage at index
`(writeCursor + 1) % capacity` does not hold
`old + input[1] · window[1]` as the claim states. -/
theorem claim_C3_counterexample :
    (olaCex0.write [[1, 1, 1, 1, 1, 1, 1]]).1 = .ok true ∧
    2 * olaCex0.overlapSize < 7 ∧
    olaCex0.availableSamples + (7 - olaCex0.overlapSize) ≤ olaCex0.capacitySamples ∧
    ((olaCex0.write [[1, 1, 1, 1, 1, 1, 1]]).2.buffer.getD 0 [])[
        (olaCex0.writeIndex + 1) % olaCex0.capacitySamples]?
      ≠ some ((olaCex0.buffer.getD 0 []).getD
            ((olaCex0.writeIndex + 1) % olaCex0.capacitySamples) 0
          + (1 : ℚ) * olaCex0.crossfadeWindow.getD 1 0) := by
  have hws := OLARingBuffer2D.write_success olaCex0 [[1, 1, 1, 1, 1, 1, 1]]
    (by decide) (by decide) (by decide) (by decide)
  have hch := OLARingBuffer2D.write_success_channel olaCex0 [[1, 1, 1, 1, 1, 1, 1]]
    (by decide) (by decide) (by decide) (by decide) 0 (by decide) (by decide)
  refine ⟨by rw [hws], by decide, by decide, ?_⟩
  rw [hch]
  rw [show ([[1, 1, 1, 1, 1, 1, 1]] : List (List ℚ)).getD 0 []
    = [1, 1, 1, 1, 1, 1, 1] from rfl]
  rw [show ([1, 1, 1, 1, 1, 1, 1] : List ℚ).length = 7 from rfl]
  have hidx : (olaCex0.writeIndex + 1) % olaCex0.capacitySamples
      = (olaCex0.writeIndex + 6) % olaCex0.capacitySamples := by decide
  rw [hidx]
  rw [OLARingBuffer2D.spliceChannel_getElem?_body olaCex0 _ _ 7
    (by decide) (by decide) (by decide) 6 (by decide) (by decide)]
  rw [if_pos (by decide)]
  intro hcon
  injection hcon with hcon
  have hwin : olaCex0.crossfadeWindow = precomputeWindow 3 := rfl
  rw [hwin] at hcon
  have hold : (olaCex0.buffer.getD 0 []).getD ((olaCex0.writeIndex + 6)
      % olaCex0.capacitySamples) 0 = 0 := rfl
  rw [hold] at hcon
  unfold precomputeWindow at hcon
  rw [show (7:Nat) - 1 - 6 = 0 from rfl] at hcon
  revert hcon
  norm_num [List.range_succ, crossfadeCurve]

/-- C3 amended: the splice-write formulas hold with the extra proviso
`inputLen ≤ capacity` — without it an accepted block can wrap its body
region onto the overlap-add region (see the counterexample).  Reject
branches, cursor/available updates and the per-channel overlap-add and
body/new-tail values are exactly as the claim states them. -/
theorem claim_C3_ola_write_amended :
    ∀ (s : OLARingBuffer2D) (dataIn : List (List ℚ)),
      s.WF → dataIn.length = s.numChannels →
      (∀ c ∈ dataIn, c.length = (dataIn.getD 0 []).length) →
      (((dataIn.getD 0 []).length ≤ 2 * s.overlapSize ∨
        s.availableSamples + ((dataIn.getD 0 []).length - s.overlapSize)
          > s.capacitySamples) →
        s.write dataIn = (.ok false, s)) ∧
      (2 * s.overlapSize < (dataIn.getD 0 []).length →
        s.availableSamples + ((dataIn.getD 0 []).length - s.overlapSize)
          ≤ s.capacitySamples →
        (s.write dataIn).1 = .ok true ∧
        (s.write dataIn).2.writeIndex
          = (s.writeIndex + ((dataIn.getD 0 []).length - s.overlapSize))
            % s.capacitySamples ∧
        (s.write dataIn).2.availableSamples
          = s.availableSamples + ((dataIn.getD 0 []).length - s.overlapSize) ∧
        (∀ c < s.numChannels,
          ((dataIn.getD 0 []).length ≤ s.capacitySamples →
            ∀ i < s.overlapSize,
            ((s.write dataIn).2.buffer.getD c [])[(s.writeIndex + i)
                % s.capacitySamples]?
              = some ((s.buffer.getD c []).getD
                    ((s.writeIndex + i) % s.capacitySamples) 0
                  + (dataIn.getD c []).getD i 0 * s.crossfadeWindow.getD i 0)) ∧
          (∀ i, s.overlapSize ≤ i → i < (dataIn.getD 0 []).length →
            ((s.write dataIn).2.buffer.getD c [])[(s.writeIndex + i)
                % s.capacitySamples]?
              = some (if (dataIn.getD 0 []).length - 1 - i < s.overlapSize
                  then (dataIn.getD c []).getD i 0
                    * s.crossfadeWindow.getD
                        ((dataIn.getD 0 []).length - 1 - i) 0
                  else (dataIn.getD c []).getD i 0)))) := by
  intro s dataIn hwf hch hcons
  obtain ⟨hnc, hcap, hfr, hhopf, hU, hwi, hri, hblen, hball, hwin⟩ := hwf
  have hne : ¬ dataIn.isEmpty := by
    simp [List.isEmpty_iff]
    intro hnil
    rw [hnil] at hch
    simp at hch
    omega
  constructor
  · intro hcond
    exact OLARingBuffer2D.write_reject s dataIn hne hch hcond
  · intro hbig hfit
    have hws := OLARingBuffer2D.write_success s dataIn hne hch hbig hfit
    have hchlen : ∀ c < s.numChannels,
        (s.buffer.getD c []).length = s.capacitySamples := by
      intro c hc
      have hc1 : c < s.buffer.length := by omega
      have he : s.buffer.getD c [] = s.buffer[c] :=
        getD_eq_of_getElem? (List.getElem?_eq_getElem hc1)
      rw [he]
      exact hball _ (List.getElem_mem hc1)
    refine ⟨by rw [hws], by rw [hws], by rw [hws], ?_⟩
    intro c hc
    have hchan := OLARingBuffer2D.write_success_channel s dataIn hne hch hbig hfit
      c hc hblen
    constructor
    · intro hLcap i hi
      rw [hchan]
      exact OLARingBuffer2D.spliceChannel_getElem?_overlap s _ _ _
        (hchlen c hc) hcap hLcap (by omega) i hi
    · intro i hiov hiL
      rw [hchan]
      exact OLARingBuffer2D.spliceChannel_getElem?_body s _ _ _
        (hchlen c hc) hcap (by omega) i hiov hiL

theorem olaAm_WF : olaAm.WF := by
  refine ⟨by decide, by decide, by decide, by decide, by decide, by decide, by decide,
    by decide, by decide, ?_⟩
  rfl

/-- C3 witness: the amended theorem applied at a concrete splice write. -/
theorem claim_C3_ola_write_amended_witness :
    (olaAm.write [[1, 2, 3, 4, 5, 6]]).1 = .ok true ∧
    (olaAm.write [[1, 2, 3, 4, 5, 6]]).2.availableSamples = 4 ∧
    ((olaAm.write [[1, 2, 3, 4, 5, 6]]).2.buffer.getD 0 [])[
        (olaAm.writeIndex + 1) % olaAm.capacitySamples]?
      = some ((olaAm.buffer.getD 0 []).getD
            ((olaAm.writeIndex + 1) % olaAm.capacitySamples) 0
          + ([[1, 2, 3, 4, 5, 6]].getD 0 []).getD 1 0
            * olaAm.crossfadeWindow.getD 1 0) ∧
    ((olaAm.write [[1, 2, 3, 4, 5, 6]]).2.buffer.getD 0 [])[
        (olaAm.writeIndex + 2) % olaAm.capacitySamples]?
      = some (if ([[1, 2, 3, 4, 5, 6]].getD 0 []).length - 1 - 2 < olaAm.overlapSize
          then ([[1, 2, 3, 4, 5, 6]].getD 0 []).getD 2 0
            * olaAm.crossfadeWindow.getD
                (([[1, 2, 3, 4, 5, 6]].getD 0 []).length - 1 - 2) 0
          else ([[1, 2, 3, 4, 5, 6]].getD 0 []).getD 2 0) := by
  obtain ⟨hrej, hsucc⟩ := claim_C3_ola_write_amended olaAm [[1, 2, 3, 4, 5, 6]]
    olaAm_WF (by decide) (by decide)
  obtain ⟨h1, h2, h3, h4⟩ := hsucc (by decide) (by decide)
  obtain ⟨hov, hbody⟩ := h4 0 (by decide)
  refine ⟨h1, ?_, hov (by decide) 1 (by decide), hbody 2 (by decide) (by decide)⟩
  rw [h3]
  decide

/-! ### C4: shape-error atomicity -/

/-- C4 (code bug): `FramingRingBuffer3D::push` called with the correct
channel count but a wrong feature dimension in the second channel raises
the ShapeError only AFTER copying channel 0's data into storage — the
feature-dimension check sits inside the per-channel copy loop, so
validation is not complete before mutation begins and the buffer is left
with channel 0's slot overwritten (cursors untouched). -/
theorem claim_C4_push_partial_mutation :
    (push3D.push [[1, 2], [3]]).1 = .error .invalidArgument ∧
    (push3D.push [[1, 2], [3]]).2.buffers ≠ push3D.buffers ∧
    ((push3D.push [[1, 2], [3]]).2.buffers.getD 0 []).getD 0 [] = [1, 2] ∧
    (push3D.push [[1, 2], [3]]).2.writeIndexTime = push3D.writeIndexTime ∧
    (push3D.push [[1, 2], [3]]).2.availableTime = push3D.availableTime := by
  decide

/-! ### C5: shape violations always raise -/

/-- C5 counterexample: an empty input container passed to a buffer
constructed with one channel is a channel-count mismatch (0 ≠ 1), yet
`write` returns `true` without raising any ShapeError. -/
theorem claim_C5_counterexample :
    frb2D1.numChannels = 1 ∧
    frb2D1.write [] 0 0 = (.ok true, frb2D1) := by
  decide

/-- C5 amended: shape violations raise a ShapeError synchronously and are
never masked by a full buffer, EXCEPT that (i) an empty input container is
silently accepted by every `write` (returns true, no error), (ii) the OLA
write validates only the channel count, and (iii) an offset/count violation
raises only when the per-channel input length is nonzero and
`offset + count` does not overflow `size_t`. -/
theorem claim_C5_shape_errors_amended :
    (∀ (α : Type) (s : FramingRingBuffer2D α) (d : List (List α)) (o n : Nat),
      ¬ d.isEmpty → d.length ≠ s.numChannels →
      s.write d o n = (.error .invalidArgument, s)) ∧
    (∀ (α : Type) (s : FramingRingBuffer2D α) (d : List (List α)) (o n : Nat),
      0 < s.numChannels → d.length = s.numChannels →
      ∀ c < d.length, (d.getD c []).length ≠ (d.getD 0 []).length →
      s.write d o n = (.error .invalidArgument, s)) ∧
    (∀ (α : Type) (s : FramingRingBuffer2D α) (d : List (List α)) (o n : Nat),
      0 < s.numChannels → d.length = s.numChannels →
      (∀ c ∈ d, c.length = (d.getD 0 []).length) →
      0 < (d.getD 0 []).length → (d.getD 0 []).length ≤ o →
      s.write d o n = (.error .outOfRange, s)) ∧
    (∀ (α : Type) (s : FramingRingBuffer2D α) (d : List (List α)) (o n : Nat),
      0 < s.numChannels → d.length = s.numChannels →
      (∀ c ∈ d, c.length = (d.getD 0 []).length) →
      o < (d.getD 0 []).length → n ≠ 0 → (d.getD 0 []).length < o + n →
      o + n < U64 →
      s.write d o n = (.error .outOfRange, s)) ∧
    (∀ (α : Type) (s : FramingRingBuffer3D α) (d : List (List (List α))) (o n : Nat),
      ¬ d.isEmpty → d.length ≠ s.numChannels →
      s.write d o n = (.error .invalidArgument, s)) ∧
    (∀ (α : Type) (s : FramingRingBuffer3D α) (d : List (List (List α))) (o n : Nat),
      0 < s.numChannels → d.length = s.numChannels →
      ∀ c < d.length, (d.getD c []).length ≠ (d.getD 0 []).length →
      s.write d o n = (.error .invalidArgument, s)) ∧
    (∀ (s : OLARingBuffer2D) (d : List (List ℚ)),
      ¬ d.isEmpty → d.length ≠ s.numChannels →
      s.write d = (.error .invalidArgument, s)) ∧
    (∀ (α : Type) (s : FramingRingBuffer3D α) (d : List (List α)),
      d.length ≠ s.numChannels →
      s.push d = (.error .invalidArgument, s)) := by
  refine ⟨?_, ?_, ?_, ?_, ?_, ?_, ?_, ?_⟩
  · intro α s d o n hne hch
    unfold FramingRingBuffer2D.write
    rw [if_neg hne]
    have hv : s.validateWriteInput d o n = .error .invalidArgument := by
      unfold FramingRingBuffer2D.validateWriteInput
      rw [if_pos hch]
    rw [hv]
  · intro α s d o n hnc hch c hc hlen
    unfold FramingRingBuffer2D.write
    rw [if_neg (by simp [List.isEmpty_iff]; intro hnil; rw [hnil] at hc; simp at hc)]
    have hc0 : c ≠ 0 := by
      intro h0
      rw [h0] at hlen
      exact hlen rfl
    have hv : s.validateWriteInput d o n = .error .invalidArgument := by
      unfold FramingRingBuffer2D.validateWriteInput
      rw [if_neg (by simp [hch])]
      rw [if_neg (by simp [List.isEmpty_iff]; intro hnil; rw [hnil] at hc; simp at hc)]
      rw [if_pos ?hany]
      case hany =>
        rw [List.any_eq_true]
        refine ⟨d.getD c [], ?_, by simpa [List.getD] using hlen⟩
        rw [List.mem_iff_getElem?]
        refine ⟨c - 1, ?_⟩
        rw [List.getElem?_drop]
        have hcc : 1 + (c - 1) = c := by omega
        rw [hcc]
        exact getElem?_eq_some_getD hc []
    rw [hv]
  · intro α s d o n hnc hch hcons hL0 hoff
    unfold FramingRingBuffer2D.write
    have hne : ¬ d.isEmpty := by
      simp [List.isEmpty_iff]
      intro hnil
      rw [hnil] at hch
      simp at hch
      omega
    rw [if_neg hne]
    have hv : s.validateWriteInput d o n = .error .outOfRange := by
      unfold FramingRingBuffer2D.validateWriteInput
      rw [if_neg (by simp [hch])]
      rw [if_neg hne]
      rw [if_neg (by
        simp only [List.any_eq_true, not_exists, not_and, decide_eq_true_eq]
        intro x hx
        simp only [ne_eq, Decidable.not_not]
        exact hcons x (List.mem_of_mem_drop hx))]
      rw [if_pos ⟨hoff, hL0⟩]
    rw [hv]
  · intro α s d o n hnc hch hcons hoff hn0 hcnt hU
    unfold FramingRingBuffer2D.write
    have hne : ¬ d.isEmpty := by
      simp [List.isEmpty_iff]
      intro hnil
      rw [hnil] at hch
      simp at hch
      omega
    rw [if_neg hne]
    have hv : s.validateWriteInput d o n = .error .outOfRange := by
      unfold FramingRingBuffer2D.validateWriteInput
      rw [if_neg (by simp [hch])]
      rw [if_neg hne]
      rw [if_neg (by
        simp only [List.any_eq_true, not_exists, not_and, decide_eq_true_eq]
        intro x hx
        simp only [ne_eq, Decidable.not_not]
        exact hcons x (List.mem_of_mem_drop hx))]
      rw [if_neg (by omega)]
      rw [if_neg hn0]
      rw [if_pos (by rw [Nat.mod_eq_of_lt hU]; omega)]
    rw [hv]
  · intro α s d o n hne hch
    unfold FramingRingBuffer3D.write
    rw [if_neg hne]
    have hv : s.validateWriteInput d o n = .error .invalidArgument := by
      unfold FramingRingBuffer3D.validateWriteInput
      rw [if_pos hch]
    rw [hv]
  · intro α s d o n hnc hch c hc hlen
    unfold FramingRingBuffer3D.write
    rw [if_neg (by simp [List.isEmpty_iff]; intro hnil; rw [hnil] at hc; simp at hc)]
    have hc0 : c ≠ 0 := by
      intro h0
      rw [h0] at hlen
      exact hlen rfl
    have hv : s.validateWriteInput d o n = .error .invalidArgument := by
      unfold FramingRingBuffer3D.validateWriteInput
      rw [if_neg (by simp [hch])]
      rw [if_neg (by simp [List.isEmpty_iff]; intro hnil; rw [hnil] at hc; simp at hc)]
      rw [if_pos ?hany3]
      case hany3 =>
        rw [List.any_eq_true]
        refine ⟨d.getD c [], ?_, by simpa [List.getD] using hlen⟩
        rw [List.mem_iff_getElem?]
        refine ⟨c - 1, ?_⟩
        rw [List.getElem?_drop]
        have hcc : 1 + (c - 1) = c := by omega
        rw [hcc]
        exact getElem?_eq_some_getD hc []
    rw [hv]
  · intro s d hne hch
    unfold OLARingBuffer2D.write
    rw [if_neg hne, if_pos hch]
  · intro α s d hch
    unfold FramingRingBuffer3D.push
    rw [if_pos hch]

/-- C5 witness: the amended theorem applied to concrete shape violations of
every kind on concrete buffers. -/
theorem claim_C5_shape_errors_amended_witness :
    (frb2D1.write [[1], [2]] 0 0 = (.error .invalidArgument, frb2D1)) ∧
    (frb2Dwit.write [[1, 2], [3]] 0 0 = (.error .invalidArgument, frb2Dwit)) ∧
    (frb2D1.write [[1, 2, 3]] 5 0 = (.error .outOfRange, frb2D1)) ∧
    (frb2D1.write [[1, 2, 3]] 1 5 = (.error .outOfRange, frb2D1)) ∧
    (push3D.write [[[1, 2]], [[3, 4]], [[5, 6]]] 0 0
      = (.error .invalidArgument, push3D)) ∧
    (push3D.write [[[1, 2], [3, 4]], [[5, 6]]] 0 0
      = (.error .invalidArgument, push3D)) ∧
    (olaAm.write [[1, 1, 1], [2, 2, 2]] = (.error .invalidArgument, olaAm)) ∧
    (push3D.push [[1, 2]] = (.error .invalidArgument, push3D)) := by
  obtain ⟨h1, h2, h3, h4, h5, h6, h7, h8⟩ := claim_C5_shape_errors_amended
  refine ⟨?_, ?_, ?_, ?_, ?_, ?_, ?_, ?_⟩
  · exact h1 Int frb2D1 [[1], [2]] 0 0 (by decide) (by decide)
  · exact h2 Int frb2Dwit [[1, 2], [3]] 0 0 (by decide) (by decide) 1 (by decide)
      (by decide)
  · exact h3 Int frb2D1 [[1, 2, 3]] 5 0 (by decide) (by decide) (by decide)
      (by decide) (by decide)
  · exact h4 Int frb2D1 [[1, 2, 3]] 1 5 (by decide) (by decide) (by decide)
      (by decide) (by decide) (by decide) (by decide)
  · exact h5 Int push3D [[[1, 2]], [[3, 4]], [[5, 6]]] 0 0 (by decide) (by decide)
  · exact h6 Int push3D [[[1, 2], [3, 4]], [[5, 6]]] 0 0 (by decide) (by decide) 1
      (by decide) (by decide)
  · exact h7 olaAm [[1, 1, 1], [2, 2, 2]] (by decide) (by decide)
  · exact h8 Int push3D [[1, 2]] (by decide)

/-! ### C9: prime -/

/-- C9 counterexample: on a validly constructed, empty buffer whose
min-frames fill exceeds capacity, `prime` needs 15 fill steps, the internal
write fails (15 > capacity 10), its boolean result is discarded, and the
buffer is left completely untouched with `available = 0` — so `prime` does
NOT always succeed given valid construction. -/
theorem claim_C9_counterexample :
    FramingRingBuffer3D.mk3D Int 1 1 10 5 5 4 0 = some primeCex ∧
    primeCex.availableTime = 0 ∧
    (primeCex.minFrames - 1) * primeCex.hopSizeTime + primeCex.frameSizeTime
      - primeCex.hopSizeTime = 15 ∧
    primeCex.prime 0 = primeCex ∧
    (primeCex.prime 0).availableTime ≠
      (primeCex.minFrames - 1) * primeCex.hopSizeTime + primeCex.frameSizeTime
        - primeCex.hopSizeTime := by
  decide

/-- C9 amended: on a well-formed empty buffer, PROVIDED the min-frames span
`(minFrames-1)*hop + frame` fits capacity (and the needed fill is positive),
`prime(v)` performs a fill-write of exactly
`need = (minFrames-1)*hop + frame - hop` time steps of `v`-slots per
channel, `available` becomes `need`, and one subsequent well-shaped write of
`hop` time steps succeeds and makes `ready()` true.  Without the capacity
proviso the internal write can fail and `prime` silently does nothing. -/
theorem claim_C9_prime_amended (α : Type) [Inhabited α] (s : FramingRingBuffer3D α)
    (v : α) (hwf : s.WF) (h0 : s.availableTime = 0) (hmin : 1 ≤ s.minFrames)
    (hminU : s.minFrames < U64)
    (hneed : s.hopSizeTime < (s.minFrames - 1) * s.hopSizeTime + s.frameSizeTime)
    (hfit : (s.minFrames - 1) * s.hopSizeTime + s.frameSizeTime ≤ s.capacityTime) :
    (s.prime v).availableTime
      = (s.minFrames - 1) * s.hopSizeTime + s.frameSizeTime - s.hopSizeTime ∧
    (s.prime v).WF ∧
    (s.prime v).numChannels = s.numChannels ∧
    (s.prime v).featureDim = s.featureDim ∧
    (s.prime v).capacityTime = s.capacityTime ∧
    (s.prime v).frameSizeTime = s.frameSizeTime ∧
    (s.prime v).hopSizeTime = s.hopSizeTime ∧
    (s.prime v).minFrames = s.minFrames ∧
    (∀ c < s.numChannels,
      ∀ t < (s.minFrames - 1) * s.hopSizeTime + s.frameSizeTime - s.hopSizeTime,
      ((s.prime v).chB c)[(s.writeIndexTime + t) % s.capacityTime]?
        = some (List.replicate s.featureDim v)) ∧
    (∀ d : List (List (List α)), d.length = s.numChannels →
      (∀ ch ∈ d, ch.length = s.hopSizeTime) →
      (∀ ch ∈ d, ∀ w ∈ ch, w.length = s.featureDim) →
      ((s.prime v).write d 0 0).1 = .ok true ∧
      ((s.prime v).write d 0 0).2.ready = true) := by
  obtain ⟨hnc, hfd, hcap, hfr, hhop, hU, hwi, hri, hblen, hball⟩ := hwf
  have hwf' : s.WF := ⟨hnc, hfd, hcap, hfr, hhop, hU, hwi, hri, hblen, hball⟩
  have htgt : sub64 s.minFrames 1 = s.minFrames - 1 := sub64_eq_sub hmin hminU
  have hprime : s.prime v = (s.write (List.replicate s.numChannels
      (List.replicate ((s.minFrames - 1) * s.hopSizeTime + s.frameSizeTime - s.hopSizeTime)
        (List.replicate s.featureDim v))) 0 0).2 := by
    unfold FramingRingBuffer3D.prime
    simp only
    rw [htgt, if_pos hneed, if_pos (by omega)]
  have hget0 : (List.replicate s.numChannels
      (List.replicate ((s.minFrames - 1) * s.hopSizeTime + s.frameSizeTime - s.hopSizeTime)
        (List.replicate s.featureDim v))).getD 0 []
      = List.replicate ((s.minFrames - 1) * s.hopSizeTime + s.frameSizeTime - s.hopSizeTime)
        (List.replicate s.featureDim v) :=
    getD_eq_of_getElem? (List.getElem?_replicate_of_lt hnc)
  have hLlen : ((List.replicate s.numChannels
      (List.replicate ((s.minFrames - 1) * s.hopSizeTime + s.frameSizeTime - s.hopSizeTime)
        (List.replicate s.featureDim v))).getD 0 []).length
      = (s.minFrames - 1) * s.hopSizeTime + s.frameSizeTime - s.hopSizeTime := by
    rw [hget0, List.length_replicate]
  have hw := FramingRingBuffer3D.write_full_spec3 s
    (List.replicate s.numChannels
      (List.replicate ((s.minFrames - 1) * s.hopSizeTime + s.frameSizeTime - s.hopSizeTime)
        (List.replicate s.featureDim v)))
    hwf' (by omega) (by rw [List.length_replicate])
    (by
      intro c hc
      rw [List.eq_of_mem_replicate hc, hget0])
    (by
      intro c hc w hw
      rw [List.eq_of_mem_replicate hc] at hw
      rw [List.eq_of_mem_replicate hw, List.length_replicate])
    (by rw [hLlen]; omega)
    (by rw [hLlen]; omega)
  obtain ⟨hok, hnc', hfd', hcap', hfr', hhop', hmin', hkeep', hri', hwi', hav', hWF',
    hcontent, hmiss⟩ := hw
  refine ⟨?_, ?_, ?_, ?_, ?_, ?_, ?_, ?_, ?_, ?_⟩
  · rw [hprime, hav', hLlen, h0, Nat.zero_add]
  · rw [hprime]
    exact hWF'
  · rw [hprime]
    exact hnc'
  · rw [hprime]
    exact hfd'
  · rw [hprime]
    exact hcap'
  · rw [hprime]
    exact hfr'
  · rw [hprime]
    exact hhop'
  · rw [hprime]
    exact hmin'
  · intro c hc t ht
    rw [hprime]
    have h1 := hcontent c hc t (by omega)
    have hgc : (List.replicate s.numChannels
        (List.replicate ((s.minFrames - 1) * s.hopSizeTime + s.frameSizeTime - s.hopSizeTime)
          (List.replicate s.featureDim v))).getD c []
        = List.replicate ((s.minFrames - 1) * s.hopSizeTime + s.frameSizeTime - s.hopSizeTime)
          (List.replicate s.featureDim v) :=
      getD_eq_of_getElem? (List.getElem?_replicate_of_lt hc)
    rw [h1, hgc, List.getElem?_replicate_of_lt ht]
  · intro d hdch hdlen hdfeat
    rw [hprime]
    have hd0mem : d.getD 0 [] ∈ d := getD_mem_of_lt (by omega) []
    have hd0 : (d.getD 0 []).length = s.hopSizeTime := hdlen _ hd0mem
    have hw2 := FramingRingBuffer3D.write_full_spec3 ((s.write (List.replicate s.numChannels
        (List.replicate ((s.minFrames - 1) * s.hopSizeTime + s.frameSizeTime - s.hopSizeTime)
          (List.replicate s.featureDim v))) 0 0).2) d
      hWF'
      (by rw [hav', hcap', hLlen, h0]; omega)
      (by rw [hnc']; exact hdch)
      (by
        intro c hc
        rw [hdlen c hc, hd0])
      (by
        intro c hc w hwm
        rw [hfd']
        exact hdfeat c hc w hwm)
      (by rw [hd0]; omega)
      (by rw [hav', hcap', hLlen, h0, hd0]; omega)
    obtain ⟨hok2, hnc2, hfd2, hcap2, hfr2, hhop2, hmin2, hkeep2, hri2, hwi2, hav2,
      hWF2, _, _⟩ := hw2
    refine ⟨hok2, ?_⟩
    unfold FramingRingBuffer3D.ready FramingRingBuffer3D.getAvailableFramesRead
    rw [decide_eq_true_eq]
    rw [hav2, hav', hLlen, hd0, h0, hfr2, hfr', hhop2, hhop', hmin2, hmin']
    rw [if_neg (by omega)]
    have hkey : 0 + ((s.minFrames - 1) * s.hopSizeTime + s.frameSizeTime - s.hopSizeTime)
        + s.hopSizeTime - s.frameSizeTime = (s.minFrames - 1) * s.hopSizeTime := by
      omega
    rw [hkey, Nat.mul_div_cancel _ hhop]
    omega

/-- C9 witness: the amended theorem applied at a concrete empty buffer —
prime fills `(3-1)*2+5-2 = 7` time steps and one subsequent 2-step write
reaches `ready()`. -/
theorem claim_C9_prime_amended_witness :
    (primeAm.prime 7).availableTime = 7 ∧
    ((primeAm.prime 7).write [[[1], [2]]] 0 0).1 = .ok true ∧
    ((primeAm.prime 7).write [[[1], [2]]] 0 0).2.ready = true := by
  obtain ⟨h1, _, _, _, _, _, _, _, _, h10⟩ :=
    claim_C9_prime_amended Int primeAm 7 (by decide) (by decide) (by decide)
      (by decide) (by decide) (by decide)
  obtain ⟨h2, h3⟩ := h10 [[[1], [2]]] (by decide) (by decide) (by decide)
  refine ⟨?_, h2, h3⟩
  rw [h1]
  decide

/-! ### C10: index discipline of the OLA splice -/

theorem foldlM_eq_foldl_inv {α β : Type} (P : β → Prop) (f : β → α → Option β)
    (g : β → α → β) :
    ∀ (l : List α) (b : β), P b →
      (∀ b' a, P b' → a ∈ l → f b' a = some (g b' a) ∧ P (g b' a)) →
      l.foldlM f b = some (l.foldl g b) := by
  intro l
  induction l with
  | nil =>
    intro b hb h
    rfl
  | cons x xs ih =>
    intro b hb h
    obtain ⟨h1, h2⟩ := h b x hb (List.mem_cons_self x xs)
    rw [List.foldlM_cons, h1, List.foldl_cons]
    show xs.foldlM f (g b x) = some (xs.foldl g (g b x))
    exact ih (g b x) h2 (fun b' a hP ha => h b' a hP (List.mem_cons_of_mem x ha))

theorem mapM_zip_eq_zipWith {α β γ : Type} (f : α → β → Option γ) (g : α → β → γ)
    (as : List α) : ∀ (bs : List β),
    (∀ a ∈ as, ∀ b ∈ bs, f a b = some (g a b)) →
    ((as.zip bs).mapM (fun p => f p.1 p.2)) = some (List.zipWith g as bs) := by
  induction as with
  | nil =>
    intro bs h
    rfl
  | cons a as ih =>
    intro bs h
    cases bs with
    | nil => rfl
    | cons b bs =>
      rw [List.zip_cons_cons, List.zipWith_cons_cons, List.mapM_cons]
      simp only
      rw [h a (List.mem_cons_self a as) b (List.mem_cons_self b bs),
        ih bs (fun a' ha' b' hb' =>
          h a' (List.mem_cons_of_mem a ha') b' (List.mem_cons_of_mem b hb'))]
      rfl

namespace OLARingBuffer2D

/-- In-bounds run of the checked splice: if the channel input really has
`inputLen` samples and the window has `overlap_size` entries, every guarded
access succeeds and the checked splice computes exactly the unchecked one. -/
theorem spliceChannelChecked_eq (s : OLARingBuffer2D) (chBuf chData : List ℚ) (L : Nat)
    (hbuf : chBuf.length = s.capacitySamples) (hcap : 0 < s.capacitySamples)
    (hwin : s.crossfadeWindow.length = s.overlapSize)
    (hdata : chData.length = L) (hov : 2 * s.overlapSize < L) :
    s.spliceChannelChecked chBuf chData L = some (s.spliceChannel chBuf chData L) := by
  unfold spliceChannelChecked spliceChannel
  simp only
  have hA := foldlM_eq_foldl_inv (fun b : List ℚ => b.length = s.capacitySamples)
    (fun b i =>
      (b[(s.writeIndex + i) % s.capacitySamples]?).bind (fun cur =>
      (chData[i]?).bind (fun x =>
      (s.crossfadeWindow[i]?).bind (fun w =>
      setChecked b ((s.writeIndex + i) % s.capacitySamples) (cur + x * w)))))
    (fun b i => b.set ((s.writeIndex + i) % s.capacitySamples)
      (b.getD ((s.writeIndex + i) % s.capacitySamples) 0
        + chData.getD i 0 * s.crossfadeWindow.getD i 0))
    (List.range s.overlapSize) chBuf hbuf ?stepA
  case stepA =>
    intro b i hP hi
    rw [List.mem_range] at hi
    simp only
    have hidx : (s.writeIndex + i) % s.capacitySamples < b.length := by
      rw [hP]
      exact Nat.mod_lt _ hcap
    have hxi : i < chData.length := by omega
    have hwi2 : i < s.crossfadeWindow.length := by omega
    constructor
    · rw [getElem?_eq_some_getD hidx 0, getElem?_eq_some_getD hxi 0,
        getElem?_eq_some_getD hwi2 0]
      show setChecked b _ _ = _
      unfold setChecked
      rw [if_pos hidx]
    · rw [List.length_set]
      exact hP
  rw [hA]
  have hlenA : ((List.range s.overlapSize).foldl
      (fun b i => b.set ((s.writeIndex + i) % s.capacitySamples)
        (b.getD ((s.writeIndex + i) % s.capacitySamples) 0
          + chData.getD i 0 * s.crossfadeWindow.getD i 0)) chBuf).length
      = s.capacitySamples := by
    rw [foldl_set_length (fun i => (s.writeIndex + i) % s.capacitySamples)
      (fun b i => b.getD ((s.writeIndex + i) % s.capacitySamples) 0
        + chData.getD i 0 * s.crossfadeWindow.getD i 0) s.overlapSize chBuf]
    exact hbuf
  show (List.range (L - s.overlapSize)).foldlM _ _ = _
  refine foldlM_eq_foldl_inv (fun b : List ℚ => b.length = s.capacitySamples)
    _ _ (List.range (L - s.overlapSize)) _ hlenA ?stepB
  case stepB =>
    intro b i hP hi
    rw [List.mem_range] at hi
    simp only
    have hidx : ((s.writeIndex + s.overlapSize) % s.capacitySamples + i) % s.capacitySamples
        < b.length := by
      rw [hP]
      exact Nat.mod_lt _ hcap
    have hxi : s.overlapSize + i < chData.length := by omega
    constructor
    · rw [getElem?_eq_some_getD hxi 0]
      show ((if L - 1 - (s.overlapSize + i) < s.overlapSize then
          (s.crossfadeWindow[
            if L - 1 - (s.overlapSize + i) ≥ s.overlapSize then s.overlapSize - 1
            else L - 1 - (s.overlapSize + i)]?).bind
            (fun w => some (chData.getD (s.overlapSize + i) 0 * w))
         else some (chData.getD (s.overlapSize + i) 0)).bind
          (fun sample => setChecked b
            (((s.writeIndex + s.overlapSize) % s.capacitySamples + i) % s.capacitySamples)
            sample)) = _
      by_cases hfade : L - 1 - (s.overlapSize + i) < s.overlapSize
      · rw [if_pos hfade, if_pos hfade]
        have hneg : ¬ (L - 1 - (s.overlapSize + i) ≥ s.overlapSize) := by omega
        rw [if_neg hneg]
        have hwidx : L - 1 - (s.overlapSize + i) < s.crossfadeWindow.length := by omega
        rw [getElem?_eq_some_getD hwidx 0]
        show setChecked b _ _ = _
        unfold setChecked
        rw [if_pos hidx]
      · rw [if_neg hfade, if_neg hfade]
        show setChecked b _ _ = _
        unfold setChecked
        rw [if_pos hidx]
    · rw [List.length_set]
      exact hP

/-- In-bounds run of the checked write under the equal-channel-length
precondition. -/
theorem writeChecked_eq (s : OLARingBuffer2D) (dataIn : List (List ℚ))
    (hwf : s.WF)
    (hcons : ∀ ch ∈ dataIn, ch.length = (dataIn.getD 0 []).length) :
    s.writeChecked dataIn = some (s.write dataIn) := by
  obtain ⟨hnc, hcap, hfr, hhop, hU, hwi, hri, hblen, hball, hwin⟩ := hwf
  unfold writeChecked write
  by_cases h1 : dataIn.isEmpty
  · rw [if_pos h1, if_pos h1]
  rw [if_neg h1, if_neg h1]
  by_cases h2 : dataIn.length ≠ s.numChannels
  · rw [if_pos h2, if_pos h2]
  rw [if_neg h2, if_neg h2]
  simp only
  by_cases h3 : (dataIn.getD 0 []).length ≤ 2 * s.overlapSize
  · rw [if_pos h3, if_pos h3]
  rw [if_neg h3, if_neg h3]
  by_cases h4 : s.availableSamples + ((dataIn.getD 0 []).length - s.overlapSize)
      > s.capacitySamples
  · rw [if_pos h4, if_pos h4]
  rw [if_neg h4, if_neg h4]
  have hwinlen : s.crossfadeWindow.length = s.overlapSize := by
    rw [hwin]
    unfold precomputeWindow
    rw [List.length_map, List.length_range]
  have hmm : ((s.buffer.zip dataIn).mapM
      (fun p => s.spliceChannelChecked p.1 p.2 (dataIn.getD 0 []).length))
      = some (List.zipWith (fun chBuf chData =>
          s.spliceChannel chBuf chData (dataIn.getD 0 []).length) s.buffer dataIn) := by
    refine mapM_zip_eq_zipWith
      (fun chBuf chData => s.spliceChannelChecked chBuf chData (dataIn.getD 0 []).length)
      (fun chBuf chData => s.spliceChannel chBuf chData (dataIn.getD 0 []).length)
      s.buffer dataIn ?_
    intro chB hchB chD hchD
    exact spliceChannelChecked_eq s chB chD (dataIn.getD 0 []).length
      (hball chB hchB) hcap hwinlen (hcons chD hchD) (by omega)
  rw [hmm]
  rfl

end OLARingBuffer2D

/-- C10: the OLA write reads the input length from channel 0 only and
indexes every channel at 0..inputLen-1 with raw pointer accesses.  Under
the precondition that all channels have channel 0's length, the fully
bounds-checked embedding agrees with the unchecked one (every access is in
bounds); and at a concrete buffer with a shorter second channel the checked
embedding hits an out-of-range input access (`none`) while the unchecked
write signals no error at all — it returns `ok true` and advances the
buffer. -/
theorem claim_C10_index_discipline :
    (∀ (s : OLARingBuffer2D) (dataIn : List (List ℚ)), s.WF →
      (∀ ch ∈ dataIn, ch.length = (dataIn.getD 0 []).length) →
      s.writeChecked dataIn = some (s.write dataIn)) ∧
    olaC10.writeChecked [[1, 1, 1, 1, 1, 1], [2]] = none ∧
    (olaC10.write [[1, 1, 1, 1, 1, 1], [2]]).1 = .ok true ∧
    (olaC10.write [[1, 1, 1, 1, 1, 1], [2]]).2.availableSamples = 5 := by
  refine ⟨?_, rfl, rfl, rfl⟩
  intro s dataIn hwf hcons
  exact OLARingBuffer2D.writeChecked_eq s dataIn hwf hcons

theorem olaC10_WF : olaC10.WF := by
  refine ⟨by decide, by decide, by decide, by decide, by decide, by decide, by decide,
    by decide, by decide, ?_⟩
  rfl

/-- C10 witness: the equal-length branch of the theorem applied at a
concrete two-channel buffer. -/
theorem claim_C10_index_discipline_witness :
    olaC10.writeChecked [[1, 2, 3, 4], [5, 6, 7, 8]]
      = some (olaC10.write [[1, 2, 3, 4], [5, 6, 7, 8]]) := by
  refine claim_C10_index_discipline.1 olaC10 [[1, 2, 3, 4], [5, 6, 7, 8]] olaC10_WF ?_
  intro ch hch
  rcases List.mem_cons.mp hch with rfl | hch
  · rfl
  rcases List.mem_cons.mp hch with rfl | hch
  · rfl
  exact absurd hch (List.not_mem_nil ch)

/-! ### C1: round trip for the framing buffers -/

theorem totalLen_nil {β : Type} : totalLen ([] : List (List (List β))) = 0 := by
  simp [totalLen]

theorem totalLen_cons {β : Type} (b : List (List β)) (bs : List (List (List β))) :
    totalLen (b :: bs) = (b.getD 0 []).length + totalLen bs := by
  simp [totalLen]

theorem chanConcat_nil {β : Type} (c : Nat) :
    chanConcat ([] : List (List (List β))) c = [] := by
  simp [chanConcat]

theorem chanConcat_cons {β : Type} (b : List (List β)) (bs : List (List (List β)))
    (c : Nat) : chanConcat (b :: bs) c = b.getD c [] ++ chanConcat bs c := by
  simp [chanConcat]

namespace FramingRingBuffer2D

variable {α : Type}

/-- Inversion of a successful validation of a full-block write. -/
theorem validate_ok_inv (s : FramingRingBuffer2D α) (b : List (List α)) (a : Nat)
    (hne : ¬ b.isEmpty) (hLU : (b.getD 0 []).length < U64)
    (hval : s.validateWriteInput b 0 0 = .ok a) :
    b.length = s.numChannels ∧ (∀ c ∈ b, c.length = (b.getD 0 []).length) ∧
    a = (b.getD 0 []).length := by
  unfold validateWriteInput at hval
  by_cases h1 : b.length ≠ s.numChannels
  · rw [if_pos h1] at hval
    exact absurd hval (by simp)
  rw [if_neg h1, if_neg hne] at hval
  by_cases h2 : (b.drop 1).any (fun ch => ch.length ≠ (b.getD 0 []).length)
  · rw [if_pos h2] at hval
    exact absurd hval (by simp)
  rw [if_neg h2, if_neg (by omega)] at hval
  rw [if_neg (by
    rw [sub64_zero, Nat.mod_eq_of_lt hLU, if_pos rfl, Nat.zero_add,
      Nat.mod_eq_of_lt hLU]
    omega)] at hval
  have ha : a = (b.getD 0 []).length := by
    have h3 := Except.ok.inj hval
    rw [if_pos rfl, sub64_zero, Nat.mod_eq_of_lt hLU] at h3
    exact h3.symm
  refine ⟨Decidable.not_not.mp h1, ?_, ha⟩
  intro c hc
  obtain ⟨i, hi, hieq⟩ := List.getElem_of_mem hc
  have h2' : ∀ x ∈ b.drop 1, x.length = (b.getD 0 []).length := by
    intro x hx
    by_contra hne2
    exact h2 (List.any_eq_true.mpr ⟨x, hx, by simpa using hne2⟩)
  rcases Nat.eq_zero_or_pos i with hi0 | hipos
  · subst hi0
    rw [← hieq]
    have hg : b.getD 0 [] = b[0] := getD_eq_of_getElem? (List.getElem?_eq_getElem hi)
    rw [hg]
  · have hmem : b[i] ∈ b.drop 1 := by
      rw [List.mem_iff_getElem?]
      refine ⟨i - 1, ?_⟩
      rw [List.getElem?_drop]
      have h4 : 1 + (i - 1) = i := by omega
      rw [h4]
      exact List.getElem?_eq_getElem hi
    rw [← hieq]
    exact h2' _ hmem

/-- Inversion of a successful (`ok true`) nonempty full-block write: the
block was well shaped and fit the free space. -/
theorem write_ok_inv (s : FramingRingBuffer2D α) (b : List (List α))
    (hav : s.availableFeatures ≤ s.capacityFeatures)
    (hU : s.capacityFeatures < U64)
    (hLU : (b.getD 0 []).length < U64)
    (hok : (s.write b 0 0).1 = .ok true) (hne : ¬ b.isEmpty) :
    b.length = s.numChannels ∧ (∀ c ∈ b, c.length = (b.getD 0 []).length) ∧
    s.availableFeatures + (b.getD 0 []).length ≤ s.capacityFeatures := by
  unfold write at hok
  rw [if_neg hne] at hok
  cases hval : s.validateWriteInput b 0 0 with
  | error e =>
    rw [hval] at hok
    exact Except.noConfusion hok
  | ok a =>
    rw [hval] at hok
    obtain ⟨hch, hcons, ha⟩ := validate_ok_inv s b a hne hLU hval
    by_cases ha0 : a = 0
    · exact ⟨hch, hcons, by omega⟩
    · have hok2 : (if a > s.getAvailableWrite then
          ((Except.ok false : Except ShapeError Bool), s)
        else (.ok true, { s with
          buffer := List.zipWith (fun ch data => copyInWrap s.capacityFeatures ch
            s.writeIndexFeatures ((data.drop 0).take a)) s.buffer b
          writeIndexFeatures := (s.writeIndexFeatures + a) % s.capacityFeatures
          availableFeatures := s.availableFeatures + a })).1 = .ok true := by
        have h5 : ((if a = 0 then ((Except.ok true : Except ShapeError Bool), s)
            else if a > s.getAvailableWrite then (.ok false, s)
            else (.ok true, { s with
              buffer := List.zipWith (fun ch data => copyInWrap s.capacityFeatures ch
                s.writeIndexFeatures ((data.drop 0).take a)) s.buffer b
              writeIndexFeatures := (s.writeIndexFeatures + a) % s.capacityFeatures
              availableFeatures := s.availableFeatures + a })).1) = .ok true := hok
        rw [if_neg ha0] at h5
        exact h5
      by_cases hgt : a > s.getAvailableWrite
      · rw [if_pos hgt] at hok2
        have hfb := Except.ok.inj hok2
        exact absurd hfb (by simp)
      · refine ⟨hch, hcons, ?_⟩
        unfold getAvailableWrite at hgt
        rw [sub64_eq_sub hav hU] at hgt
        omega

/-- Cumulative effect of a successful sequence of full-block writes:
parameters and the read cursor are untouched, the write cursor and the
available count advance by the total written length (which fits capacity),
well-formedness is preserved, the stored content at the `j`-th feature past
the original write cursor (mod capacity) is the `j`-th element of the
per-channel concatenation of the inputs, and every other storage cell is
untouched. -/
theorem writeSeq_spec :
    ∀ (bs : List (List (List α))) (s s' : FramingRingBuffer2D α),
    s.WF → s.availableFeatures ≤ s.capacityFeatures →
    (∀ b ∈ bs, (b.getD 0 []).length < U64) →
    s.writeSeq bs = some s' →
    s'.numChannels = s.numChannels ∧
    s'.capacityFeatures = s.capacityFeatures ∧
    s'.frameSizeFeatures = s.frameSizeFeatures ∧
    s'.hopSizeFeatures = s.hopSizeFeatures ∧
    s'.minFrames = s.minFrames ∧
    s'.keepFrames = s.keepFrames ∧
    s'.readIndexFeatures = s.readIndexFeatures ∧
    s'.writeIndexFeatures = (s.writeIndexFeatures + totalLen bs) % s.capacityFeatures ∧
    s'.availableFeatures = s.availableFeatures + totalLen bs ∧
    s'.availableFeatures ≤ s.capacityFeatures ∧
    s'.WF ∧
    (∀ c < s.numChannels, ∀ j < totalLen bs,
      (s'.ch c)[(s.writeIndexFeatures + j) % s.capacityFeatures]?
        = (chanConcat bs c)[j]?) ∧
    (∀ c < s.numChannels, ∀ q < s.capacityFeatures,
      (∀ j < totalLen bs, (s.writeIndexFeatures + j) % s.capacityFeatures ≠ q) →
      (s'.ch c)[q]? = (s.ch c)[q]?) := by
  intro bs
  induction bs with
  | nil =>
    intro s s' hwf hav hLU hseq
    have hs : s = s' := Option.some.inj hseq
    subst hs
    obtain ⟨hnc, hcap, hfr, hhop, hU, hwi, hri, hblen, hball⟩ := hwf
    have hwf' : s.WF := ⟨hnc, hcap, hfr, hhop, hU, hwi, hri, hblen, hball⟩
    refine ⟨rfl, rfl, rfl, rfl, rfl, rfl, rfl, ?_, ?_, hav, hwf', ?_, ?_⟩
    · rw [totalLen_nil, Nat.add_zero, Nat.mod_eq_of_lt hwi]
    · rw [totalLen_nil, Nat.add_zero]
    · intro c hc j hj
      rw [totalLen_nil] at hj
      omega
    · intro c hc q hq hmiss
      rfl
  | cons b bs ih =>
    intro s s' hwf hav hLU hseq
    obtain ⟨hnc, hcap, hfr, hhop, hU, hwi, hri, hblen, hball⟩ := hwf
    have hwf' : s.WF := ⟨hnc, hcap, hfr, hhop, hU, hwi, hri, hblen, hball⟩
    have hLUb : (b.getD 0 []).length < U64 := hLU b (List.mem_cons_self b bs)
    have hLUr : ∀ b' ∈ bs, (b'.getD 0 []).length < U64 := by
      intro b' hb'
      exact hLU b' (List.mem_cons_of_mem b hb')
    simp only [writeSeq] at hseq
    rcases hwrite : s.write b 0 0 with ⟨r, s₁⟩
    rw [hwrite] at hseq
    cases r with
    | error e => exact Option.noConfusion hseq
    | ok bv =>
      cases bv with
      | false => exact Option.noConfusion hseq
      | true =>
        have hseq1 : s₁.writeSeq bs = some s' := hseq
        by_cases hne : b.isEmpty
        · have hb : b = [] := List.isEmpty_iff.mp hne
          subst hb
          have hws : s.write [] 0 0 = ((.ok true : Except ShapeError Bool), s) := rfl
          rw [hws] at hwrite
          have hs1 : s = s₁ := congrArg Prod.snd hwrite
          subst hs1
          obtain ⟨inc, icap, ifr, ihop, imin, ikeep, iri, iwi, iav, iavle, iwf,
            ihit, imiss⟩ := ih s s' hwf' hav hLUr hseq1
          have htl : totalLen (([] : List (List α)) :: bs) = totalLen bs := by
            rw [totalLen_cons]
            show 0 + totalLen bs = totalLen bs
            omega
          have hcc : ∀ c, chanConcat (([] : List (List α)) :: bs) c
              = chanConcat bs c := by
            intro c
            rw [chanConcat_cons]
            rfl
          refine ⟨inc, icap, ifr, ihop, imin, ikeep, iri, ?_, ?_, iavle, iwf, ?_, ?_⟩
          · rw [htl]
            exact iwi
          · rw [htl]
            exact iav
          · intro c hc j hj
            rw [htl] at hj
            rw [hcc]
            exact ihit c hc j hj
          · intro c hc q hq hmiss
            refine imiss c hc q hq ?_
            intro j hj
            rw [← htl] at hj
            exact hmiss j hj
        · have hok1 : (s.write b 0 0).1 = .ok true := by rw [hwrite]
          obtain ⟨hch, hcons, hfit⟩ := write_ok_inv s b hav hU hLUb hok1 hne
          have hspec := write_full_spec s b hwf' hav hch hcons hLUb hfit
          rw [hwrite] at hspec
          obtain ⟨-, wnc, wcap, wfr, whop, wmin, wkeep, wri, wwi, wav, wwf,
            whit, wmiss⟩ := hspec
          have hav1 : s₁.availableFeatures ≤ s₁.capacityFeatures := by
            rw [wav, wcap]
            exact hfit
          obtain ⟨inc, icap, ifr, ihop, imin, ikeep, iri, iwi, iav, iavle, iwf,
            ihit, imiss⟩ := ih s₁ s' wwf hav1 hLUr hseq1
          have hdlen : ∀ c < s.numChannels, (b.getD c []).length
              = (b.getD 0 []).length := by
            intro c hc
            have hc2 : c < b.length := by omega
            exact hcons _ (getD_mem_of_lt hc2 [])
          have htot : s.availableFeatures + totalLen (b :: bs)
              ≤ s.capacityFeatures := by
            have h6 : s'.availableFeatures
                = s.availableFeatures + totalLen (b :: bs) := by
              rw [iav, wav, totalLen_cons]
              omega
            have h7 : s'.availableFeatures ≤ s₁.capacityFeatures := iavle
            rw [wcap] at h7
            omega
          refine ⟨?_, ?_, ?_, ?_, ?_, ?_, ?_, ?_, ?_, ?_, iwf, ?_, ?_⟩
          · rw [inc, wnc]
          · rw [icap, wcap]
          · rw [ifr, wfr]
          · rw [ihop, whop]
          · rw [imin, wmin]
          · rw [ikeep, wkeep]
          · rw [iri, wri]
          · rw [iwi, wwi, wcap, addMod_add, totalLen_cons]
          · rw [iav, wav, totalLen_cons]
            omega
          · rw [iav, wav, ← wcap, ← icap]
            rw [icap, wcap]
            rw [totalLen_cons] at htot
            omega
          · intro c hc j hj
            rw [totalLen_cons] at hj
            rw [chanConcat_cons]
            by_cases hjL : j < (b.getD 0 []).length
            · have hq : (s.writeIndexFeatures + j) % s.capacityFeatures
                  < s.capacityFeatures := Nat.mod_lt _ hcap
              have hmissr : ∀ t < totalLen bs,
                  (s₁.writeIndexFeatures + t) % s.capacityFeatures
                    ≠ (s.writeIndexFeatures + j) % s.capacityFeatures := by
                intro t ht
                rw [wwi, addMod_add]
                intro heq
                have h8 := addMod_inj s.capacityFeatures s.writeIndexFeatures
                  (by rw [totalLen_cons] at htot; omega) (by omega) heq
                omega
              have h9 := imiss c (by rw [wnc]; exact hc)
                ((s.writeIndexFeatures + j) % s.capacityFeatures)
                (by rw [wcap]; exact hq) (by rw [wcap]; exact hmissr)
              rw [h9, whit c hc j hjL]
              rw [List.getElem?_append_left (by rw [hdlen c hc]; exact hjL)]
            · have h10 : (b.getD 0 []).length + (j - (b.getD 0 []).length) = j := by
                omega
              have h11 := ihit c (by rw [wnc]; exact hc) (j - (b.getD 0 []).length)
                (by omega)
              rw [wwi, wcap, addMod_add, h10] at h11
              rw [h11]
              rw [List.getElem?_append_right (by rw [hdlen c hc]; omega)]
              rw [hdlen c hc]
          · intro c hc q hq hmiss
            rw [totalLen_cons] at hmiss
            have h12 := imiss c (by rw [wnc]; exact hc) q (by rw [wcap]; exact hq)
              (by
                intro t ht
                rw [wwi, wcap, addMod_add]
                exact hmiss ((b.getD 0 []).length + t) (by omega))
            rw [h12]
            exact wmiss c hc q hq (fun i hi => hmiss i (by omega))

end FramingRingBuffer2D

namespace FramingRingBuffer3D

variable {α : Type}

/-- Inversion of a successful validation of a full-block 3D write,
including the feature-dimension check. -/
theorem validate_ok_inv3 (s : FramingRingBuffer3D α) (b : List (List (List α))) (a : Nat)
    (hne : ¬ b.isEmpty) (hLU : (b.getD 0 []).length < U64)
    (hval : s.validateWriteInput b 0 0 = .ok a) :
    b.length = s.numChannels ∧ (∀ c ∈ b, c.length = (b.getD 0 []).length) ∧
    (∀ c ∈ b, ∀ v ∈ c, v.length = s.featureDim) ∧
    a = (b.getD 0 []).length := by
  unfold validateWriteInput at hval
  by_cases h1 : b.length ≠ s.numChannels
  · rw [if_pos h1] at hval
    exact absurd hval (by simp)
  rw [if_neg h1, if_neg hne] at hval
  by_cases h2 : (b.drop 1).any (fun c => c.length ≠ (b.getD 0 []).length)
  · rw [if_pos h2] at hval
    exact absurd hval (by simp)
  rw [if_neg h2, if_neg (by omega)] at hval
  rw [if_pos rfl, sub64_zero, Nat.mod_eq_of_lt hLU] at hval
  simp only at hval
  rw [Nat.zero_add, Nat.mod_eq_of_lt hLU] at hval
  rw [if_neg (by omega)] at hval
  have hconsist : ∀ c ∈ b, c.length = (b.getD 0 []).length := by
    intro c hc
    obtain ⟨i, hi, hieq⟩ := List.getElem_of_mem hc
    have h2' : ∀ x ∈ b.drop 1, x.length = (b.getD 0 []).length := by
      intro x hx
      by_contra hne2
      exact h2 (List.any_eq_true.mpr ⟨x, hx, by simpa using hne2⟩)
    rcases Nat.eq_zero_or_pos i with hi0 | hipos
    · subst hi0
      rw [← hieq]
      have hg : b.getD 0 [] = b[0] := getD_eq_of_getElem? (List.getElem?_eq_getElem hi)
      rw [hg]
    · have hmem : b[i] ∈ b.drop 1 := by
        rw [List.mem_iff_getElem?]
        refine ⟨i - 1, ?_⟩
        rw [List.getElem?_drop]
        have h4 : 1 + (i - 1) = i := by omega
        rw [h4]
        exact List.getElem?_eq_getElem hi
      rw [← hieq]
      exact h2' _ hmem
  by_cases h3 : b.any (fun c => ((c.drop 0).take (b.getD 0 []).length).any
      (fun v => v.length ≠ s.featureDim))
  · rw [if_pos h3] at hval
    exact absurd hval (by simp)
  rw [if_neg h3] at hval
  refine ⟨Decidable.not_not.mp h1, hconsist, ?_, (Except.ok.inj hval).symm⟩
  intro c hcmem v hv
  have hclen : c.length = (b.getD 0 []).length := hconsist c hcmem
  by_contra hvne
  refine h3 (List.any_eq_true.mpr ⟨c, hcmem, List.any_eq_true.mpr ⟨v, ?_, by simpa using hvne⟩⟩)
  rw [List.drop_zero, ← hclen, List.take_length]
  exact hv

/-- Inversion of a successful (`ok true`) nonempty full-block 3D write. -/
theorem write_ok_inv3 (s : FramingRingBuffer3D α) (b : List (List (List α)))
    (hav : s.availableTime ≤ s.capacityTime)
    (hU : s.capacityTime < U64)
    (hLU : (b.getD 0 []).length < U64)
    (hok : (s.write b 0 0).1 = .ok true) (hne : ¬ b.isEmpty) :
    b.length = s.numChannels ∧ (∀ c ∈ b, c.length = (b.getD 0 []).length) ∧
    (∀ c ∈ b, ∀ v ∈ c, v.length = s.featureDim) ∧
    s.availableTime + (b.getD 0 []).length ≤ s.capacityTime := by
  unfold write at hok
  rw [if_neg hne] at hok
  cases hval : s.validateWriteInput b 0 0 with
  | error e =>
    rw [hval] at hok
    exact Except.noConfusion hok
  | ok a =>
    rw [hval] at hok
    obtain ⟨hch, hcons, hfeat, ha⟩ := validate_ok_inv3 s b a hne hLU hval
    by_cases ha0 : a = 0
    · exact ⟨hch, hcons, hfeat, by omega⟩
    · have h5 : ((if a = 0 then ((Except.ok true : Except ShapeError Bool), s)
          else if a > s.getAvailableWrite then (.ok false, s)
          else (.ok true, { s with
            buffers := List.zipWith (fun chBuf chData => (List.range a).foldl
              (fun bb t => bb.set ((s.writeIndexTime + t) % s.capacityTime)
                (setSlot s.featureDim
                  (bb.getD ((s.writeIndexTime + t) % s.capacityTime) [])
                  (chData.getD (0 + t) []))) chBuf) s.buffers b
            writeIndexTime := (s.writeIndexTime + a) % s.capacityTime
            availableTime := s.availableTime + a })).1) = .ok true := hok
      rw [if_neg ha0] at h5
      by_cases hgt : a > s.getAvailableWrite
      · rw [if_pos hgt] at h5
        have hfb := Except.ok.inj h5
        exact absurd hfb (by simp)
      · refine ⟨hch, hcons, hfeat, ?_⟩
        unfold getAvailableWrite at hgt
        rw [sub64_eq_sub hav hU] at hgt
        omega

/-- Cumulative effect of a successful sequence of full-block 3D writes. -/
theorem writeSeq_spec3 :
    ∀ (bs : List (List (List (List α)))) (s s' : FramingRingBuffer3D α),
    s.WF → s.availableTime ≤ s.capacityTime →
    (∀ b ∈ bs, (b.getD 0 []).length < U64) →
    s.writeSeq bs = some s' →
    s'.numChannels = s.numChannels ∧
    s'.featureDim = s.featureDim ∧
    s'.capacityTime = s.capacityTime ∧
    s'.frameSizeTime = s.frameSizeTime ∧
    s'.hopSizeTime = s.hopSizeTime ∧
    s'.minFrames = s.minFrames ∧
    s'.keepFrames = s.keepFrames ∧
    s'.readIndexTime = s.readIndexTime ∧
    s'.writeIndexTime = (s.writeIndexTime + totalLen bs) % s.capacityTime ∧
    s'.availableTime = s.availableTime + totalLen bs ∧
    s'.availableTime ≤ s.capacityTime ∧
    s'.WF ∧
    (∀ c < s.numChannels, ∀ j < totalLen bs,
      (s'.chB c)[(s.writeIndexTime + j) % s.capacityTime]?
        = (chanConcat bs c)[j]?) ∧
    (∀ c < s.numChannels, ∀ q < s.capacityTime,
      (∀ j < totalLen bs, (s.writeIndexTime + j) % s.capacityTime ≠ q) →
      (s'.chB c)[q]? = (s.chB c)[q]?) ∧
    (∀ c < s.numChannels, ∀ slot ∈ chanConcat bs c, slot.length = s.featureDim) := by
  intro bs
  induction bs with
  | nil =>
    intro s s' hwf hav hLU hseq
    have hs : s = s' := Option.some.inj hseq
    subst hs
    obtain ⟨hnc, hfd, hcap, hfr, hhop, hU, hwi, hri, hblen, hball⟩ := hwf
    have hwf' : s.WF := ⟨hnc, hfd, hcap, hfr, hhop, hU, hwi, hri, hblen, hball⟩
    refine ⟨rfl, rfl, rfl, rfl, rfl, rfl, rfl, rfl, ?_, ?_, hav, hwf', ?_, ?_, ?_⟩
    · rw [totalLen_nil, Nat.add_zero, Nat.mod_eq_of_lt hwi]
    · rw [totalLen_nil, Nat.add_zero]
    · intro c hc j hj
      rw [totalLen_nil] at hj
      omega
    · intro c hc q hq hmiss
      rfl
    · intro c hc slot hslot
      rw [chanConcat_nil] at hslot
      exact absurd hslot (List.not_mem_nil slot)
  | cons b bs ih =>
    intro s s' hwf hav hLU hseq
    obtain ⟨hnc, hfd, hcap, hfr, hhop, hU, hwi, hri, hblen, hball⟩ := hwf
    have hwf' : s.WF := ⟨hnc, hfd, hcap, hfr, hhop, hU, hwi, hri, hblen, hball⟩
    have hLUb : (b.getD 0 []).length < U64 := hLU b (List.mem_cons_self b bs)
    have hLUr : ∀ b' ∈ bs, (b'.getD 0 []).length < U64 := by
      intro b' hb'
      exact hLU b' (List.mem_cons_of_mem b hb')
    simp only [writeSeq] at hseq
    rcases hwrite : s.write b 0 0 with ⟨r, s₁⟩
    rw [hwrite] at hseq
    cases r with
    | error e => exact Option.noConfusion hseq
    | ok bv =>
      cases bv with
      | false => exact Option.noConfusion hseq
      | true =>
        have hseq1 : s₁.writeSeq bs = some s' := hseq
        by_cases hne : b.isEmpty
        · have hb : b = [] := List.isEmpty_iff.mp hne
          subst hb
          have hws : s.write [] 0 0 = ((.ok true : Except ShapeError Bool), s) := rfl
          rw [hws] at hwrite
          have hs1 : s = s₁ := congrArg Prod.snd hwrite
          subst hs1
          obtain ⟨inc, ifd, icap, ifr, ihop, imin, ikeep, iri, iwi, iav, iavle, iwf,
            ihit, imiss, islot⟩ := ih s s' hwf' hav hLUr hseq1
          have htl : totalLen (([] : List (List (List α))) :: bs) = totalLen bs := by
            rw [totalLen_cons]
            show 0 + totalLen bs = totalLen bs
            omega
          have hcc : ∀ c, chanConcat (([] : List (List (List α))) :: bs) c
              = chanConcat bs c := by
            intro c
            rw [chanConcat_cons]
            rfl
          refine ⟨inc, ifd, icap, ifr, ihop, imin, ikeep, iri, ?_, ?_, iavle, iwf,
            ?_, ?_, ?_⟩
          · rw [htl]
            exact iwi
          · rw [htl]
            exact iav
          · intro c hc j hj
            rw [htl] at hj
            rw [hcc]
            exact ihit c hc j hj
          · intro c hc q hq hmiss
            refine imiss c hc q hq ?_
            intro j hj
            rw [← htl] at hj
            exact hmiss j hj
          · intro c hc slot hslot
            rw [hcc] at hslot
            exact islot c hc slot hslot
        · have hok1 : (s.write b 0 0).1 = .ok true := by rw [hwrite]
          obtain ⟨hch, hcons, hfeat, hfit⟩ := write_ok_inv3 s b hav hU hLUb hok1 hne
          have hspec := write_full_spec3 s b hwf' hav hch hcons hfeat hLUb hfit
          rw [hwrite] at hspec
          obtain ⟨-, wnc, wfd, wcap, wfr, whop, wmin, wkeep, wri, wwi, wav, wwf,
            whit, wmiss⟩ := hspec
          have hav1 : s₁.availableTime ≤ s₁.capacityTime := by
            rw [wav, wcap]
            exact hfit
          obtain ⟨inc, ifd, icap, ifr, ihop, imin, ikeep, iri, iwi, iav, iavle, iwf,
            ihit, imiss, islot⟩ := ih s₁ s' wwf hav1 hLUr hseq1
          have hdlen : ∀ c < s.numChannels, (b.getD c []).length
              = (b.getD 0 []).length := by
            intro c hc
            have hc2 : c < b.length := by omega
            exact hcons _ (getD_mem_of_lt hc2 [])
          have htot : s.availableTime + totalLen (b :: bs) ≤ s.capacityTime := by
            have h7 : s'.availableTime ≤ s₁.capacityTime := iavle
            rw [iav, wav, wcap] at h7
            rw [totalLen_cons]
            omega
          refine ⟨?_, ?_, ?_, ?_, ?_, ?_, ?_, ?_, ?_, ?_, ?_, iwf, ?_, ?_, ?_⟩
          · rw [inc, wnc]
          · rw [ifd, wfd]
          · rw [icap, wcap]
          · rw [ifr, wfr]
          · rw [ihop, whop]
          · rw [imin, wmin]
          · rw [ikeep, wkeep]
          · rw [iri, wri]
          · rw [iwi, wwi, wcap, addMod_add, totalLen_cons]
          · rw [iav, wav, totalLen_cons]
            omega
          · rw [iav, wav]
            rw [totalLen_cons] at htot
            omega
          · intro c hc j hj
            rw [totalLen_cons] at hj
            rw [chanConcat_cons]
            by_cases hjL : j < (b.getD 0 []).length
            · have hq : (s.writeIndexTime + j) % s.capacityTime
                  < s.capacityTime := Nat.mod_lt _ hcap
              have hmissr : ∀ t < totalLen bs,
                  (s₁.writeIndexTime + t) % s.capacityTime
                    ≠ (s.writeIndexTime + j) % s.capacityTime := by
                intro t ht
                rw [wwi, addMod_add]
                intro heq
                have h8 := addMod_inj s.capacityTime s.writeIndexTime
                  (by rw [totalLen_cons] at htot; omega) (by omega) heq
                omega
              have h9 := imiss c (by rw [wnc]; exact hc)
                ((s.writeIndexTime + j) % s.capacityTime)
                (by rw [wcap]; exact hq) (by rw [wcap]; exact hmissr)
              rw [h9, whit c hc j hjL]
              rw [List.getElem?_append_left (by rw [hdlen c hc]; exact hjL)]
            · have h10 : (b.getD 0 []).length + (j - (b.getD 0 []).length) = j := by
                omega
              have h11 := ihit c (by rw [wnc]; exact hc) (j - (b.getD 0 []).length)
                (by omega)
              rw [wwi, wcap, addMod_add, h10] at h11
              rw [h11]
              rw [List.getElem?_append_right (by rw [hdlen c hc]; omega)]
              rw [hdlen c hc]
          · intro c hc q hq hmiss
            rw [totalLen_cons] at hmiss
            have h12 := imiss c (by rw [wnc]; exact hc) q (by rw [wcap]; exact hq)
              (by
                intro t ht
                rw [wwi, wcap, addMod_add]
                exact hmiss ((b.getD 0 []).length + t) (by omega))
            rw [h12]
            exact wmiss c hc q hq (fun i hi => hmiss i (by omega))
          · intro c hc slot hslot
            rw [chanConcat_cons] at hslot
            rcases List.mem_append.mp hslot with hsl | hsl
            · have hc2 : c < b.length := by omega
              exact hfeat _ (getD_mem_of_lt hc2 []) slot hsl
            · have h13 := islot c (by rw [wnc]; exact hc) slot hsl
              rw [wfd] at h13
              exact h13

end FramingRingBuffer3D

theorem map_range_getElem? {β : Type} (f : Nat → β) {n t : Nat} (ht : t < n) :
    ((List.range n).map f)[t]? = some (f t) := by
  rw [List.getElem?_map, List.getElem?_range ht]
  rfl

/-- C1: round trip for the framing buffers.  Starting from a well-formed
empty buffer whose read cursor coincides with its write cursor, after any
sequence of successful full-block writes (each block of `size_t` length), a
read of all available frames (`numFrames = 0`) succeeds and returns, per
channel, the contiguous span of the originally written values — element
for element, exactly, including when the stored span wraps past the
physical end of storage.  Stated for both `FramingRingBuffer2D` and
`FramingRingBuffer3D`. -/
theorem claim_C1_round_trip :
    (∀ (α : Type) (s₀ s₁ : FramingRingBuffer2D α) (bs : List (List (List α))),
      s₀.WF → s₀.availableFeatures = 0 →
      s₀.readIndexFeatures = s₀.writeIndexFeatures →
      (∀ b ∈ bs, (b.getD 0 []).length < U64) →
      s₀.writeSeq bs = some s₁ →
      s₁.minFrames ≤ s₁.getAvailableFramesRead →
      s₁.getAvailableFramesRead ≠ 0 →
      (s₁.read [] 0).1 = true ∧
      (s₁.getAvailableFramesRead - 1) * s₀.hopSizeFeatures + s₀.frameSizeFeatures
        ≤ totalLen bs ∧
      (∀ c < s₀.numChannels,
        ∀ j < (s₁.getAvailableFramesRead - 1) * s₀.hopSizeFeatures
          + s₀.frameSizeFeatures,
        ((s₁.read [] 0).2.1.getD c [])[j]? = (chanConcat bs c)[j]?)) ∧
    (∀ (α : Type) [Inhabited α] (s₀ s₁ : FramingRingBuffer3D α)
        (bs : List (List (List (List α)))),
      s₀.WF → s₀.availableTime = 0 →
      s₀.readIndexTime = s₀.writeIndexTime →
      (∀ b ∈ bs, (b.getD 0 []).length < U64) →
      s₀.writeSeq bs = some s₁ →
      s₁.minFrames ≤ s₁.getAvailableFramesRead →
      s₁.getAvailableFramesRead ≠ 0 →
      (s₁.read [] 0).1 = true ∧
      (s₁.getAvailableFramesRead - 1) * s₀.hopSizeTime + s₀.frameSizeTime
        ≤ totalLen bs ∧
      (∀ c < s₀.numChannels,
        ∀ t < (s₁.getAvailableFramesRead - 1) * s₀.hopSizeTime + s₀.frameSizeTime,
        ((s₁.read [] 0).2.1.getD c [])[t]? = (chanConcat bs c)[t]?)) := by
  constructor
  · intro α s₀ s₁ bs hwf hav0 hri0 hLU hseq hmin hF0
    obtain ⟨inc, icap, ifr, ihop, imin, ikeep, iri, iwi, iav, iavle, iwf, ihit,
      imiss⟩ := FramingRingBuffer2D.writeSeq_spec bs s₀ s₁ hwf (by omega) hLU hseq
    obtain ⟨hnc, hcap, hfr, hhop, hU, hwi, hriw, hblen, hball⟩ := hwf
    obtain ⟨hnc1, hcap1, hfr1, hhop1, hU1, hwi1, hri1, hblen1, hball1⟩ := iwf
    have iwf' : s₁.WF := ⟨hnc1, hcap1, hfr1, hhop1, hU1, hwi1, hri1, hblen1, hball1⟩
    have htotal : s₁.availableFeatures = totalLen bs := by
      rw [iav, hav0, Nat.zero_add]
    have hspan_le : (s₁.getAvailableFramesRead - 1) * s₁.hopSizeFeatures
        + s₁.frameSizeFeatures ≤ s₁.availableFeatures :=
      FramingRingBuffer2D.span_le_avail s₁ hF0 (le_refl _)
        (by rw [ihop]; exact hhop)
    have hspan_eq : (s₁.getAvailableFramesRead - 1) * s₁.hopSizeFeatures
        + s₁.frameSizeFeatures
        = (s₁.getAvailableFramesRead - 1) * s₀.hopSizeFeatures
          + s₀.frameSizeFeatures := by
      rw [ihop, ifr]
    obtain ⟨hr1, hr2, hr3⟩ := FramingRingBuffer2D.read_success_spec s₁ [] 0
      s₁.getAvailableFramesRead
      ((s₁.getAvailableFramesRead - 1) * s₁.hopSizeFeatures + s₁.frameSizeFeatures)
      ((if s₁.getAvailableFramesRead > s₁.keepFrames then
          s₁.getAvailableFramesRead - s₁.keepFrames else 0) * s₁.hopSizeFeatures)
      hmin rfl hF0 (le_refl _) rfl rfl
    refine ⟨hr1, by omega, ?_⟩
    intro c hc j hj
    have hc₁ : c < s₁.numChannels := by rw [inc]; exact hc
    have hclen : c < s₁.buffer.length := by
      rw [hblen1]
      exact hc₁
    have hbufc : (s₁.buffer.getD c []).length = s₁.capacityFeatures :=
      iwf'.ch_length hc₁
    have hsp_cap : (s₁.getAvailableFramesRead - 1) * s₁.hopSizeFeatures
        + s₁.frameSizeFeatures ≤ s₁.capacityFeatures := by
      rw [icap]
      omega
    have hj₁ : j < (s₁.getAvailableFramesRead - 1) * s₁.hopSizeFeatures
        + s₁.frameSizeFeatures := by omega
    have htl : j < totalLen bs := by omega
    rw [hr2, getD_map_of_lt hclen [] []]
    rw [copyOutWrap_getElem? s₁.capacityFeatures (s₁.buffer.getD c [])
      s₁.readIndexFeatures
      ((s₁.getAvailableFramesRead - 1) * s₁.hopSizeFeatures + s₁.frameSizeFeatures)
      j hbufc hri1 hsp_cap hj₁]
    rw [iri, hri0, icap]
    exact ihit c hc j htl
  · intro α inst s₀ s₁ bs hwf hav0 hri0 hLU hseq hmin hF0
    obtain ⟨inc, ifd, icap, ifr, ihop, imin, ikeep, iri, iwi, iav, iavle, iwf,
      ihit, imiss, islot⟩ :=
      FramingRingBuffer3D.writeSeq_spec3 bs s₀ s₁ hwf (by omega) hLU hseq
    obtain ⟨hnc, hfd, hcap, hfr, hhop, hU, hwi, hriw, hblen, hball⟩ := hwf
    obtain ⟨hnc1, hfd1, hcap1, hfr1, hhop1, hU1, hwi1, hri1, hblen1, hball1⟩ := iwf
    have htotal : s₁.availableTime = totalLen bs := by
      rw [iav, hav0, Nat.zero_add]
    have hspan_le : (s₁.getAvailableFramesRead - 1) * s₁.hopSizeTime
        + s₁.frameSizeTime ≤ s₁.availableTime :=
      FramingRingBuffer3D.span_le_avail3 s₁ hF0 (le_refl _)
    have hspan_eq : (s₁.getAvailableFramesRead - 1) * s₁.hopSizeTime
        + s₁.frameSizeTime
        = (s₁.getAvailableFramesRead - 1) * s₀.hopSizeTime + s₀.frameSizeTime := by
      rw [ihop, ifr]
    obtain ⟨hr1, hr2, hr3⟩ := FramingRingBuffer3D.read_success_spec3 s₁ [] 0
      s₁.getAvailableFramesRead
      ((s₁.getAvailableFramesRead - 1) * s₁.hopSizeTime + s₁.frameSizeTime)
      ((if s₁.getAvailableFramesRead > s₁.keepFrames then
          s₁.getAvailableFramesRead - s₁.keepFrames else 0) * s₁.hopSizeTime)
      hmin rfl hF0 (le_refl _) rfl rfl
    refine ⟨hr1, by omega, ?_⟩
    intro c hc t ht
    have hc₁ : c < s₁.numChannels := by rw [inc]; exact hc
    have hclen : c < s₁.buffers.length := by
      rw [hblen1]
      exact hc₁
    have hchBlen : (s₁.chB c).length = s₁.capacityTime :=
      (hball1 _ (getD_mem_of_lt hclen [])).1
    have ht₁ : t < (s₁.getAvailableFramesRead - 1) * s₁.hopSizeTime
        + s₁.frameSizeTime := by omega
    have htl : t < totalLen bs := by omega
    rw [hr2, getD_map_of_lt hclen [] []]
    rw [map_range_getElem? _ ht₁]
    have hidx : (s₀.writeIndexTime + t) % s₀.capacityTime < (s₁.chB c).length := by
      rw [hchBlen, icap]
      exact Nat.mod_lt _ hcap
    have hval2 : (chanConcat bs c)[t]?
        = some ((s₁.chB c).getD ((s₀.writeIndexTime + t) % s₀.capacityTime) []) := by
      rw [← ihit c hc t htl]
      exact getElem?_eq_some_getD hidx []
    have hmem2 : ((s₁.chB c).getD ((s₀.writeIndexTime + t) % s₀.capacityTime) [])
        ∈ chanConcat bs c := by
      rw [List.mem_iff_getElem?]
      exact ⟨t, hval2⟩
    have hslotlen := islot c hc _ hmem2
    rw [iri, hri0, icap, ifd]
    rw [setSlot_eq (by rw [List.length_replicate]) ?hsrc]
    case hsrc =>
      exact hslotlen
    exact hval2.symm

/-- C1 witness: the round-trip theorem applied at concrete wrap-exercising
2D and 3D buffers with two-block resp. one-block write sequences. -/
theorem claim_C1_round_trip_witness :
    ((((frbC1.writeSeq [[[1, 2], [5, 6]], [[3], [7]]]).getD frbDflt).read [] 0).1
        = true ∧
      ((((frbC1.writeSeq [[[1, 2], [5, 6]], [[3], [7]]]).getD frbDflt).read
        [] 0).2.1.getD 0 [])[0]? = some 1 ∧
      ((((frbC1.writeSeq [[[1, 2], [5, 6]], [[3], [7]]]).getD frbDflt).read
        [] 0).2.1.getD 1 [])[2]? = some 7) ∧
    ((((frb3C1.writeSeq [[[[1, 2], [3, 4], [5, 6]]]]).getD frb3Dflt).read [] 0).1
        = true ∧
      ((((frb3C1.writeSeq [[[[1, 2], [3, 4], [5, 6]]]]).getD frb3Dflt).read
        [] 0).2.1.getD 0 [])[1]? = some [3, 4]) := by
  constructor
  · obtain ⟨h1, h2, h3⟩ := claim_C1_round_trip.1 Int frbC1
      ((frbC1.writeSeq [[[1, 2], [5, 6]], [[3], [7]]]).getD frbDflt)
      [[[1, 2], [5, 6]], [[3], [7]]]
      (by decide) (by decide) (by decide) (by decide) (by decide) (by decide)
      (by decide)
    refine ⟨h1, ?_, ?_⟩
    · have h4 := h3 0 (by decide) 0 (by decide)
      rw [h4]
      decide
    · have h5 := h3 1 (by decide) 2 (by decide)
      rw [h5]
      decide
  · obtain ⟨h1, h2, h3⟩ := claim_C1_round_trip.2 Int frb3C1
      ((frb3C1.writeSeq [[[[1, 2], [3, 4], [5, 6]]]]).getD frb3Dflt)
      [[[[1, 2], [3, 4], [5, 6]]]]
      (by decide) (by decide) (by decide) (by decide) (by decide) (by decide)
      (by decide)
    refine ⟨h1, ?_⟩
    have h4 := h3 0 (by decide) 1 (by decide)
    rw [h4]
    decide

end JABuff
